import Mathlib

/-!
# Cluster reconciler of the seeder controller

A shallow embedding of `pkg/controllers/cluster_controller.go`: the four
reconcile steps of `ClusterReconciler` (`generateClusterConfig`,
`patchNodesAndPools`, `createTinkerbellHardware`, `cleanupClusterDeps`) and
`Reconcile`, written as state-passing functions over an explicit object store.

* The object store is a record of lists of objects, looked up by
  namespace and name.  Every call of the client (`Get`, `Update`,
  `Status().Update`, `Create`) is one numbered store call.  The outcome of the
  n-th call is chosen by `Env.fault`: `some e` makes the call fail with `e`
  and leaves the store untouched, `none` lets it take its natural course
  (a lookup of an absent object answers `notFound`).
* Every store call and every call of the address allocator appends an `Event`
  to the trace of the `World`, in program order.
* Go maps are association lists.  Ranging over a map visits the entries in
  list order, so every order Go may pick is the order of some list.
* Helpers that live outside the controller file (`util.AllocateAddress`,
  `util.GenerateRand`, `tink.GenerateHWRequest`,
  `controllerutil.SetOwnerReference`) are fields of `Env`.
-/

namespace Seeder

/-! ## Data model -/

/-- Error values that the reconciler distinguishes or produces.
`notFound` is what `apierrors.IsNotFound` recognises; `api` is any other error
of the store; `notReady` and `wrapped` are the errors built with `fmt.Errorf`;
`alloc` and `hw` are errors of the allocator and of the hardware helpers. -/
inductive Err
  | notFound
  | api
  | notReady
  | wrapped
  | alloc
  | hw
deriving DecidableEq, Repr

/-- Key of an object in the store, as `types.NamespacedName`. -/
structure NamespacedName where
  Namespace : String
  Name : String
deriving DecidableEq, Repr

/-- Reference to an object by name and namespace. -/
structure ObjectReference where
  Name : String
  Namespace : String
deriving DecidableEq, Repr

/-- Modelled from the spec: the kind tags `KindCluster` and `KindInventory` of a
claimant, constants of the API package declared outside `inventory_types.go`;
`other` stands for every other string. -/
inductive ObjectKind
  | KindCluster
  | KindInventory
  | other (s : String)
deriving DecidableEq, Repr

/-- Claimant of an address: an object reference together with its kind. -/
structure ObjectReferenceWithKind extends ObjectReference where
  Kind : ObjectKind
deriving DecidableEq, Repr

/-- Condition types.  The first six are declared in `inventory_types.go`; the
last four named ones are used by the controller and declared elsewhere;
`other` stands for every other string. -/
inductive ConditionType
  | BMCTaskRequest
  | BMCTaskSubmitted
  | BMCTaskComplete
  | BMCTaskError
  | TinkWorkflowCreated
  | TinkWorkflowError
  | InventoryAllocatedToCluster
  | InventoryFreed
  | HarvesterCreateNode
  | HarvesterJoinNode
  | other (s : String)
deriving DecidableEq, Repr

/-- One entry of a condition log (`Conditions` in `inventory_types.go`);
times are natural numbers. -/
structure Conditions where
  CondType : ConditionType
  StartTime : Nat
  LastUpdateTime : Nat
  Message : String
deriving DecidableEq, Repr

/-- Phase of an Inventory (`InventoryWorkflowStatus`); `empty` is the empty
string and `other` every string that is not one of the declared constants. -/
inductive InventoryWorkflowStatus
  | empty
  | BMCObjectCreated
  | TinkHardwareSubmitted
  | InventoryReady
  | InventoryRunning
  | other (s : String)
deriving DecidableEq, Repr

/-- PXE network parameters of a machine. -/
structure PXEBootInterface where
  Address : String
  Gateway : String
  Netmask : String
  MacAddress : String
  NameServers : List String
deriving DecidableEq, Repr

instance : Inhabited PXEBootInterface := ⟨⟨"", "", "", "", []⟩⟩

instance : Inhabited ObjectReference := ⟨⟨"", ""⟩⟩

/-- Desired state of an Inventory; the baseboard connection is kept as one
string since the controller never looks into it. -/
structure InventorySpec where
  PrimaryDisk : String
  PXEBootInterface : PXEBootInterface
  BaseboardManagementSpec : String
deriving DecidableEq, Repr

instance : Inhabited InventorySpec := ⟨⟨"", default, ""⟩⟩

/-- Observed state of an Inventory, with the fields the cluster controller reads
and writes (`PXEBootInterface`, `Cluster`, `GeneratedPassword`, `Conditions`). -/
structure InventoryStatus where
  Status : InventoryWorkflowStatus
  GeneratedPassword : String
  HardwareID : String
  Conditions : List Conditions
  PXEBootInterface : PXEBootInterface
  Cluster : ObjectReference
deriving DecidableEq, Repr

instance : Inhabited InventoryStatus := ⟨⟨.empty, "", "", [], default, default⟩⟩

/-- One physical machine. -/
structure Inventory where
  Name : String
  Namespace : String
  Spec : InventorySpec
  Status : InventoryStatus
deriving DecidableEq, Repr

/-- The zero value `&Inventory{}` that a failed lookup leaves behind. -/
instance : Inhabited Inventory := ⟨⟨"", "", default, default⟩⟩

/-- Modelled from the spec: readiness of an address pool, the status type of
`AddressPool` with its constant `PoolReady`, declared outside
`inventory_types.go`; `other` stands for every other string. -/
inductive PoolWorkflowStatus
  | PoolReady
  | other (s : String)
deriving DecidableEq, Repr

/-- Modelled from the spec: the type `AddressPoolSpec` of the API package,
with the one field the controller reads. -/
structure AddressPoolSpec where
  Gateway : String
deriving DecidableEq, Repr

/-- Modelled from the spec: the type `AddressPoolStatus` of the API package:
readiness flag, netmask and the allocation map from address to claimant. -/
structure AddressPoolStatus where
  Status : PoolWorkflowStatus
  Netmask : String
  AddressAllocation : List (String × ObjectReferenceWithKind)
deriving DecidableEq, Repr

/-- Modelled from the spec: the type `AddressPool` of the API package, a pool
of allocatable addresses. -/
structure AddressPool where
  Name : String
  Namespace : String
  Spec : AddressPoolSpec
  Status : AddressPoolStatus
deriving DecidableEq, Repr

/-- The zero value `&AddressPool{}` that a failed lookup leaves behind. -/
instance : Inhabited AddressPool := ⟨⟨"", "", ⟨""⟩, ⟨.other "", "", []⟩⟩⟩

/-- Modelled from the spec: the type `ClusterWorkflowStatus` of the API
package, the phase of a Cluster; `empty` is the empty string, the three named
phases are the constants the controller assigns, `other` is every other
string. -/
inductive ClusterWorkflowStatus
  | empty
  | ClusterConfigReady
  | ClusterNodesPatched
  | ClusterTinkHardwareSubmitted
  | other (s : String)
deriving DecidableEq, Repr

/-- Modelled from the spec: the type `NodeConfig` of the API package, one
desired node of a cluster. -/
structure NodeConfig where
  InventoryReference : ObjectReference
  AddressPoolReference : ObjectReference
  StaticAddress : String
deriving DecidableEq, Repr

/-- Modelled from the spec: the type `VIPConfig` of the API package, the
virtual-address configuration of a cluster. -/
structure VIPConfig where
  AddressPoolReference : ObjectReference
  StaticAddress : String
deriving DecidableEq, Repr

/-- Modelled from the spec: the type `ClusterSpec` of the API package. -/
structure ClusterSpec where
  Nodes : List NodeConfig
  VIPConfig : VIPConfig
deriving DecidableEq, Repr

/-- Modelled from the spec: the type `ClusterStatus` of the API package. -/
structure ClusterStatus where
  Status : ClusterWorkflowStatus
  ClusterAddress : String
  ClusterToken : String
deriving DecidableEq, Repr

/-- Modelled from the spec: the type `Cluster` of the API package, with the
metadata the controller uses (deletion marker and finalizers). -/
structure Cluster where
  Name : String
  Namespace : String
  DeletionTimestamp : Option Nat
  Finalizers : List String
  Spec : ClusterSpec
  Status : ClusterStatus
deriving DecidableEq, Repr

/-- Descriptor of a hardware object of the provisioning engine.  The type
belongs to an external library; the controller only compares two descriptors
with `reflect.DeepEqual`, so a value with decidable equality stands for it. -/
structure HardwareSpec where
  Descriptor : List String
deriving DecidableEq, Repr

/-- Hardware object of the provisioning engine. -/
structure Hardware where
  Name : String
  Namespace : String
  OwnerReferences : List ObjectReferenceWithKind
  Spec : HardwareSpec
deriving DecidableEq, Repr

/-- Modelled from the spec: the constant `ClusterFinalizer` of the API
package, the finalizer that guards a cluster; its value follows
`InventoryFinalizer` of `inventory_types.go`. -/
def ClusterFinalizer : String := "finalizer.cluster.harvesterhci.io"

/-! ## Store, trace and environment -/

/-- The declarative object store. -/
structure Store where
  Clusters : List Cluster
  Inventories : List Inventory
  AddressPools : List AddressPool
  Hardwares : List Hardware
deriving DecidableEq, Repr

/-- One call of the store or of the allocator, with the object sent and the
error it answered (`none` for success). -/
inductive Event
  | getCluster (key : NamespacedName) (err : Option Err)
  | getAddressPool (key : NamespacedName) (err : Option Err)
  | getInventory (key : NamespacedName) (err : Option Err)
  | getHardware (key : NamespacedName) (err : Option Err)
  | statusUpdateAddressPool (obj : AddressPool) (err : Option Err)
  | statusUpdateInventory (obj : Inventory) (err : Option Err)
  | statusUpdateCluster (obj : Cluster) (err : Option Err)
  | updateCluster (obj : Cluster) (err : Option Err)
  | createHardware (obj : Hardware) (err : Option Err)
  | updateHardware (obj : Hardware) (err : Option Err)
  | allocateAddress (status : AddressPoolStatus) (static : String) (err : Option Err)
deriving DecidableEq, Repr

/-- State threaded through a pass: the store, the number of store calls made
so far and the trace of calls in program order. -/
structure World where
  store : Store
  calls : Nat
  trace : List Event
deriving DecidableEq, Repr

/-- What a pass does not control: the outcome of each store call, the
allocator, the random-string source, the hardware helpers and the clock. -/
structure Env where
  fault : Nat → Option Err
  AllocateAddress : AddressPoolStatus → String → Except Err String
  GenerateRand : Nat → String
  GenerateHWRequest : Inventory → Cluster → Except Err Hardware
  SetOwnerReference : Cluster → Hardware → Except Err Hardware
  now : Nat

def Cluster.key (c : Cluster) : NamespacedName := ⟨c.Namespace, c.Name⟩

def Inventory.key (i : Inventory) : NamespacedName := ⟨i.Namespace, i.Name⟩

def AddressPool.key (p : AddressPool) : NamespacedName := ⟨p.Namespace, p.Name⟩

def Hardware.key (h : Hardware) : NamespacedName := ⟨h.Namespace, h.Name⟩

/-- First object stored under key `k`. -/
def lookup {α : Type} (key : α → NamespacedName) (k : NamespacedName) (xs : List α) :
    Option α :=
  xs.find? (fun x => key x = k)

/-- Rewrite the objects stored under key `k` with `f`. -/
def rewrite {α : Type} (key : α → NamespacedName) (k : NamespacedName) (f : α → α)
    (xs : List α) : List α :=
  xs.map (fun x => if key x = k then f x else x)

/-- Outcome of a store call that needs the object to exist: the injected
fault if there is one, else `notFound` when the object is absent. -/
def outcome {α : Type} (fault : Option Err) (found : Option α) : Except Err α :=
  match fault with
  | some e => .error e
  | none =>
    match found with
    | some a => .ok a
    | none => .error .notFound

/-- Error part of a result. -/
def errOf {α : Type} : Except Err α → Option Err
  | .ok _ => none
  | .error e => some e

/-- Record one store call. -/
def World.tick (w : World) (e : Event) : World :=
  { w with calls := w.calls + 1, trace := w.trace ++ [e] }

/-- Record one call that is not a store call. -/
def World.note (w : World) (e : Event) : World :=
  { w with trace := w.trace ++ [e] }

/-- Client call `Get` for a Cluster. -/
def getCluster (env : Env) (k : NamespacedName) (w : World) : Except Err Cluster × World :=
  let r := outcome (env.fault w.calls) (lookup Cluster.key k w.store.Clusters)
  (r, w.tick (.getCluster k (errOf r)))

/-- Client call `Get` for an AddressPool. -/
def getAddressPool (env : Env) (k : NamespacedName) (w : World) :
    Except Err AddressPool × World :=
  let r := outcome (env.fault w.calls) (lookup AddressPool.key k w.store.AddressPools)
  (r, w.tick (.getAddressPool k (errOf r)))

/-- Client call `Get` for an Inventory. -/
def getInventory (env : Env) (k : NamespacedName) (w : World) :
    Except Err Inventory × World :=
  let r := outcome (env.fault w.calls) (lookup Inventory.key k w.store.Inventories)
  (r, w.tick (.getInventory k (errOf r)))

/-- Client call `Get` for a Hardware object. -/
def getHardware (env : Env) (k : NamespacedName) (w : World) :
    Except Err Hardware × World :=
  let r := outcome (env.fault w.calls) (lookup Hardware.key k w.store.Hardwares)
  (r, w.tick (.getHardware k (errOf r)))

/-- Client call `Status().Update` for an AddressPool: on success the stored
object takes the status of `p`. -/
def statusUpdateAddressPool (env : Env) (p : AddressPool) (w : World) : Option Err × World :=
  match outcome (env.fault w.calls) (lookup AddressPool.key p.key w.store.AddressPools) with
  | .error e => (some e, w.tick (.statusUpdateAddressPool p (some e)))
  | .ok _ =>
    (none, { store := { w.store with
                AddressPools := rewrite AddressPool.key p.key
                  (fun q => { q with Status := p.Status }) w.store.AddressPools },
             calls := w.calls + 1,
             trace := w.trace ++ [.statusUpdateAddressPool p none] })

/-- Client call `Status().Update` for an Inventory: on success the stored
object takes the status of `i`. -/
def statusUpdateInventory (env : Env) (i : Inventory) (w : World) : Option Err × World :=
  match outcome (env.fault w.calls) (lookup Inventory.key i.key w.store.Inventories) with
  | .error e => (some e, w.tick (.statusUpdateInventory i (some e)))
  | .ok _ =>
    (none, { store := { w.store with
                Inventories := rewrite Inventory.key i.key
                  (fun q => { q with Status := i.Status }) w.store.Inventories },
             calls := w.calls + 1,
             trace := w.trace ++ [.statusUpdateInventory i none] })

/-- Client call `Status().Update` for a Cluster: on success the stored object
takes the status of `c`, and the caller's object becomes the stored one. -/
def statusUpdateCluster (env : Env) (c : Cluster) (w : World) : Except Err Cluster × World :=
  match outcome (env.fault w.calls) (lookup Cluster.key c.key w.store.Clusters) with
  | .error e => (.error e, w.tick (.statusUpdateCluster c (some e)))
  | .ok old =>
    (.ok { old with Status := c.Status },
     { store := { w.store with
          Clusters := rewrite Cluster.key c.key
            (fun q => { q with Status := c.Status }) w.store.Clusters },
       calls := w.calls + 1,
       trace := w.trace ++ [.statusUpdateCluster c none] })

/-- Client call `Update` for a Cluster: on success the stored object takes
everything but the status from `c` (the status is a subresource), and the
caller's object becomes the stored one. -/
def updateCluster (env : Env) (c : Cluster) (w : World) : Except Err Cluster × World :=
  match outcome (env.fault w.calls) (lookup Cluster.key c.key w.store.Clusters) with
  | .error e => (.error e, w.tick (.updateCluster c (some e)))
  | .ok old =>
    (.ok { c with Status := old.Status },
     { store := { w.store with
          Clusters := rewrite Cluster.key c.key
            (fun q => { c with Status := q.Status }) w.store.Clusters },
       calls := w.calls + 1,
       trace := w.trace ++ [.updateCluster c none] })

/-- Client call `Create` for a Hardware object: fails when one is stored under
the same key already. -/
def createHardware (env : Env) (h : Hardware) (w : World) : Option Err × World :=
  match env.fault w.calls with
  | some e => (some e, w.tick (.createHardware h (some e)))
  | none =>
    match lookup Hardware.key h.key w.store.Hardwares with
    | some _ => (some .api, w.tick (.createHardware h (some .api)))
    | none =>
      (none, { store := { w.store with Hardwares := w.store.Hardwares ++ [h] },
               calls := w.calls + 1,
               trace := w.trace ++ [.createHardware h none] })

/-- Client call `Update` for a Hardware object. -/
def updateHardware (env : Env) (h : Hardware) (w : World) : Option Err × World :=
  match outcome (env.fault w.calls) (lookup Hardware.key h.key w.store.Hardwares) with
  | .error e => (some e, w.tick (.updateHardware h (some e)))
  | .ok _ =>
    (none, { store := { w.store with
                Hardwares := rewrite Hardware.key h.key (fun _ => h) w.store.Hardwares },
             calls := w.calls + 1,
             trace := w.trace ++ [.updateHardware h none] })

/-! ## Maps, finalizers and the condition ledger -/

/-- Go `delete(m, k)`. -/
def mapDelete {β : Type} (m : List (String × β)) (k : String) : List (String × β) :=
  m.filter (fun e => e.1 ≠ k)

/-- Go `m[k] = v`. -/
def mapInsert {β : Type} (m : List (String × β)) (k : String) (v : β) : List (String × β) :=
  mapDelete m k ++ [(k, v)]

/-- The loop `for k, v := range m { if p v { found = true; addr = k } }`: the
last matching key in iteration order, `none` when `found` stays false. -/
def rangeFind {β : Type} (p : β → Bool) (m : List (String × β)) : Option String :=
  m.foldl (fun acc e => if p e.2 then some e.1 else acc) none

/-- Library call `controllerutil.ContainsFinalizer`. -/
def ContainsFinalizer (c : Cluster) (f : String) : Bool := c.Finalizers.contains f

/-- Library call `controllerutil.AddFinalizer`. -/
def AddFinalizer (c : Cluster) (f : String) : Cluster :=
  if c.Finalizers.contains f then c else { c with Finalizers := c.Finalizers ++ [f] }

/-- Library call `controllerutil.RemoveFinalizer`. -/
def RemoveFinalizer (c : Cluster) (f : String) : Cluster :=
  { c with Finalizers := c.Finalizers.filter (fun g => g ≠ f) }

/-- Modelled from the spec: `util.ConditionExists` of the package `util`, true
when the log holds a condition of the given type. -/
def ConditionExists (conds : List Conditions) (t : ConditionType) : Bool :=
  conds.any (fun c => c.CondType = t)

/-- Modelled from the spec: `util.CreateOrUpdateCondition` of the package
`util`: a condition of the type is updated in place (message and last-updated time; first-observed
time and position kept), else a new one is appended. -/
def CreateOrUpdateCondition (now : Nat) (conds : List Conditions) (t : ConditionType)
    (msg : String) : List Conditions :=
  if ConditionExists conds t then
    conds.map (fun c => if c.CondType = t then { c with LastUpdateTime := now, Message := msg } else c)
  else
    conds ++ [{ CondType := t, StartTime := now, LastUpdateTime := now, Message := msg }]

/-- Modelled from the spec: `util.RemoveCondition` of the package `util`: the
log without the conditions of the given type. -/
def RemoveCondition (conds : List Conditions) (t : ConditionType) : List Conditions :=
  conds.filter (fun c => c.CondType ≠ t)

/-! ## The reconcile steps -/

/-- How a loop body ends: `completed` falls through to the next iteration (or
out of the loop), `returned e` is a `return` inside the loop. -/
inductive LoopExit
  | completed
  | returned (err : Option Err)
deriving DecidableEq, Repr

/-- The lookup idiom of the deletion path: `NotFound` sets the missing flag and
leaves the zero object, any other error is returned. -/
def missingOr {α : Type} [Inhabited α] : Except Err α → Except Err (Bool × α)
  | .ok a => .ok (false, a)
  | .error e => if e = .notFound then .ok (true, default) else .error e

/-- Body of the loop of `cleanupClusterDeps` for one node entry. -/
def cleanupNode (env : Env) (nc : NodeConfig) (w : World) : LoopExit × World :=
  let rp := getAddressPool env ⟨nc.AddressPoolReference.Name, nc.AddressPoolReference.Name⟩ w
  match missingOr rp.1 with
  | .error e => (.returned (some e), rp.2)
  | .ok (poolmissing, pool) =>
    let ri := getInventory env ⟨nc.InventoryReference.Name, nc.InventoryReference.Name⟩ rp.2
    match missingOr ri.1 with
    | .error e => (.returned (some e), ri.2)
    | .ok (inventorymissing, i0) =>
      let i : Inventory :=
        if inventorymissing then i0
        else { i0 with Status := { i0.Status with
                 PXEBootInterface := default
                 Cluster := default
                 GeneratedPassword := ""
                 Conditions := [] } }
      let ru := if inventorymissing then (none, ri.2) else statusUpdateInventory env i ri.2
      match ru.1 with
      | some e => (.returned (some e), ru.2)
      | none =>
        if poolmissing then (.completed, ru.2)
        else
          let pool1 : AddressPool := { pool with Status := { pool.Status with
            AddressAllocation := mapDelete pool.Status.AddressAllocation
              i.Status.PXEBootInterface.Address } }
          let rq := statusUpdateAddressPool env pool1 ru.2
          (.returned rq.1, rq.2)

/-- The loop `for _, nc := range c.Spec.Nodes` of `cleanupClusterDeps`. -/
def cleanupNodes (env : Env) : List NodeConfig → World → LoopExit × World
  | [], w => (.completed, w)
  | nc :: rest, w =>
    match cleanupNode env nc w with
    | (.returned e, w1) => (.returned e, w1)
    | (.completed, w1) => cleanupNodes env rest w1

/-- Deletion step `cleanupClusterDeps`. -/
def cleanupClusterDeps (env : Env) (c : Cluster) (w : World) : Option Err × Cluster × World :=
  match cleanupNodes env c.Spec.Nodes w with
  | (.returned e, w1) => (e, c, w1)
  | (.completed, w1) =>
    if ContainsFinalizer c ClusterFinalizer then
      let c1 := RemoveFinalizer c ClusterFinalizer
      let r := updateCluster env c1 w1
      match r.1 with
      | .error e => (some e, c1, r.2)
      | .ok c2 => (none, c2, r.2)
    else (none, c, w1)

/-- The test of the loop of `generateClusterConfig`: the claimant is this
cluster. -/
def isClusterClaim (c : Cluster) (v : ObjectReferenceWithKind) : Bool :=
  v.Kind = .KindCluster && v.Name = c.Name && v.Namespace = c.Namespace

/-- The claim that `generateClusterConfig` records for the cluster. -/
def clusterClaim (c : Cluster) : ObjectReferenceWithKind :=
  { Kind := .KindCluster, Name := c.Name, Namespace := c.Namespace }

/-- Step `generateClusterConfig`. -/
def generateClusterConfig (env : Env) (c : Cluster) (w : World) :
    Option Err × Cluster × World :=
  if c.Status.Status = .empty then
    let rp := getAddressPool env
      ⟨c.Spec.VIPConfig.AddressPoolReference.Namespace, c.Spec.VIPConfig.AddressPoolReference.Name⟩ w
    match rp.1 with
    | .error e => (some e, c, rp.2)
    | .ok vipPool =>
      if vipPool.Status.Status ≠ .PoolReady then (some .notReady, c, rp.2)
      else
        let ra : Option Err × Cluster × World :=
          if c.Status.ClusterAddress = "" then
            match rangeFind (isClusterClaim c) vipPool.Status.AddressAllocation with
            | some address =>
              (none, { c with Status := { c.Status with ClusterAddress := address } }, rp.2)
            | none =>
              let r := env.AllocateAddress vipPool.Status c.Spec.VIPConfig.StaticAddress
              let w1 := rp.2.note
                (.allocateAddress vipPool.Status c.Spec.VIPConfig.StaticAddress (errOf r))
              match r with
              | .error e => (some e, c, w1)
              | .ok vip =>
                let c1 : Cluster := { c with Status := { c.Status with ClusterAddress := vip } }
                let vipPool1 : AddressPool := { vipPool with Status := { vipPool.Status with
                  AddressAllocation :=
                    mapInsert vipPool.Status.AddressAllocation vip (clusterClaim c) } }
                let ru := statusUpdateAddressPool env vipPool1 w1
                match ru.1 with
                | some _ => (some .wrapped, c1, ru.2)
                | none => (none, c1, ru.2)
          else (none, c, rp.2)
        match ra with
        | (some e, c1, w1) => (some e, c1, w1)
        | (none, c1, w1) =>
          let c2 : Cluster := { c1 with Status := { c1.Status with
            ClusterToken := env.GenerateRand w1.calls
            Status := .ClusterConfigReady } }
          let r := statusUpdateCluster env c2 w1
          match r.1 with
          | .error e => (some e, c2, r.2)
          | .ok c3 => (none, c3, r.2)
  else (none, c, w)

/-- The test of the loop of `patchNodesAndPools`: the claimant has the name
and namespace of this Inventory (the kind is not compared). -/
def isInventoryClaim (i : Inventory) (v : ObjectReferenceWithKind) : Bool :=
  v.Name = i.Name && v.Namespace = i.Namespace

/-- The claim that `patchNodesAndPools` records for an Inventory. -/
def inventoryClaim (i : Inventory) : ObjectReferenceWithKind :=
  { Kind := .KindInventory, Name := i.Name, Namespace := i.Namespace }

/-- The condition log that `patchNodesAndPools` writes for the node at index
`n`. -/
def patchedConditions (now : Nat) (c : Cluster) (n : Nat) (conds : List Conditions) :
    List Conditions :=
  let conds1 := CreateOrUpdateCondition now conds .InventoryAllocatedToCluster
    ("node assigned to cluster " ++ c.Name)
  let conds2 := RemoveCondition conds1 .InventoryFreed
  if n = 0 then CreateOrUpdateCondition now conds2 .HarvesterCreateNode "Create Mode"
  else CreateOrUpdateCondition now conds2 .HarvesterJoinNode "Join Mode"

/-- Body of the loop of `patchNodesAndPools` for the node entry at index `n`. -/
def patchNode (env : Env) (c : Cluster) (n : Nat) (nc : NodeConfig) (w : World) :
    LoopExit × World :=
  let rp := getAddressPool env
    ⟨nc.AddressPoolReference.Namespace, nc.AddressPoolReference.Name⟩ w
  match rp.1 with
  | .error _ => (.returned (some .wrapped), rp.2)
  | .ok pool =>
    if pool.Status.Status ≠ .PoolReady then (.returned (some .notReady), rp.2)
    else
      let ri := getInventory env
        ⟨nc.InventoryReference.Namespace, nc.InventoryReference.Name⟩ rp.2
      match ri.1 with
      | .error e => (.returned (some e), ri.2)
      | .ok i =>
        if i.Status.Status ≠ .InventoryReady then (.returned (some .notReady), ri.2)
        else if ConditionExists i.Status.Conditions .InventoryAllocatedToCluster then
          (.completed, ri.2)
        else
          let found := rangeFind (isInventoryClaim i) pool.Status.AddressAllocation
          let ra : Except Err String × World :=
            match found with
            | some address => (.ok address, ri.2)
            | none =>
              let r := env.AllocateAddress pool.Status nc.StaticAddress
              (r, ri.2.note (.allocateAddress pool.Status nc.StaticAddress (errOf r)))
          match ra.1 with
          | .error e => (.returned (some e), ra.2)
          | .ok nodeAddress =>
            let i1 : Inventory := { i with Status := { i.Status with
              PXEBootInterface := { i.Status.PXEBootInterface with
                Address := nodeAddress
                Gateway := pool.Spec.Gateway
                Netmask := pool.Status.Netmask }
              GeneratedPassword := env.GenerateRand ra.2.calls
              Cluster := { Name := c.Name, Namespace := c.Namespace }
              Conditions := patchedConditions env.now c n i.Status.Conditions } }
            let ru := statusUpdateInventory env i1 ra.2
            match ru.1 with
            | some e => (.returned (some e), ru.2)
            | none =>
              if found.isNone then
                let pool1 : AddressPool := { pool with Status := { pool.Status with
                  AddressAllocation :=
                    mapInsert pool.Status.AddressAllocation nodeAddress (inventoryClaim i) } }
                let rq := statusUpdateAddressPool env pool1 ru.2
                match rq.1 with
                | some e => (.returned (some e), rq.2)
                | none => (.completed, rq.2)
              else (.completed, ru.2)

/-- The loop `for n, nc := range c.Spec.Nodes` of `patchNodesAndPools`, from
index `n` on. -/
def patchNodes (env : Env) (c : Cluster) : Nat → List NodeConfig → World → LoopExit × World
  | _, [], w => (.completed, w)
  | n, nc :: rest, w =>
    match patchNode env c n nc w with
    | (.returned e, w1) => (.returned e, w1)
    | (.completed, w1) => patchNodes env c (n + 1) rest w1

/-- Step `patchNodesAndPools`. -/
def patchNodesAndPools (env : Env) (c : Cluster) (w : World) : Option Err × Cluster × World :=
  if c.Status.Status = .ClusterConfigReady then
    match patchNodes env c 0 c.Spec.Nodes w with
    | (.returned e, w1) => (e, c, w1)
    | (.completed, w1) =>
      let c1 : Cluster := { c with Status := { c.Status with Status := .ClusterNodesPatched } }
      let r := statusUpdateCluster env c1 w1
      match r.1 with
      | .error e => (some e, c1, r.2)
      | .ok c2 =>
        if !ContainsFinalizer c2 ClusterFinalizer then
          let c3 := AddFinalizer c2 ClusterFinalizer
          let r2 := updateCluster env c3 r.2
          match r2.1 with
          | .error e => (some e, c3, r2.2)
          | .ok c4 => (none, c4, r2.2)
        else (none, c2, r.2)
  else (none, c, w)

/-- Body of the loop of `createTinkerbellHardware` for one node entry. -/
def tinkNode (env : Env) (c : Cluster) (nc : NodeConfig) (w : World) : LoopExit × World :=
  let ri := getInventory env
    ⟨nc.InventoryReference.Namespace, nc.InventoryReference.Name⟩ w
  match ri.1 with
  | .error e => (.returned (some e), ri.2)
  | .ok inventory =>
    match env.GenerateHWRequest inventory c with
    | .error e => (.returned (some e), ri.2)
    | .ok hw0 =>
      match env.SetOwnerReference c hw0 with
      | .error e => (.returned (some e), ri.2)
      | .ok hw =>
        let rl := getHardware env ⟨hw.Namespace, hw.Name⟩ ri.2
        let rw : Except Err Bool × World :=
          match rl.1 with
          | .error e =>
            if e = .notFound then
              let rc := createHardware env hw rl.2
              match rc.1 with
              | some e1 => (.error e1, rc.2)
              | none => (.ok true, rc.2)
            else (.error e, rl.2)
          | .ok lookupHw =>
            if lookupHw.Spec ≠ hw.Spec then
              let rc := updateHardware env { lookupHw with Spec := hw.Spec } rl.2
              match rc.1 with
              | some e1 => (.error e1, rc.2)
              | none => (.ok true, rc.2)
            else (.ok false, rl.2)
        match rw.1 with
        | .error e => (.returned (some e), rw.2)
        | .ok hardwareUpdated =>
          if hardwareUpdated then
            let inventory1 : Inventory := { inventory with Status := { inventory.Status with
              Conditions := CreateOrUpdateCondition env.now inventory.Status.Conditions
                .TinkWorkflowCreated "tink workflow created" } }
            let ru := statusUpdateInventory env inventory1 rw.2
            match ru.1 with
            | some e => (.returned (some e), ru.2)
            | none => (.completed, ru.2)
          else (.completed, rw.2)

/-- The loop `for _, i := range c.Spec.Nodes` of `createTinkerbellHardware`. -/
def tinkNodes (env : Env) (c : Cluster) : List NodeConfig → World → LoopExit × World
  | [], w => (.completed, w)
  | nc :: rest, w =>
    match tinkNode env c nc w with
    | (.returned e, w1) => (.returned e, w1)
    | (.completed, w1) => tinkNodes env c rest w1

/-- Step `createTinkerbellHardware`. -/
def createTinkerbellHardware (env : Env) (c : Cluster) (w : World) :
    Option Err × Cluster × World :=
  let r1 : LoopExit × World :=
    if c.Status.Status = .ClusterNodesPatched ∨
        c.Status.Status = .ClusterTinkHardwareSubmitted then
      tinkNodes env c c.Spec.Nodes w
    else (.completed, w)
  match r1 with
  | (.returned e, w1) => (e, c, w1)
  | (.completed, w1) =>
    if c.Status.Status = .ClusterNodesPatched then
      let c1 : Cluster :=
        { c with Status := { c.Status with Status := .ClusterTinkHardwareSubmitted } }
      let r := statusUpdateCluster env c1 w1
      match r.1 with
      | .error e => (some e, c1, r.2)
      | .ok c2 => (none, c2, r.2)
    else (none, c, w1)

/-- A reconcile step, as the type `clusterReconciler`. -/
abbrev clusterReconciler := Env → Cluster → World → Option Err × Cluster × World

/-- The loop `for _, reconciler := range list` of `Reconcile`: the steps run in
order on the same cluster object until one returns an error. -/
def runReconcilers (env : Env) : List clusterReconciler → Cluster → World →
    Option Err × Cluster × World
  | [], c, w => (none, c, w)
  | f :: rest, c, w =>
    match f env c w with
    | (some e, c1, w1) => (some e, c1, w1)
    | (none, c1, w1) => runReconcilers env rest c1 w1

def reconcileList : List clusterReconciler :=
  [generateClusterConfig, patchNodesAndPools, createTinkerbellHardware]

def deletionReconcileList : List clusterReconciler :=
  [cleanupClusterDeps]

/-- One pass of `Reconcile` for the cluster with key `req`. -/
def Reconcile (env : Env) (req : NamespacedName) (w : World) : Option Err × World :=
  let r := getCluster env req w
  match r.1 with
  | .error e => if e = .notFound then (none, r.2) else (some e, r.2)
  | .ok c =>
    if c.DeletionTimestamp.isNone then
      let res := runReconcilers env reconcileList c r.2
      (res.1, res.2.2)
    else
      let res := runReconcilers env deletionReconcileList c r.2
      (res.1, res.2.2)

/-! ## Specification predicates and sample states -/

/-- Events that a pass appended to the trace. -/
def passTrace (w w1 : World) : List Event := w1.trace.drop w.trace.length

/-- The status left by the reset of the deletion path. -/
def isReset (s : InventoryStatus) : Prop :=
  s.PXEBootInterface = default ∧ s.Cluster = default ∧ s.GeneratedPassword = "" ∧
    s.Conditions = []

/-- Key under which the deletion path looks up the pool of a node. -/
def cleanupPoolKey (nc : NodeConfig) : NamespacedName :=
  ⟨nc.AddressPoolReference.Name, nc.AddressPoolReference.Name⟩

/-- Key under which the deletion path looks up the Inventory of a node. -/
def cleanupInventoryKey (nc : NodeConfig) : NamespacedName :=
  ⟨nc.InventoryReference.Name, nc.InventoryReference.Name⟩

/-- Writes of the cluster object. -/
def isClusterWrite : Event → Bool
  | .updateCluster _ _ => true
  | .statusUpdateCluster _ _ => true
  | _ => false

/-- In a stretch of trace, every Inventory found has a successful write of its
reset status, and every pool found has a successful write of its status. -/
def SweepDone (evs : List Event) : Prop :=
  (∀ k, Event.getInventory k none ∈ evs →
    ∃ i : Inventory, i.key = k ∧ isReset i.Status ∧ Event.statusUpdateInventory i none ∈ evs) ∧
  (∀ k, Event.getAddressPool k none ∈ evs →
    ∃ p : AddressPool, p.key = k ∧ Event.statusUpdateAddressPool p none ∈ evs)

/-- In a stretch of trace, both lookups of a node entry were made. -/
def Visited (nc : NodeConfig) (evs : List Event) : Prop :=
  (∃ e, Event.getAddressPool (cleanupPoolKey nc) e ∈ evs) ∧
  (∃ e, Event.getInventory (cleanupInventoryKey nc) e ∈ evs)

/-- In a stretch of trace, no lookup found a pool and no pool status was
written. -/
def NoPoolTouched (evs : List Event) : Prop :=
  (∀ k, Event.getAddressPool k none ∉ evs) ∧
  (∀ p e, Event.statusUpdateAddressPool p e ∉ evs)

/-- Allocation entry `a ↦ v` held by the pool stored under key `k`. -/
def holdsClaim (s : Store) (k : NamespacedName) (a : String) (v : ObjectReferenceWithKind) :
    Bool :=
  match lookup AddressPool.key k s.AddressPools with
  | some p => decide ((a, v) ∈ p.Status.AddressAllocation)
  | none => false

/-- Key of the pool of the cluster's virtual address. -/
def vipPoolKey (c : Cluster) : NamespacedName :=
  ⟨c.Spec.VIPConfig.AddressPoolReference.Namespace, c.Spec.VIPConfig.AddressPoolReference.Name⟩

/-- A sample allocator over the range `10.0.0.2` to `10.0.0.4`: a static
address is handed out when it is unclaimed, else the first unclaimed address of
the range; it fails when there is none. -/
def sampleAllocate (st : AddressPoolStatus) (static : String) : Except Err String :=
  if static ≠ "" then
    if st.AddressAllocation.any (fun e => e.1 = static) then .error .alloc else .ok static
  else
    match ["10.0.0.2", "10.0.0.3", "10.0.0.4"].find?
        (fun a => !st.AddressAllocation.any (fun e => e.1 = a)) with
    | some a => .ok a
    | none => .error .alloc

/-- An environment without faults: every store call takes its natural course
and the allocator is `sampleAllocate`. -/
def calmEnv : Env :=
  { fault := fun _ => none
    AllocateAddress := sampleAllocate
    GenerateRand := fun _ => "rand"
    GenerateHWRequest := fun i _ =>
      .ok { Name := i.Name, Namespace := i.Namespace, OwnerReferences := [],
            Spec := ⟨[i.Spec.PrimaryDisk, i.Status.PXEBootInterface.Address]⟩ }
    SetOwnerReference := fun c h =>
      .ok { h with OwnerReferences := [{ Kind := .KindCluster, Name := c.Name,
                                          Namespace := c.Namespace }] }
    now := 7 }

/-- Sample node entry A; name and namespace of each reference coincide. -/
def nodeA : NodeConfig :=
  { InventoryReference := ⟨"inv-a", "inv-a"⟩
    AddressPoolReference := ⟨"pool", "pool"⟩
    StaticAddress := "" }

/-- Sample node entry B. -/
def nodeB : NodeConfig :=
  { InventoryReference := ⟨"inv-b", "inv-b"⟩
    AddressPoolReference := ⟨"pool", "pool"⟩
    StaticAddress := "" }

/-- A cluster that went through all phases and is now marked for deletion. -/
def doomedCluster : Cluster :=
  { Name := "c1", Namespace := "default"
    DeletionTimestamp := some 1
    Finalizers := [ClusterFinalizer]
    Spec := { Nodes := [nodeA, nodeB], VIPConfig := ⟨⟨"vip", "default"⟩, ""⟩ }
    Status := ⟨.ClusterTinkHardwareSubmitted, "10.0.0.100", "token"⟩ }

/-- Inventory of node A, bound to the cluster with address `10.0.0.5`. -/
def boundInventoryA : Inventory :=
  { Name := "inv-a", Namespace := "inv-a"
    Spec := ⟨"/dev/sda", ⟨"", "", "", "aa:aa", []⟩, "bmc-a"⟩
    Status :=
      { Status := .InventoryReady, GeneratedPassword := "pw-a", HardwareID := ""
        Conditions := [⟨.InventoryAllocatedToCluster, 1, 1, "node assigned to cluster c1"⟩,
                       ⟨.HarvesterCreateNode, 1, 1, "Create Mode"⟩]
        PXEBootInterface := ⟨"10.0.0.5", "10.0.0.1", "255.255.255.0", "", []⟩
        Cluster := ⟨"c1", "default"⟩ } }

/-- Inventory of node B, bound to the cluster with address `10.0.0.6`. -/
def boundInventoryB : Inventory :=
  { Name := "inv-b", Namespace := "inv-b"
    Spec := ⟨"/dev/sda", ⟨"", "", "", "bb:bb", []⟩, "bmc-b"⟩
    Status :=
      { Status := .InventoryReady, GeneratedPassword := "pw-b", HardwareID := ""
        Conditions := [⟨.InventoryAllocatedToCluster, 1, 1, "node assigned to cluster c1"⟩,
                       ⟨.HarvesterJoinNode, 1, 1, "Join Mode"⟩]
        PXEBootInterface := ⟨"10.0.0.6", "10.0.0.1", "255.255.255.0", "", []⟩
        Cluster := ⟨"c1", "default"⟩ } }

/-- The node pool with the claims of both Inventories. -/
def claimedNodePool : AddressPool :=
  { Name := "pool", Namespace := "pool"
    Spec := ⟨"10.0.0.1"⟩
    Status := ⟨.PoolReady, "255.255.255.0",
      [("10.0.0.5", { Kind := .KindInventory, Name := "inv-a", Namespace := "inv-a" }),
       ("10.0.0.6", { Kind := .KindInventory, Name := "inv-b", Namespace := "inv-b" })]⟩ }

/-- The pool of the virtual address with the claim of the cluster. -/
def claimedVipPool : AddressPool :=
  { Name := "vip", Namespace := "default"
    Spec := ⟨"10.0.0.1"⟩
    Status := ⟨.PoolReady, "255.255.255.0",
      [("10.0.0.100", { Kind := .KindCluster, Name := "c1", Namespace := "default" })]⟩ }

/-- Store of the provisioned cluster: both Inventories, node pool, VIP pool. -/
def provisionedStore : Store :=
  { Clusters := [doomedCluster]
    Inventories := [boundInventoryA, boundInventoryB]
    AddressPools := [claimedNodePool, claimedVipPool]
    Hardwares := [] }

/-- Same store after the node pool was deleted independently. -/
def poollessStore : Store :=
  { provisionedStore with AddressPools := [claimedVipPool] }

/-- A World at the start of a pass. -/
def freshWorld (s : Store) : World := ⟨s, 0, []⟩

/-- An Inventory after the reset of the deletion path. -/
def resetInventory (i : Inventory) : Inventory :=
  { i with Status := { i.Status with
      PXEBootInterface := default, Cluster := default, GeneratedPassword := "",
      Conditions := [] } }

/-- Calls of the deletion sweep over the store without node pool. -/
def poollessSweep : List Event :=
  [ .getAddressPool ⟨"pool", "pool"⟩ (some .notFound),
    .getInventory ⟨"inv-a", "inv-a"⟩ none,
    .statusUpdateInventory (resetInventory boundInventoryA) none,
    .getAddressPool ⟨"pool", "pool"⟩ (some .notFound),
    .getInventory ⟨"inv-b", "inv-b"⟩ none,
    .statusUpdateInventory (resetInventory boundInventoryB) none ]

/-- Addresses that the pool stored under key `k` holds for the cluster. -/
def clusterClaims (s : Store) (k : NamespacedName) (c : Cluster) : List String :=
  match lookup AddressPool.key k s.AddressPools with
  | some p => (p.Status.AddressAllocation.filter (fun e => isClusterClaim c e.2)).map (·.1)
  | none => []

/-- A sequence of passes of `Reconcile` for the same key, one environment per
pass; each pass starts on the store the previous one left. -/
def runPasses (req : NamespacedName) : List Env → Store → Store
  | [], s => s
  | env :: rest, s => runPasses req rest (Reconcile env req (freshWorld s)).2.store

/-- The allocator answers with a non-empty address. -/
def NonEmptyAlloc (env : Env) : Prop :=
  ∀ st static a, env.AllocateAddress st static = .ok a → a ≠ ""

/-- The allocator answers with an address that is not a key of the allocation
map it was given. -/
def FreshAlloc (env : Env) : Prop :=
  ∀ st static a, env.AllocateAddress st static = .ok a →
    ∀ v, (a, v) ∉ st.AddressAllocation

/-- The allocation map of the pool stored under key `k` has no entry for the
empty address. -/
def NoEmptyAddress (s : Store) (k : NamespacedName) : Prop :=
  ∀ p, lookup AddressPool.key k s.AddressPools = some p →
    ∀ v, ("", v) ∉ p.Status.AddressAllocation

/-- The invariant on the virtual address of the cluster stored under `req`:
with a non-empty phase the address is non-empty and claimed for the cluster in
its VIP pool. -/
def VipClaimed (req : NamespacedName) (s : Store) : Prop :=
  ∀ c, lookup Cluster.key req s.Clusters = some c → c.Status.Status ≠ .empty →
    c.Status.ClusterAddress ≠ "" ∧
    holdsClaim s (vipPoolKey c) c.Status.ClusterAddress (clusterClaim c) = true

/-- The pool stored under key `k` keeps its entries from `ps` to `ps1` and gains
no entry for the empty address. -/
def PoolsGrow (k : NamespacedName) (ps ps1 : List AddressPool) : Prop :=
  (∀ p, lookup AddressPool.key k ps = some p →
    ∃ p1, lookup AddressPool.key k ps1 = some p1 ∧
      ∀ e ∈ p.Status.AddressAllocation, e ∈ p1.Status.AddressAllocation) ∧
  (∀ p1, lookup AddressPool.key k ps1 = some p1 →
    ∃ p, lookup AddressPool.key k ps = some p ∧
      ∀ v, ("", v) ∈ p1.Status.AddressAllocation → ("", v) ∈ p.Status.AddressAllocation)

/-- What the passes keep true of the stored cluster `c` and the stored pools. -/
def ClusterGood (c : Cluster) (ps : List AddressPool) : Prop :=
  c.DeletionTimestamp = none ∧
  (c.Status.Status = .empty → c.Status.ClusterAddress = "") ∧
  (c.Status.Status ≠ .empty → c.Status.ClusterAddress ≠ "" ∧
    ∃ p, lookup AddressPool.key (vipPoolKey c) ps = some p ∧
      (c.Status.ClusterAddress, clusterClaim c) ∈ p.Status.AddressAllocation) ∧
  (∀ p, lookup AddressPool.key (vipPoolKey c) ps = some p →
    ∀ v, ("", v) ∉ p.Status.AddressAllocation)

/-- Outcome of a step started on the stored cluster `c`: the store still holds
a good cluster under the key, and it is the returned one when the step
succeeded. -/
def StepGood (c : Cluster) (r : Option Err × Cluster × World) : Prop :=
  ∃ cP, lookup Cluster.key c.key r.2.2.store.Clusters = some cP ∧
    ClusterGood cP r.2.2.store.AddressPools ∧ (r.1 = none → r.2.1 = cP)

/-- The environment `calmEnv` with an allocator that always answers `10.0.0.9`,
whatever the allocation map holds. -/
def sloppyEnv : Env :=
  { calmEnv with AllocateAddress := fun _ _ => .ok "10.0.0.9" }

/-- A new cluster: empty status, no finalizer, not marked for deletion. -/
def newCluster : Cluster :=
  { Name := "c1", Namespace := "default"
    DeletionTimestamp := none
    Finalizers := []
    Spec := { Nodes := [nodeA, nodeB], VIPConfig := ⟨⟨"vip", "default"⟩, ""⟩ }
    Status := ⟨.empty, "", ""⟩ }

/-- A new cluster whose virtual address comes from the pool of its nodes. -/
def sharedPoolCluster : Cluster :=
  { newCluster with Spec := { Nodes := [nodeA, nodeB], VIPConfig := ⟨⟨"pool", "pool"⟩, ""⟩ } }

/-- Inventory of node A, ready and unbound. -/
def readyInventoryA : Inventory :=
  { Name := "inv-a", Namespace := "inv-a"
    Spec := ⟨"/dev/sda", ⟨"", "", "", "aa:aa", []⟩, "bmc-a"⟩
    Status := ⟨.InventoryReady, "", "", [], ⟨"", "", "", "", []⟩, ⟨"", ""⟩⟩ }

/-- Inventory of node B, ready and unbound. -/
def readyInventoryB : Inventory :=
  { Name := "inv-b", Namespace := "inv-b"
    Spec := ⟨"/dev/sda", ⟨"", "", "", "bb:bb", []⟩, "bmc-b"⟩
    Status := ⟨.InventoryReady, "", "", [], ⟨"", "", "", "", []⟩, ⟨"", ""⟩⟩ }

/-- The node pool, ready, nothing claimed. -/
def freeNodePool : AddressPool :=
  { Name := "pool", Namespace := "pool"
    Spec := ⟨"10.0.0.1"⟩
    Status := ⟨.PoolReady, "255.255.255.0", []⟩ }

/-- The VIP pool, ready, nothing claimed. -/
def freeVipPool : AddressPool :=
  { Name := "vip", Namespace := "default"
    Spec := ⟨"10.0.0.1"⟩
    Status := ⟨.PoolReady, "255.255.255.0", []⟩ }

/-- The VIP pool with an entry for the empty address under the cluster's
identity. -/
def emptyKeyVipPool : AddressPool :=
  { freeVipPool with Status := ⟨.PoolReady, "255.255.255.0",
      [("", { Kind := .KindCluster, Name := "c1", Namespace := "default" })]⟩ }

/-- Store before the first pass over the new cluster. -/
def newStore : Store :=
  { Clusters := [newCluster]
    Inventories := [readyInventoryA, readyInventoryB]
    AddressPools := [freeNodePool, freeVipPool]
    Hardwares := [] }

/-- Store before the first pass over the cluster that shares its node pool. -/
def sharedPoolStore : Store :=
  { newStore with Clusters := [sharedPoolCluster] }

/-- Store whose VIP pool has the entry for the empty address. -/
def emptyKeyStore : Store :=
  { newStore with AddressPools := [freeNodePool, emptyKeyVipPool] }

/-- Phase and virtual address of the cluster stored under `req`. -/
def storedPhase (s : Store) (req : NamespacedName) : Option (ClusterWorkflowStatus × String) :=
  (lookup Cluster.key req s.Clusters).map (fun c => (c.Status.Status, c.Status.ClusterAddress))

/-- Immediate successor in the order empty, ClusterConfigReady,
ClusterNodesPatched, ClusterTinkHardwareSubmitted. -/
def phaseSucc : ClusterWorkflowStatus → ClusterWorkflowStatus → Bool
  | .empty, .ClusterConfigReady => true
  | .ClusterConfigReady, .ClusterNodesPatched => true
  | .ClusterNodesPatched, .ClusterTinkHardwareSubmitted => true
  | _, _ => false

/-- The phase is unchanged or advanced to its immediate successor. -/
def PhaseStep (a b : ClusterWorkflowStatus) : Prop := b = a ∨ phaseSucc a b = true

/-- Position of a phase in the order; phases outside the order count as 0. -/
def phaseRank : ClusterWorkflowStatus → Nat
  | .empty => 0
  | .ClusterConfigReady => 1
  | .ClusterNodesPatched => 2
  | .ClusterTinkHardwareSubmitted => 3
  | .other _ => 0

/-- Phase of the cluster stored under `req`. -/
def phaseOf (s : Store) (req : NamespacedName) : Option ClusterWorkflowStatus :=
  (lookup Cluster.key req s.Clusters).map (fun c => c.Status.Status)

/-- Outcome of a step started on the stored cluster `c`, as far as the phase
goes: the stored phase is unchanged or advanced by one, a successful step
returns the stored cluster, and when it started in phase `src` it ends in
phase `dst`. -/
def StepPhase (c : Cluster) (src dst : ClusterWorkflowStatus)
    (r : Option Err × Cluster × World) : Prop :=
  ∃ cP, lookup Cluster.key c.key r.2.2.store.Clusters = some cP ∧
    PhaseStep c.Status.Status cP.Status.Status ∧
    (r.1 = none → r.2.1 = cP ∧ (c.Status.Status = src → cP.Status.Status = dst))

/-- Calls that write to the store. -/
def isWrite : Event → Bool
  | .statusUpdateAddressPool _ _ => true
  | .statusUpdateInventory _ _ => true
  | .statusUpdateCluster _ _ => true
  | .updateCluster _ _ => true
  | .createHardware _ _ => true
  | .updateHardware _ _ => true
  | _ => false

/-- Key under which the creation path looks up the pool of a node. -/
def nodePoolKey (nc : NodeConfig) : NamespacedName :=
  ⟨nc.AddressPoolReference.Namespace, nc.AddressPoolReference.Name⟩

/-- Key under which the creation path looks up the Inventory of a node. -/
def nodeInventoryKey (nc : NodeConfig) : NamespacedName :=
  ⟨nc.InventoryReference.Namespace, nc.InventoryReference.Name⟩

/-- Every node entry references a stored pool that is not ready. -/
def AllPoolsUnready (c : Cluster) (s : Store) : Prop :=
  ∀ nc ∈ c.Spec.Nodes, ∃ p, lookup AddressPool.key (nodePoolKey nc) s.AddressPools = some p ∧
    p.Status.Status ≠ .PoolReady

/-- A cluster in phase ClusterConfigReady without node entries. -/
def nodelessCluster : Cluster :=
  { Name := "c1", Namespace := "default"
    DeletionTimestamp := none
    Finalizers := []
    Spec := { Nodes := [], VIPConfig := ⟨⟨"vip", "default"⟩, ""⟩ }
    Status := ⟨.ClusterConfigReady, "10.0.0.100", "token"⟩ }

/-- Store of the cluster without node entries. -/
def nodelessStore : Store :=
  { Clusters := [nodelessCluster], Inventories := [], AddressPools := [claimedVipPool],
    Hardwares := [] }

/-- The node pool, not ready. -/
def unreadyNodePool : AddressPool :=
  { freeNodePool with Status := ⟨.other "", "255.255.255.0", []⟩ }

/-- The new cluster after config generation. -/
def configuredCluster : Cluster :=
  { newCluster with Status := ⟨.ClusterConfigReady, "10.0.0.100", "token"⟩ }

/-- Store of the configured cluster with the node pool not ready. -/
def unreadyStore : Store :=
  { Clusters := [configuredCluster]
    Inventories := [readyInventoryA, readyInventoryB]
    AddressPools := [unreadyNodePool, claimedVipPool]
    Hardwares := [] }

/-- The role condition determined by the index is present in the new log, and
the other role condition is present in the new log exactly when it was
present in the old one. -/
def RoleGained (n : Nat) (old new : List Conditions) : Prop :=
  (n = 0 → ConditionExists new .HarvesterCreateNode = true ∧
    ConditionExists new .HarvesterJoinNode = ConditionExists old .HarvesterJoinNode) ∧
  (n ≠ 0 → ConditionExists new .HarvesterJoinNode = true ∧
    ConditionExists new .HarvesterCreateNode = ConditionExists old .HarvesterCreateNode)

/-- The trace of `w1` continues the trace of `w`. -/
def Extends (w w1 : World) : Prop := ∃ evs, w1.trace = w.trace ++ evs

/-- Store of the configured cluster with every pool ready. -/
def configuredStore : Store :=
  { Clusters := [configuredCluster]
    Inventories := [readyInventoryA, readyInventoryB]
    AddressPools := [freeNodePool, claimedVipPool]
    Hardwares := [] }

/-- Inventory of node B as the pass over the configured cluster patches it. -/
def patchedInventoryB : Inventory :=
  { readyInventoryB with Status :=
      { Status := .InventoryReady, GeneratedPassword := "rand", HardwareID := ""
        Conditions := [⟨.InventoryAllocatedToCluster, 7, 7, "node assigned to cluster c1"⟩,
                       ⟨.HarvesterJoinNode, 7, 7, "Join Mode"⟩]
        PXEBootInterface := ⟨"10.0.0.3", "10.0.0.1", "255.255.255.0", "", []⟩
        Cluster := ⟨"c1", "default"⟩ } }

/-- The cluster object that `generateClusterConfig` sends to the store when it
settles on the address `a` at the store call number `n`. -/
def configured (env : Env) (c : Cluster) (a : String) (n : Nat) : Cluster :=
  { c with Status := { Status := .ClusterConfigReady, ClusterAddress := a,
                       ClusterToken := env.GenerateRand n } }

/-- Store of the new cluster whose VIP pool already holds its claim. -/
def reclaimStore : Store :=
  { newStore with AddressPools := [freeNodePool, claimedVipPool] }

/-- The Inventory that `createTinkerbellHardware` sends to the store after a
write of the hardware object. -/
def tinkInventory (now : Nat) (inventory : Inventory) : Inventory :=
  { inventory with Status := { inventory.Status with
      Conditions := CreateOrUpdateCondition now inventory.Status.Conditions
        .TinkWorkflowCreated "tink workflow created" } }

/-- Hardware writes. -/
def isHardwareWrite : Event → Bool
  | .createHardware _ _ => true
  | .updateHardware _ _ => true
  | _ => false

/-- The hardware object that the sample environment asks for node A. -/
def hardwareA : Hardware :=
  { Name := "inv-a", Namespace := "inv-a"
    OwnerReferences := [{ Kind := .KindCluster, Name := "c1", Namespace := "default" }]
    Spec := ⟨["/dev/sda", ""]⟩ }

/-- The error that a call answered, `none` for success. -/
def Event.err : Event → Option Err
  | .getCluster _ e => e
  | .getAddressPool _ e => e
  | .getInventory _ e => e
  | .getHardware _ e => e
  | .statusUpdateAddressPool _ e => e
  | .statusUpdateInventory _ e => e
  | .statusUpdateCluster _ e => e
  | .updateCluster _ e => e
  | .createHardware _ e => e
  | .updateHardware _ e => e
  | .allocateAddress _ _ e => e

/-- Lookups: the `Get` calls of the store. -/
def isLookup : Event → Bool
  | .getCluster _ _ => true
  | .getAddressPool _ _ => true
  | .getInventory _ _ => true
  | .getHardware _ _ => true
  | _ => false

/-- A lookup answered with NotFound. -/
def isMissingLookup (ev : Event) : Bool :=
  isLookup ev && decide (ev.err = some .notFound)

/-- A lookup answered with an error other than NotFound. -/
def isFailedLookup (ev : Event) : Bool :=
  isLookup ev && (decide (ev.err ≠ none) && decide (ev.err ≠ some .notFound))

/-- The pool status that the deletion path sends to the store for the pool
`pool` when the Inventory of the node is missing: the allocation map without
the address of the zero Inventory. -/
def releasedPool (pool : AddressPool) : AddressPool :=
  { pool with Status := { pool.Status with
      AddressAllocation := mapDelete pool.Status.AddressAllocation "" } }

/-- First half of the tolerance of the loop body of the deletion path, for the
node entry `nc` started in the state `w`: when the pool lookup answers
NotFound, the body issues no pool write and goes on to the Inventory lookup. -/
def MissingTolerated (env : Env) (nc : NodeConfig) (w : World) : Prop :=
  (getAddressPool env (cleanupPoolKey nc) w).1 = .error .notFound →
    ((∀ p e, Event.statusUpdateAddressPool p e ∉ passTrace w (cleanupNode env nc w).2) ∧
     (∃ rest, passTrace w (cleanupNode env nc w).2 =
        Event.getAddressPool (cleanupPoolKey nc) (some .notFound) ::
        Event.getInventory (cleanupInventoryKey nc)
          (errOf (getInventory env (cleanupInventoryKey nc)
            (getAddressPool env (cleanupPoolKey nc) w).2).1) :: rest))

/-- Second half of the tolerance of the loop body of the deletion path: when
the Inventory lookup answers NotFound, the body issues no Inventory write; with
the pool missing as well it falls through to the next node, and with the pool
found it writes the pool and returns the outcome of that write. -/
def MissingInventoryTolerated (env : Env) (nc : NodeConfig) (w : World) : Prop :=
  (getInventory env (cleanupInventoryKey nc)
      (getAddressPool env (cleanupPoolKey nc) w).2).1 = .error .notFound →
    ((∀ i e, Event.statusUpdateInventory i e ∉ passTrace w (cleanupNode env nc w).2) ∧
     ((getAddressPool env (cleanupPoolKey nc) w).1 = .error .notFound →
        cleanupNode env nc w =
          (.completed, (getInventory env (cleanupInventoryKey nc)
            (getAddressPool env (cleanupPoolKey nc) w).2).2)) ∧
     (∀ pool, (getAddressPool env (cleanupPoolKey nc) w).1 = .ok pool →
        cleanupNode env nc w =
          (.returned (statusUpdateAddressPool env (releasedPool pool)
              (getInventory env (cleanupInventoryKey nc)
                (getAddressPool env (cleanupPoolKey nc) w).2).2).1,
           (statusUpdateAddressPool env (releasedPool pool)
              (getInventory env (cleanupInventoryKey nc)
                (getAddressPool env (cleanupPoolKey nc) w).2).2).2)))

/-- An environment in which the store call number `n` of a pass fails with an
API error and every other call takes its natural course. -/
def failingAt (n : Nat) : Env :=
  { calmEnv with fault := fun k => if k = n then some .api else none }

/-- First pass of `patchNodesAndPools` over the configured cluster, in which
the pool status update for node A (store call number 3) fails. -/
def firstPatch : Option Err × Cluster × World :=
  patchNodesAndPools (failingAt 3) configuredCluster (freshWorld configuredStore)

/-- Next pass of `patchNodesAndPools`, without faults, over the store that
the first pass left. -/
def secondPatch : Option Err × Cluster × World :=
  patchNodesAndPools calmEnv configuredCluster (freshWorld firstPatch.2.2.store)

/-- Address that the Inventory stored under `k` holds, with the flag that its
log carries InventoryAllocatedToCluster. -/
def boundAddress (s : Store) (k : NamespacedName) : Option (String × Bool) :=
  (lookup Inventory.key k s.Inventories).map (fun i =>
    (i.Status.PXEBootInterface.Address,
     ConditionExists i.Status.Conditions .InventoryAllocatedToCluster))

/-- Allocation map of the pool stored under `k`. -/
def storedAllocation (s : Store) (k : NamespacedName) :
    Option (List (String × ObjectReferenceWithKind)) :=
  (lookup AddressPool.key k s.AddressPools).map (fun p => p.Status.AddressAllocation)

/-- A node entry whose pool reference has a namespace different from its
name. -/
def farNode : NodeConfig :=
  { InventoryReference := ⟨"inv-a", "inv-a"⟩
    AddressPoolReference := { Name := "pool", Namespace := "net" }
    StaticAddress := "" }

/-- The node pool of `farNode`, stored in the namespace `net`. -/
def farPool : AddressPool :=
  { Name := "pool", Namespace := "net"
    Spec := ⟨"10.0.0.1"⟩
    Status := ⟨.PoolReady, "255.255.255.0", []⟩ }

/-- A configured cluster with the single node `farNode`. -/
def farCluster : Cluster :=
  { configuredCluster with Spec := { Nodes := [farNode], VIPConfig := ⟨⟨"vip", "default"⟩, ""⟩ } }

/-- Store of `farCluster` before its nodes are patched. -/
def farStore : Store :=
  { Clusters := [farCluster]
    Inventories := [readyInventoryA]
    AddressPools := [farPool, claimedVipPool]
    Hardwares := [] }

/-- The cluster `farCluster` after its nodes were patched, marked for
deletion. -/
def farDoomed : Cluster :=
  { farCluster with
      DeletionTimestamp := some 1
      Finalizers := [ClusterFinalizer]
      Status := ⟨.ClusterNodesPatched, "10.0.0.100", "token"⟩ }

/-- Store on which the deletion of `farDoomed` starts: the store that the
creation path left, with the cluster marked for deletion. -/
def farDoomedStore : Store :=
  { (patchNodesAndPools calmEnv farCluster (freshWorld farStore)).2.2.store with
      Clusters := [farDoomed] }

/-- Inventory of node A as the pass over the configured cluster patches it. -/
def patchedInventoryA : Inventory :=
  { readyInventoryA with Status :=
      { Status := .InventoryReady, GeneratedPassword := "rand", HardwareID := ""
        Conditions := [⟨.InventoryAllocatedToCluster, 7, 7, "node assigned to cluster c1"⟩,
                       ⟨.HarvesterCreateNode, 7, 7, "Create Mode"⟩]
        PXEBootInterface := ⟨"10.0.0.2", "10.0.0.1", "255.255.255.0", "", []⟩
        Cluster := ⟨"c1", "default"⟩ } }

/-- The node pool with the claim of node A for `10.0.0.2`, as the pass over
the configured cluster sends it to the store. -/
def nodePoolWithA : AddressPool :=
  { freeNodePool with Status := ⟨.PoolReady, "255.255.255.0",
      [("10.0.0.2", inventoryClaim readyInventoryA)]⟩ }

/-! ## Lemmas about the store primitives -/

theorem lookup_key {α : Type} (key : α → NamespacedName) (k : NamespacedName) (xs : List α)
    (x : α) (h : lookup key k xs = some x) : key x = k := by
  unfold lookup at h
  have := List.find?_some h
  simpa using this

theorem passTrace_append (w w1 : World) (evs : List Event) (h : w1.trace = w.trace ++ evs) :
    passTrace w w1 = evs := by
  simp [passTrace, h]

@[simp] theorem passTrace_self (w : World) : passTrace w w = [] := by
  simp [passTrace]

@[simp] theorem note_trace (w : World) (e : Event) : (w.note e).trace = w.trace ++ [e] := rfl

@[simp] theorem note_store (w : World) (e : Event) : (w.note e).store = w.store := rfl

@[simp] theorem note_calls (w : World) (e : Event) : (w.note e).calls = w.calls := rfl

@[simp] theorem getCluster_trace (env : Env) (k : NamespacedName) (w : World) :
    (getCluster env k w).2.trace =
      w.trace ++ [.getCluster k (errOf (getCluster env k w).1)] := rfl

@[simp] theorem getAddressPool_trace (env : Env) (k : NamespacedName) (w : World) :
    (getAddressPool env k w).2.trace =
      w.trace ++ [.getAddressPool k (errOf (getAddressPool env k w).1)] := rfl

@[simp] theorem getInventory_trace (env : Env) (k : NamespacedName) (w : World) :
    (getInventory env k w).2.trace =
      w.trace ++ [.getInventory k (errOf (getInventory env k w).1)] := rfl

@[simp] theorem getHardware_trace (env : Env) (k : NamespacedName) (w : World) :
    (getHardware env k w).2.trace =
      w.trace ++ [.getHardware k (errOf (getHardware env k w).1)] := rfl

@[simp] theorem getCluster_store (env : Env) (k : NamespacedName) (w : World) :
    (getCluster env k w).2.store = w.store := rfl

@[simp] theorem getAddressPool_store (env : Env) (k : NamespacedName) (w : World) :
    (getAddressPool env k w).2.store = w.store := rfl

@[simp] theorem getInventory_store (env : Env) (k : NamespacedName) (w : World) :
    (getInventory env k w).2.store = w.store := rfl

@[simp] theorem getHardware_store (env : Env) (k : NamespacedName) (w : World) :
    (getHardware env k w).2.store = w.store := rfl

@[simp] theorem getCluster_calls (env : Env) (k : NamespacedName) (w : World) :
    (getCluster env k w).2.calls = w.calls + 1 := rfl

@[simp] theorem getAddressPool_calls (env : Env) (k : NamespacedName) (w : World) :
    (getAddressPool env k w).2.calls = w.calls + 1 := rfl

@[simp] theorem getInventory_calls (env : Env) (k : NamespacedName) (w : World) :
    (getInventory env k w).2.calls = w.calls + 1 := rfl

@[simp] theorem getHardware_calls (env : Env) (k : NamespacedName) (w : World) :
    (getHardware env k w).2.calls = w.calls + 1 := rfl

theorem outcome_ok_key {α : Type} (key : α → NamespacedName) (k : NamespacedName)
    (xs : List α) (f : Option Err) (x : α) (h : outcome f (lookup key k xs) = .ok x) :
    f = none ∧ lookup key k xs = some x ∧ key x = k := by
  unfold outcome at h
  split at h
  · cases h
  · split at h
    · rename_i a hh
      cases h
      exact ⟨rfl, hh, lookup_key _ _ _ _ hh⟩
    · cases h

theorem getCluster_ok (env : Env) (k : NamespacedName) (w : World) (c : Cluster)
    (h : (getCluster env k w).1 = .ok c) :
    env.fault w.calls = none ∧ lookup Cluster.key k w.store.Clusters = some c ∧ c.key = k :=
  outcome_ok_key _ _ _ _ _ h

theorem getAddressPool_ok (env : Env) (k : NamespacedName) (w : World) (p : AddressPool)
    (h : (getAddressPool env k w).1 = .ok p) :
    env.fault w.calls = none ∧ lookup AddressPool.key k w.store.AddressPools = some p ∧
      p.key = k :=
  outcome_ok_key _ _ _ _ _ h

theorem getInventory_ok (env : Env) (k : NamespacedName) (w : World) (i : Inventory)
    (h : (getInventory env k w).1 = .ok i) :
    env.fault w.calls = none ∧ lookup Inventory.key k w.store.Inventories = some i ∧
      i.key = k :=
  outcome_ok_key _ _ _ _ _ h

theorem getHardware_ok (env : Env) (k : NamespacedName) (w : World) (h : Hardware)
    (hh : (getHardware env k w).1 = .ok h) :
    env.fault w.calls = none ∧ lookup Hardware.key k w.store.Hardwares = some h ∧
      h.key = k :=
  outcome_ok_key _ _ _ _ _ hh

@[simp] theorem statusUpdateAddressPool_trace (env : Env) (p : AddressPool) (w : World) :
    (statusUpdateAddressPool env p w).2.trace =
      w.trace ++ [.statusUpdateAddressPool p (statusUpdateAddressPool env p w).1] := by
  unfold statusUpdateAddressPool
  split <;> rfl

@[simp] theorem statusUpdateInventory_trace (env : Env) (i : Inventory) (w : World) :
    (statusUpdateInventory env i w).2.trace =
      w.trace ++ [.statusUpdateInventory i (statusUpdateInventory env i w).1] := by
  unfold statusUpdateInventory
  split <;> rfl

@[simp] theorem statusUpdateCluster_trace (env : Env) (c : Cluster) (w : World) :
    (statusUpdateCluster env c w).2.trace =
      w.trace ++ [.statusUpdateCluster c (errOf (statusUpdateCluster env c w).1)] := by
  unfold statusUpdateCluster
  split <;> rfl

@[simp] theorem updateCluster_trace (env : Env) (c : Cluster) (w : World) :
    (updateCluster env c w).2.trace =
      w.trace ++ [.updateCluster c (errOf (updateCluster env c w).1)] := by
  unfold updateCluster
  split <;> rfl

@[simp] theorem createHardware_trace (env : Env) (h : Hardware) (w : World) :
    (createHardware env h w).2.trace =
      w.trace ++ [.createHardware h (createHardware env h w).1] := by
  unfold createHardware
  split
  · rfl
  · split <;> rfl

@[simp] theorem updateHardware_trace (env : Env) (h : Hardware) (w : World) :
    (updateHardware env h w).2.trace =
      w.trace ++ [.updateHardware h (updateHardware env h w).1] := by
  unfold updateHardware
  split <;> rfl

@[simp] theorem statusUpdateAddressPool_calls (env : Env) (p : AddressPool) (w : World) :
    (statusUpdateAddressPool env p w).2.calls = w.calls + 1 := by
  unfold statusUpdateAddressPool
  split <;> rfl

@[simp] theorem statusUpdateInventory_calls (env : Env) (i : Inventory) (w : World) :
    (statusUpdateInventory env i w).2.calls = w.calls + 1 := by
  unfold statusUpdateInventory
  split <;> rfl

@[simp] theorem statusUpdateCluster_calls (env : Env) (c : Cluster) (w : World) :
    (statusUpdateCluster env c w).2.calls = w.calls + 1 := by
  unfold statusUpdateCluster
  split <;> rfl

@[simp] theorem updateCluster_calls (env : Env) (c : Cluster) (w : World) :
    (updateCluster env c w).2.calls = w.calls + 1 := by
  unfold updateCluster
  split <;> rfl

@[simp] theorem createHardware_calls (env : Env) (h : Hardware) (w : World) :
    (createHardware env h w).2.calls = w.calls + 1 := by
  unfold createHardware
  split
  · rfl
  · split <;> rfl

@[simp] theorem updateHardware_calls (env : Env) (h : Hardware) (w : World) :
    (updateHardware env h w).2.calls = w.calls + 1 := by
  unfold updateHardware
  split <;> rfl

@[simp] theorem statusUpdateAddressPool_clusters (env : Env) (p : AddressPool) (w : World) :
    (statusUpdateAddressPool env p w).2.store.Clusters = w.store.Clusters := by
  unfold statusUpdateAddressPool
  split <;> rfl

@[simp] theorem statusUpdateAddressPool_inventories (env : Env) (p : AddressPool) (w : World) :
    (statusUpdateAddressPool env p w).2.store.Inventories = w.store.Inventories := by
  unfold statusUpdateAddressPool
  split <;> rfl

@[simp] theorem statusUpdateAddressPool_hardwares (env : Env) (p : AddressPool) (w : World) :
    (statusUpdateAddressPool env p w).2.store.Hardwares = w.store.Hardwares := by
  unfold statusUpdateAddressPool
  split <;> rfl

@[simp] theorem statusUpdateInventory_clusters (env : Env) (i : Inventory) (w : World) :
    (statusUpdateInventory env i w).2.store.Clusters = w.store.Clusters := by
  unfold statusUpdateInventory
  split <;> rfl

@[simp] theorem statusUpdateInventory_pools (env : Env) (i : Inventory) (w : World) :
    (statusUpdateInventory env i w).2.store.AddressPools = w.store.AddressPools := by
  unfold statusUpdateInventory
  split <;> rfl

@[simp] theorem statusUpdateInventory_hardwares (env : Env) (i : Inventory) (w : World) :
    (statusUpdateInventory env i w).2.store.Hardwares = w.store.Hardwares := by
  unfold statusUpdateInventory
  split <;> rfl

@[simp] theorem statusUpdateCluster_inventories (env : Env) (c : Cluster) (w : World) :
    (statusUpdateCluster env c w).2.store.Inventories = w.store.Inventories := by
  unfold statusUpdateCluster
  split <;> rfl

@[simp] theorem statusUpdateCluster_pools (env : Env) (c : Cluster) (w : World) :
    (statusUpdateCluster env c w).2.store.AddressPools = w.store.AddressPools := by
  unfold statusUpdateCluster
  split <;> rfl

@[simp] theorem statusUpdateCluster_hardwares (env : Env) (c : Cluster) (w : World) :
    (statusUpdateCluster env c w).2.store.Hardwares = w.store.Hardwares := by
  unfold statusUpdateCluster
  split <;> rfl

@[simp] theorem updateCluster_inventories (env : Env) (c : Cluster) (w : World) :
    (updateCluster env c w).2.store.Inventories = w.store.Inventories := by
  unfold updateCluster
  split <;> rfl

@[simp] theorem updateCluster_pools (env : Env) (c : Cluster) (w : World) :
    (updateCluster env c w).2.store.AddressPools = w.store.AddressPools := by
  unfold updateCluster
  split <;> rfl

@[simp] theorem updateCluster_hardwares (env : Env) (c : Cluster) (w : World) :
    (updateCluster env c w).2.store.Hardwares = w.store.Hardwares := by
  unfold updateCluster
  split <;> rfl

@[simp] theorem createHardware_clusters (env : Env) (h : Hardware) (w : World) :
    (createHardware env h w).2.store.Clusters = w.store.Clusters := by
  unfold createHardware
  split
  · rfl
  · split <;> rfl

@[simp] theorem createHardware_inventories (env : Env) (h : Hardware) (w : World) :
    (createHardware env h w).2.store.Inventories = w.store.Inventories := by
  unfold createHardware
  split
  · rfl
  · split <;> rfl

@[simp] theorem createHardware_pools (env : Env) (h : Hardware) (w : World) :
    (createHardware env h w).2.store.AddressPools = w.store.AddressPools := by
  unfold createHardware
  split
  · rfl
  · split <;> rfl

@[simp] theorem updateHardware_clusters (env : Env) (h : Hardware) (w : World) :
    (updateHardware env h w).2.store.Clusters = w.store.Clusters := by
  unfold updateHardware
  split <;> rfl

@[simp] theorem updateHardware_inventories (env : Env) (h : Hardware) (w : World) :
    (updateHardware env h w).2.store.Inventories = w.store.Inventories := by
  unfold updateHardware
  split <;> rfl

@[simp] theorem updateHardware_pools (env : Env) (h : Hardware) (w : World) :
    (updateHardware env h w).2.store.AddressPools = w.store.AddressPools := by
  unfold updateHardware
  split <;> rfl

theorem missingOr_found {α : Type} [Inhabited α] (r : Except Err α) (a : α)
    (h : missingOr r = .ok (false, a)) : r = .ok a := by
  cases r with
  | ok b => simp [missingOr] at h; rw [h]
  | error e =>
    simp only [missingOr] at h
    split at h <;> simp at h

theorem missingOr_missing {α : Type} [Inhabited α] (r : Except Err α) (a : α)
    (h : missingOr r = .ok (true, a)) : r = .error .notFound ∧ a = default := by
  cases r with
  | ok b => simp [missingOr] at h
  | error e =>
    simp only [missingOr] at h
    split at h
    · rename_i he
      simp at h
      exact ⟨by rw [he], h.symm⟩
    · simp at h

theorem missingOr_error {α : Type} [Inhabited α] (r : Except Err α) (e : Err)
    (h : missingOr r = .error e) : r = .error e ∧ e ≠ .notFound := by
  cases r with
  | ok b => simp [missingOr] at h
  | error e1 =>
    simp only [missingOr] at h
    split at h
    · simp at h
    · rename_i he
      simp at h
      subst h
      exact ⟨rfl, he⟩

/-! ## Deletion path -/

theorem cleanupNode_ext (env : Env) (nc : NodeConfig) (w : World) :
    (cleanupNode env nc w).2.trace = w.trace ++ passTrace w (cleanupNode env nc w).2 := by
  simp only [cleanupNode]
  repeat' split
  all_goals simp [passTrace]

theorem cleanupNode_noClusterWrite (env : Env) (nc : NodeConfig) (w : World) :
    ∀ e ∈ passTrace w (cleanupNode env nc w).2, isClusterWrite e = false := by
  simp only [cleanupNode]
  repeat' split
  all_goals simp [passTrace, isClusterWrite]

theorem cleanupNode_clusters (env : Env) (nc : NodeConfig) (w : World) :
    (cleanupNode env nc w).2.store.Clusters = w.store.Clusters := by
  simp only [cleanupNode]
  repeat' split
  all_goals simp

theorem cleanupNode_completed (env : Env) (nc : NodeConfig) (w : World)
    (h : (cleanupNode env nc w).1 = .completed) :
    SweepDone (passTrace w (cleanupNode env nc w).2) ∧
    NoPoolTouched (passTrace w (cleanupNode env nc w).2) ∧
    Visited nc (passTrace w (cleanupNode env nc w).2) ∧
    (cleanupNode env nc w).2.store.AddressPools = w.store.AddressPools := by
  revert h
  simp only [cleanupNode]
  split
  · simp
  · split
    · simp
    · rename_i _ pm pool hp _ im i0 hi
      cases im with
      | true =>
        have hi1 := (missingOr_missing _ _ hi).1
        cases pm with
        | true =>
          have hp1 := (missingOr_missing _ _ hp).1
          simp [passTrace, hi1, hp1, errOf, SweepDone, Visited, NoPoolTouched, cleanupPoolKey,
            cleanupInventoryKey]
        | false =>
          simp
      | false =>
        have hi1 := missingOr_found _ _ hi
        have hk := (getInventory_ok _ _ _ _ hi1).2.2
        simp only [Bool.false_eq_true, if_false]
        split
        · simp
        · rename_i hu
          cases pm with
          | true =>
            have hp1 := (missingOr_missing _ _ hp).1
            simp [passTrace, hi1, hp1, hu, errOf, SweepDone, Visited, NoPoolTouched,
              cleanupPoolKey, cleanupInventoryKey]
            exact ⟨hk, rfl, rfl, rfl, rfl⟩
          | false =>
            simp


theorem passTrace_trans (w w1 w2 : World)
    (h1 : w1.trace = w.trace ++ passTrace w w1)
    (h2 : w2.trace = w1.trace ++ passTrace w1 w2) :
    passTrace w w2 = passTrace w w1 ++ passTrace w1 w2 ∧
    w2.trace = w.trace ++ passTrace w w2 := by
  have h : w2.trace = w.trace ++ (passTrace w w1 ++ passTrace w1 w2) := by
    rw [h2, h1, List.append_assoc]
  have := passTrace_append w w2 _ h
  exact ⟨this, by rw [this]; exact h⟩

theorem SweepDone_append (a b : List Event) (ha : SweepDone a) (hb : SweepDone b) :
    SweepDone (a ++ b) := by
  constructor
  · intro k hk
    rcases List.mem_append.1 hk with h | h
    · obtain ⟨i, h1, h2, h3⟩ := ha.1 k h
      exact ⟨i, h1, h2, List.mem_append_left _ h3⟩
    · obtain ⟨i, h1, h2, h3⟩ := hb.1 k h
      exact ⟨i, h1, h2, List.mem_append_right _ h3⟩
  · intro k hk
    rcases List.mem_append.1 hk with h | h
    · obtain ⟨i, h1, h3⟩ := ha.2 k h
      exact ⟨i, h1, List.mem_append_left _ h3⟩
    · obtain ⟨i, h1, h3⟩ := hb.2 k h
      exact ⟨i, h1, List.mem_append_right _ h3⟩

theorem NoPoolTouched_append (a b : List Event) (ha : NoPoolTouched a) (hb : NoPoolTouched b) :
    NoPoolTouched (a ++ b) := by
  constructor
  · intro k hk
    rcases List.mem_append.1 hk with h | h
    · exact ha.1 k h
    · exact hb.1 k h
  · intro p e hk
    rcases List.mem_append.1 hk with h | h
    · exact ha.2 p e h
    · exact hb.2 p e h

theorem Visited_append_left (nc : NodeConfig) (a b : List Event) (h : Visited nc a) :
    Visited nc (a ++ b) := by
  obtain ⟨⟨e1, h1⟩, ⟨e2, h2⟩⟩ := h
  exact ⟨⟨e1, List.mem_append_left _ h1⟩, ⟨e2, List.mem_append_left _ h2⟩⟩

theorem Visited_append_right (nc : NodeConfig) (a b : List Event) (h : Visited nc b) :
    Visited nc (a ++ b) := by
  obtain ⟨⟨e1, h1⟩, ⟨e2, h2⟩⟩ := h
  exact ⟨⟨e1, List.mem_append_right _ h1⟩, ⟨e2, List.mem_append_right _ h2⟩⟩

theorem cleanupNodes_ext (env : Env) (nodes : List NodeConfig) (w : World) :
    (cleanupNodes env nodes w).2.trace = w.trace ++ passTrace w (cleanupNodes env nodes w).2 := by
  induction nodes generalizing w with
  | nil => simp [cleanupNodes]
  | cons nc rest ih =>
    simp only [cleanupNodes]
    have h1 := cleanupNode_ext env nc w
    split
    · rename_i e w1 heq
      rw [heq] at h1
      exact h1
    · rename_i w1 heq
      rw [heq] at h1
      exact (passTrace_trans w w1 _ h1 (ih w1)).2

theorem cleanupNodes_noClusterWrite (env : Env) (nodes : List NodeConfig) (w : World) :
    ∀ e ∈ passTrace w (cleanupNodes env nodes w).2, isClusterWrite e = false := by
  induction nodes generalizing w with
  | nil => simp [cleanupNodes]
  | cons nc rest ih =>
    simp only [cleanupNodes]
    have h1 := cleanupNode_ext env nc w
    have h2 := cleanupNode_noClusterWrite env nc w
    split
    · rename_i e w1 heq
      rw [heq] at h2
      exact h2
    · rename_i w1 heq
      rw [heq] at h1 h2
      rw [(passTrace_trans w w1 _ h1 (cleanupNodes_ext env rest w1)).1]
      intro e he
      rcases List.mem_append.1 he with h | h
      · exact h2 e h
      · exact ih w1 e h

theorem cleanupNodes_clusters (env : Env) (nodes : List NodeConfig) (w : World) :
    (cleanupNodes env nodes w).2.store.Clusters = w.store.Clusters := by
  induction nodes generalizing w with
  | nil => simp [cleanupNodes]
  | cons nc rest ih =>
    simp only [cleanupNodes]
    have h1 := cleanupNode_clusters env nc w
    split
    · rename_i e w1 heq
      rw [heq] at h1
      exact h1
    · rename_i w1 heq
      rw [heq] at h1
      rw [ih w1]
      exact h1

theorem cleanupNodes_completed (env : Env) (nodes : List NodeConfig) (w : World)
    (h : (cleanupNodes env nodes w).1 = .completed) :
    SweepDone (passTrace w (cleanupNodes env nodes w).2) ∧
    NoPoolTouched (passTrace w (cleanupNodes env nodes w).2) ∧
    (∀ nc ∈ nodes, Visited nc (passTrace w (cleanupNodes env nodes w).2)) ∧
    (cleanupNodes env nodes w).2.store.AddressPools = w.store.AddressPools := by
  induction nodes generalizing w with
  | nil => simp [cleanupNodes, SweepDone, NoPoolTouched]
  | cons nc rest ih =>
    revert h
    simp only [cleanupNodes]
    have h1 := cleanupNode_ext env nc w
    have h2 := cleanupNode_completed env nc w
    split
    · intro h; cases h
    · rename_i w1 heq
      intro h
      rw [heq] at h1 h2
      obtain ⟨a1, a2, a3, a4⟩ := h2 rfl
      obtain ⟨b1, b2, b3, b4⟩ := ih w1 h
      rw [(passTrace_trans w w1 _ h1 (cleanupNodes_ext env rest w1)).1]
      refine ⟨SweepDone_append _ _ a1 b1, NoPoolTouched_append _ _ a2 b2, ?_, ?_⟩
      · intro nc1 hnc
        rcases List.mem_cons.1 hnc with h | h
        · subst h
          exact Visited_append_left _ _ _ a3
        · exact Visited_append_right _ _ _ (b3 nc1 h)
      · rw [b4]
        exact a4

theorem split_at_write (P : Event → Bool) (xs pre post : List Event) (x y : Event)
    (hxs : ∀ e ∈ xs, P e = false) (hx : P x = true) (h : xs ++ [y] = pre ++ x :: post) :
    pre = xs ∧ x = y ∧ post = [] := by
  induction xs generalizing pre with
  | nil =>
    cases pre with
    | nil =>
      simp at h
      exact ⟨rfl, h.1.symm, h.2⟩
    | cons a pre1 => simp at h
  | cons a xs1 ih =>
    cases pre with
    | nil =>
      simp at h
      have := hxs a (List.mem_cons_self _ _)
      rw [h.1] at this
      rw [this] at hx
      cases hx
    | cons b pre1 =>
      simp at h
      obtain ⟨h1, h2, h3⟩ := ih pre1 (fun e he => hxs e (List.mem_cons_of_mem _ he)) h.2
      exact ⟨by rw [h.1, h1], h2, h3⟩


/-- C1: in a pass of `cleanupClusterDeps`, when the update that drops the
finalizer is issued, it is the last call of the pass, and the calls before it
contain, for every node of `Spec.Nodes`, both lookups, for every Inventory
found a successful write of its reset status, and for every pool found a
successful write of its status. -/
theorem cleanup_finalizer_after_sweep (env : Env) (c : Cluster) (w : World)
    (pre post : List Event) (c1 : Cluster) (e : Option Err)
    (h : passTrace w (cleanupClusterDeps env c w).2.2 = pre ++ Event.updateCluster c1 e :: post) :
    c1 = RemoveFinalizer c ClusterFinalizer ∧ post = [] ∧
    (∀ nc ∈ c.Spec.Nodes, Visited nc pre) ∧ SweepDone pre := by
  have hext := cleanupNodes_ext env c.Spec.Nodes w
  have hno := cleanupNodes_noClusterWrite env c.Spec.Nodes w
  have hdone := cleanupNodes_completed env c.Spec.Nodes w
  revert h
  simp only [cleanupClusterDeps]
  split
  · rename_i e1 w1 heq
    rw [heq] at hno
    intro h
    simp only [] at h
    have := hno (Event.updateCluster c1 e) (by rw [h]; simp)
    simp [isClusterWrite] at this
  · rename_i w1 heq
    rw [heq] at hno hext hdone
    simp only [] at hno hext hdone
    obtain ⟨d1, _, d3, _⟩ := hdone trivial
    split
    · have ht : passTrace w (updateCluster env (RemoveFinalizer c ClusterFinalizer) w1).2 =
          passTrace w w1 ++ [Event.updateCluster (RemoveFinalizer c ClusterFinalizer)
            (errOf (updateCluster env (RemoveFinalizer c ClusterFinalizer) w1).1)] := by
        apply passTrace_append
        rw [updateCluster_trace, hext, List.append_assoc]
      have key : ∀ x : Option Err × Cluster × World,
          x.2.2 = (updateCluster env (RemoveFinalizer c ClusterFinalizer) w1).2 →
          passTrace w x.2.2 = pre ++ Event.updateCluster c1 e :: post →
          c1 = RemoveFinalizer c ClusterFinalizer ∧ post = [] ∧
            (∀ nc ∈ c.Spec.Nodes, Visited nc pre) ∧ SweepDone pre := by
        intro x hx h
        rw [hx, ht] at h
        obtain ⟨h1, h2, h3⟩ := split_at_write isClusterWrite _ pre post
          (Event.updateCluster c1 e) _ hno rfl h
        subst h1
        injection h2 with h2 _
        exact ⟨h2, h3, d3, d1⟩
      split
      · exact key _ rfl
      · exact key _ rfl
    · intro h
      simp only [] at h
      have := hno (Event.updateCluster c1 e) (by rw [h]; simp)
      simp [isClusterWrite] at this

/-- Witness of C1: the deletion pass over the store without node pool. -/
theorem cleanup_finalizer_after_sweep_witness :
    passTrace (freshWorld poollessStore)
        (cleanupClusterDeps calmEnv doomedCluster (freshWorld poollessStore)).2.2 =
      poollessSweep ++
        Event.updateCluster (RemoveFinalizer doomedCluster ClusterFinalizer) none :: [] ∧
    (RemoveFinalizer doomedCluster ClusterFinalizer =
        RemoveFinalizer doomedCluster ClusterFinalizer ∧
      ([] : List Event) = [] ∧
      (∀ nc ∈ doomedCluster.Spec.Nodes, Visited nc poollessSweep) ∧ SweepDone poollessSweep) :=
  ⟨by rfl, cleanup_finalizer_after_sweep calmEnv doomedCluster (freshWorld poollessStore)
    poollessSweep [] (RemoveFinalizer doomedCluster ClusterFinalizer) none (by rfl)⟩

theorem cleanup_write_inv (env : Env) (c : Cluster) (w : World) (x : Event)
    (hx : isClusterWrite x = true)
    (hmem : x ∈ passTrace w (cleanupClusterDeps env c w).2.2) :
    (cleanupNodes env c.Spec.Nodes w).1 = .completed ∧
    (cleanupClusterDeps env c w).2.2 =
      (updateCluster env (RemoveFinalizer c ClusterFinalizer)
        (cleanupNodes env c.Spec.Nodes w).2).2 := by
  have hno := cleanupNodes_noClusterWrite env c.Spec.Nodes w
  revert hmem
  simp only [cleanupClusterDeps]
  split
  · rename_i e1 w1 heq
    rw [heq] at hno
    intro h
    have := hno x h
    rw [hx] at this
    cases this
  · rename_i w1 heq
    rw [heq] at hno
    simp only [] at hno
    split
    · split <;> (intro _; rw [heq]; exact ⟨rfl, rfl⟩)
    · intro h
      have := hno x h
      rw [hx] at this
      cases this

/-- C2 (amended): for a cluster whose virtual address is held under its
identity in its VIP pool, when a pass of `cleanupClusterDeps` issues the update
that drops the finalizer, the VIP pool of the store the pass leaves still holds
that claim: the guard is lifted without the virtual address being released. -/
theorem cleanup_finalizer_keeps_vip_claim (env : Env) (c : Cluster) (w : World)
    (pre post : List Event) (c1 : Cluster) (e : Option Err)
    (hheld : holdsClaim w.store (vipPoolKey c) c.Status.ClusterAddress (clusterClaim c) = true)
    (h : passTrace w (cleanupClusterDeps env c w).2.2 = pre ++ Event.updateCluster c1 e :: post) :
    holdsClaim (cleanupClusterDeps env c w).2.2.store (vipPoolKey c) c.Status.ClusterAddress
      (clusterClaim c) = true := by
  obtain ⟨h1, h2⟩ := cleanup_write_inv env c w (Event.updateCluster c1 e) rfl (by rw [h]; simp)
  have h3 := (cleanupNodes_completed env c.Spec.Nodes w h1).2.2.2
  have h4 : (cleanupClusterDeps env c w).2.2.store.AddressPools = w.store.AddressPools := by
    rw [h2, updateCluster_pools, h3]
  unfold holdsClaim at hheld ⊢
  rw [h4]
  exact hheld

/-- Witness of C2 (amended): the deletion pass over the store without node
pool holds the claim before, drops the finalizer, and holds the claim after. -/
theorem cleanup_finalizer_keeps_vip_claim_witness :
    holdsClaim (freshWorld poollessStore).store (vipPoolKey doomedCluster)
        doomedCluster.Status.ClusterAddress (clusterClaim doomedCluster) = true ∧
    passTrace (freshWorld poollessStore)
        (cleanupClusterDeps calmEnv doomedCluster (freshWorld poollessStore)).2.2 =
      poollessSweep ++
        Event.updateCluster (RemoveFinalizer doomedCluster ClusterFinalizer) none :: [] ∧
    holdsClaim (cleanupClusterDeps calmEnv doomedCluster (freshWorld poollessStore)).2.2.store
      (vipPoolKey doomedCluster) doomedCluster.Status.ClusterAddress
      (clusterClaim doomedCluster) = true :=
  ⟨by rfl, by rfl,
    cleanup_finalizer_keeps_vip_claim calmEnv doomedCluster (freshWorld poollessStore)
      poollessSweep [] (RemoveFinalizer doomedCluster ClusterFinalizer) none (by rfl) (by rfl)⟩

/-- C2 (as stated) fails: the cluster holds `10.0.0.100` in its VIP pool, the
pass drops the finalizer from the stored cluster, and the VIP pool still holds
`10.0.0.100` for the cluster. -/
theorem cleanup_vip_claim_survives :
    holdsClaim poollessStore (vipPoolKey doomedCluster) doomedCluster.Status.ClusterAddress
        (clusterClaim doomedCluster) = true ∧
    (cleanupClusterDeps calmEnv doomedCluster (freshWorld poollessStore)).1 = none ∧
    Event.updateCluster (RemoveFinalizer doomedCluster ClusterFinalizer) none ∈
      (cleanupClusterDeps calmEnv doomedCluster (freshWorld poollessStore)).2.2.trace ∧
    (lookup Cluster.key doomedCluster.key
      (cleanupClusterDeps calmEnv doomedCluster (freshWorld poollessStore)).2.2.store.Clusters).map
        (fun c => c.Finalizers) = some [] ∧
    clusterClaims (cleanupClusterDeps calmEnv doomedCluster (freshWorld poollessStore)).2.2.store
      (vipPoolKey doomedCluster) doomedCluster = ["10.0.0.100"] := by
  refine ⟨by rfl, by rfl, by decide, by rfl, by rfl⟩

/-- Whatever pool status the loop body of the deletion path writes, its
allocation map is the map it read with only the empty address removed: the
address is taken from the Inventory after its status was reset (or from the
zero object when the Inventory is missing). -/
theorem cleanupNode_pool_write (env : Env) (nc : NodeConfig) (w : World) (p : AddressPool)
    (e : Option Err)
    (h : Event.statusUpdateAddressPool p e ∈ passTrace w (cleanupNode env nc w).2) :
    ∃ pool, (getAddressPool env (cleanupPoolKey nc) w).1 = .ok pool ∧
      p.Status.AddressAllocation = mapDelete pool.Status.AddressAllocation "" := by
  revert h
  simp only [cleanupNode, cleanupPoolKey]
  split
  · simp [passTrace]
  · split
    · simp [passTrace]
    · rename_i _ pm pool hp _ im i0 hi
      cases im with
      | true =>
        have hi2 := (missingOr_missing _ _ hi).2
        subst hi2
        cases pm with
        | true => simp [passTrace]
        | false =>
          have hp1 := missingOr_found _ _ hp
          simp only [passTrace, if_true, Bool.false_eq_true, if_false]
          simp
          intro h1 _
          subst h1
          exact ⟨pool, hp1, rfl⟩
      | false =>
        simp only [Bool.false_eq_true, if_false]
        split
        · simp [passTrace]
        · cases pm with
          | true => simp [passTrace]
          | false =>
            have hp1 := missingOr_found _ _ hp
            simp only [passTrace, Bool.false_eq_true, if_false]
            simp
            intro h1 _
            subst h1
            exact ⟨pool, hp1, rfl⟩

/-- C3: at the provisioned cluster, node A's Inventory holds `10.0.0.5` before
the pass; the pass finds Inventory and pool, resets the Inventory, and the pool
status it persists still maps `10.0.0.5` to that Inventory. -/
theorem cleanup_keeps_node_address :
    (lookup Inventory.key (cleanupInventoryKey nodeA) provisionedStore.Inventories).map
        (fun i => i.Status.PXEBootInterface.Address) = some "10.0.0.5" ∧
    passTrace (freshWorld provisionedStore)
        (cleanupClusterDeps calmEnv doomedCluster (freshWorld provisionedStore)).2.2 =
      [ Event.getAddressPool ⟨"pool", "pool"⟩ none,
        Event.getInventory ⟨"inv-a", "inv-a"⟩ none,
        Event.statusUpdateInventory (resetInventory boundInventoryA) none,
        Event.statusUpdateAddressPool claimedNodePool none ] ∧
    holdsClaim (cleanupClusterDeps calmEnv doomedCluster (freshWorld provisionedStore)).2.2.store
      (cleanupPoolKey nodeA) "10.0.0.5" (inventoryClaim boundInventoryA) = true := by
  refine ⟨by rfl, by rfl, by rfl⟩

/-- C4: at the provisioned cluster with two nodes, every object found and every
write succeeding, one pass returns after the first node: the second node's
Inventory is never looked up and its stored status is what it was. -/
theorem cleanup_stops_after_first_node :
    doomedCluster.Spec.Nodes = [nodeA, nodeB] ∧
    (cleanupClusterDeps calmEnv doomedCluster (freshWorld provisionedStore)).1 = none ∧
    (∀ e ∈ (cleanupClusterDeps calmEnv doomedCluster (freshWorld provisionedStore)).2.2.trace,
      e ≠ Event.getInventory (cleanupInventoryKey nodeB) none) ∧
    lookup Inventory.key (cleanupInventoryKey nodeA)
      (cleanupClusterDeps calmEnv doomedCluster (freshWorld provisionedStore)).2.2.store.Inventories
        = some (resetInventory boundInventoryA) ∧
    lookup Inventory.key (cleanupInventoryKey nodeB)
      (cleanupClusterDeps calmEnv doomedCluster (freshWorld provisionedStore)).2.2.store.Inventories
        = some boundInventoryB ∧
    boundInventoryB.Status.PXEBootInterface.Address = "10.0.0.6" ∧
    boundInventoryB.Status.Cluster = ⟨"c1", "default"⟩ ∧
    boundInventoryB.Status.GeneratedPassword = "pw-b" ∧
    boundInventoryB.Status.Conditions.length = 2 := by
  refine ⟨by rfl, by rfl, by decide, by rfl, by rfl, by rfl, by rfl, by rfl, by rfl⟩

/-! ## Creation path: address claims -/

theorem lookup_rewrite {α : Type} (key : α → NamespacedName) (k k1 : NamespacedName)
    (f : α → α) (hf : ∀ x, key x = k → key (f x) = k) (xs : List α) :
    lookup key k1 (rewrite key k f xs) =
      if k1 = k then (lookup key k xs).map f else lookup key k1 xs := by
  induction xs with
  | nil => simp [lookup, rewrite]
  | cons x rest ih =>
    unfold lookup rewrite at ih ⊢
    rw [List.map_cons, List.find?_cons, List.find?_cons, List.find?_cons]
    by_cases hx : key x = k
    · have hfx := hf x hx
      by_cases hk : k1 = k
      · subst hk
        simp [hx, hfx]
      · have h1 : ¬ k = k1 := fun h => hk h.symm
        simp only [hx, if_true, hfx, h1, decide_False, hk, if_false] at ih ⊢
        exact ih
    · by_cases hk : k1 = k
      · subst hk
        simp only [hx, if_false, decide_False, if_true] at ih ⊢
        exact ih
      · simp only [hx, if_false, hk] at ih ⊢
        by_cases h1 : key x = k1
        · simp [h1]
        · simp only [h1, decide_False]
          exact ih

theorem rangeFind_acc {β : Type} (p : β → Bool) (m : List (String × β)) (acc : Option String) :
    (m.foldl (fun acc e => if p e.2 then some e.1 else acc) acc = acc ∧
        ∀ e ∈ m, p e.2 = false) ∨
    ∃ e ∈ m, p e.2 = true ∧
      m.foldl (fun acc e => if p e.2 then some e.1 else acc) acc = some e.1 := by
  induction m generalizing acc with
  | nil => left; simp
  | cons x rest ih =>
    simp only [List.foldl]
    by_cases hx : p x.2 = true
    · simp only [hx, if_true]
      rcases ih (some x.1) with ⟨h1, h2⟩ | ⟨e, he, hp, h⟩
      · right
        exact ⟨x, List.mem_cons_self _ _, hx, h1⟩
      · right
        exact ⟨e, List.mem_cons_of_mem _ he, hp, h⟩
    · simp only [hx, if_false]
      rcases ih acc with ⟨h1, h2⟩ | ⟨e, he, hp, h⟩
      · left
        refine ⟨h1, ?_⟩
        intro e he
        rcases List.mem_cons.1 he with h | h
        · subst h; simpa using hx
        · exact h2 e h
      · right
        exact ⟨e, List.mem_cons_of_mem _ he, hp, h⟩

theorem rangeFind_some {β : Type} (p : β → Bool) (m : List (String × β)) (a : String)
    (h : rangeFind p m = some a) : ∃ v, (a, v) ∈ m ∧ p v = true := by
  unfold rangeFind at h
  rcases rangeFind_acc p m none with ⟨h1, _⟩ | ⟨e, he, hp, h2⟩
  · rw [h1] at h; cases h
  · rw [h2] at h
    cases h
    exact ⟨e.2, he, hp⟩

theorem rangeFind_none {β : Type} (p : β → Bool) (m : List (String × β))
    (h : rangeFind p m = none) : ∀ e ∈ m, p e.2 = false := by
  unfold rangeFind at h
  rcases rangeFind_acc p m none with ⟨_, h1⟩ | ⟨e, he, hp, h2⟩
  · exact h1
  · rw [h2] at h; cases h

theorem rangeFind_isSome {β : Type} (p : β → Bool) (m : List (String × β)) (e : String × β)
    (he : e ∈ m) (hp : p e.2 = true) : ∃ a, rangeFind p m = some a := by
  cases h : rangeFind p m with
  | some a => exact ⟨a, rfl⟩
  | none =>
    have := rangeFind_none p m h e he
    rw [hp] at this
    cases this

theorem isClusterClaim_eq (c : Cluster) (v : ObjectReferenceWithKind)
    (h : isClusterClaim c v = true) : v = clusterClaim c := by
  obtain ⟨⟨n, ns⟩, k⟩ := v
  simp [isClusterClaim] at h
  obtain ⟨⟨h1, h2⟩, h3⟩ := h
  subst h1 h2 h3
  rfl

theorem isClusterClaim_self (c : Cluster) : isClusterClaim c (clusterClaim c) = true := by
  simp [isClusterClaim, clusterClaim]

theorem mem_mapInsert_self {β : Type} (m : List (String × β)) (k : String) (v : β) :
    (k, v) ∈ mapInsert m k v := by
  simp [mapInsert]

theorem mem_mapInsert_of_ne {β : Type} (m : List (String × β)) (k : String) (v : β)
    (e : String × β) (he : e ∈ m) (hne : e.1 ≠ k) : e ∈ mapInsert m k v := by
  simp [mapInsert, mapDelete, he, hne]

theorem mem_mapInsert {β : Type} (m : List (String × β)) (k : String) (v : β)
    (e : String × β) (he : e ∈ mapInsert m k v) : e ∈ m ∨ e = (k, v) := by
  simp [mapInsert, mapDelete] at he
  rcases he with ⟨h, _⟩ | h
  · exact Or.inl h
  · exact Or.inr h

theorem mem_mapDelete {β : Type} (m : List (String × β)) (k : String) (e : String × β) :
    e ∈ mapDelete m k ↔ e ∈ m ∧ e.1 ≠ k := by
  simp [mapDelete]

theorem statusUpdateAddressPool_cases (env : Env) (p : AddressPool) (w : World) :
    (∃ e, (statusUpdateAddressPool env p w).1 = some e ∧
      (statusUpdateAddressPool env p w).2.store = w.store) ∨
    ((statusUpdateAddressPool env p w).1 = none ∧
      (∃ old, lookup AddressPool.key p.key w.store.AddressPools = some old) ∧
      (statusUpdateAddressPool env p w).2.store.AddressPools =
        rewrite AddressPool.key p.key (fun q => { q with Status := p.Status })
          w.store.AddressPools) := by
  unfold statusUpdateAddressPool
  split
  · rename_i e _
    exact Or.inl ⟨e, rfl, rfl⟩
  · rename_i old h
    exact Or.inr ⟨rfl, ⟨old, (outcome_ok_key _ _ _ _ _ h).2.1⟩, rfl⟩

theorem statusUpdateInventory_cases (env : Env) (i : Inventory) (w : World) :
    (∃ e, (statusUpdateInventory env i w).1 = some e ∧
      (statusUpdateInventory env i w).2.store = w.store) ∨
    ((statusUpdateInventory env i w).1 = none ∧
      (∃ old, lookup Inventory.key i.key w.store.Inventories = some old) ∧
      (statusUpdateInventory env i w).2.store.Inventories =
        rewrite Inventory.key i.key (fun q => { q with Status := i.Status })
          w.store.Inventories) := by
  unfold statusUpdateInventory
  split
  · rename_i e _
    exact Or.inl ⟨e, rfl, rfl⟩
  · rename_i old h
    exact Or.inr ⟨rfl, ⟨old, (outcome_ok_key _ _ _ _ _ h).2.1⟩, rfl⟩

theorem statusUpdateCluster_cases (env : Env) (c : Cluster) (w : World) :
    (∃ e, (statusUpdateCluster env c w).1 = .error e ∧
      (statusUpdateCluster env c w).2.store = w.store) ∨
    (∃ old, lookup Cluster.key c.key w.store.Clusters = some old ∧
      (statusUpdateCluster env c w).1 = .ok { old with Status := c.Status } ∧
      (statusUpdateCluster env c w).2.store.Clusters =
        rewrite Cluster.key c.key (fun q => { q with Status := c.Status })
          w.store.Clusters) := by
  unfold statusUpdateCluster
  split
  · rename_i e _
    exact Or.inl ⟨e, rfl, rfl⟩
  · rename_i old h
    exact Or.inr ⟨old, (outcome_ok_key _ _ _ _ _ h).2.1, rfl, rfl⟩

theorem updateCluster_cases (env : Env) (c : Cluster) (w : World) :
    (∃ e, (updateCluster env c w).1 = .error e ∧
      (updateCluster env c w).2.store = w.store) ∨
    (∃ old, lookup Cluster.key c.key w.store.Clusters = some old ∧
      (updateCluster env c w).1 = .ok { c with Status := old.Status } ∧
      (updateCluster env c w).2.store.Clusters =
        rewrite Cluster.key c.key (fun q => { c with Status := q.Status })
          w.store.Clusters) := by
  unfold updateCluster
  split
  · rename_i e _
    exact Or.inl ⟨e, rfl, rfl⟩
  · rename_i old h
    exact Or.inr ⟨old, (outcome_ok_key _ _ _ _ _ h).2.1, rfl, rfl⟩

theorem PoolsGrow_refl (k : NamespacedName) (ps : List AddressPool) : PoolsGrow k ps ps :=
  ⟨fun p h => ⟨p, h, fun _ he => he⟩, fun p h => ⟨p, h, fun _ he => he⟩⟩

theorem PoolsGrow_of_eq (k : NamespacedName) (ps ps1 : List AddressPool) (h : ps1 = ps) :
    PoolsGrow k ps ps1 := by
  subst h
  exact PoolsGrow_refl k ps1

theorem PoolsGrow_trans (k : NamespacedName) (ps ps1 ps2 : List AddressPool)
    (h1 : PoolsGrow k ps ps1) (h2 : PoolsGrow k ps1 ps2) : PoolsGrow k ps ps2 := by
  constructor
  · intro p hp
    obtain ⟨p1, hp1, hm1⟩ := h1.1 p hp
    obtain ⟨p2, hp2, hm2⟩ := h2.1 p1 hp1
    exact ⟨p2, hp2, fun e he => hm2 e (hm1 e he)⟩
  · intro p2 hp2
    obtain ⟨p1, hp1, hm1⟩ := h2.2 p2 hp2
    obtain ⟨p, hp, hm⟩ := h1.2 p1 hp1
    exact ⟨p, hp, fun v hv => hm v (hm1 v hv)⟩

theorem ClusterGood_grow (c : Cluster) (ps ps1 : List AddressPool) (h : ClusterGood c ps)
    (hg : PoolsGrow (vipPoolKey c) ps ps1) : ClusterGood c ps1 := by
  obtain ⟨h1, h2, h3, h4⟩ := h
  refine ⟨h1, h2, ?_, ?_⟩
  · intro hne
    obtain ⟨ha, p, hp, hm⟩ := h3 hne
    obtain ⟨p1, hp1, hm1⟩ := hg.1 p hp
    exact ⟨ha, p1, hp1, hm1 _ hm⟩
  · intro p1 hp1 v hv
    obtain ⟨p, hp, hm⟩ := hg.2 p1 hp1
    exact h4 p hp v (hm v hv)

/-- Writing a pool that was read from the store with one fresh, non-empty
address added keeps every entry of every pool. -/
theorem poolWrite_grow (env : Env) (pool : AddressPool) (a : String)
    (v : ObjectReferenceWithKind) (w : World) (k : NamespacedName)
    (hl : lookup AddressPool.key pool.key w.store.AddressPools = some pool)
    (ha : a ≠ "") (hfresh : ∀ v1, (a, v1) ∉ pool.Status.AddressAllocation) :
    PoolsGrow k w.store.AddressPools
      (statusUpdateAddressPool env { pool with Status := { pool.Status with
        AddressAllocation := mapInsert pool.Status.AddressAllocation a v } } w).2.store.AddressPools ∧
    ((statusUpdateAddressPool env { pool with Status := { pool.Status with
        AddressAllocation := mapInsert pool.Status.AddressAllocation a v } } w).1 = none →
      ∃ p2, lookup AddressPool.key pool.key
        (statusUpdateAddressPool env { pool with Status := { pool.Status with
          AddressAllocation := mapInsert pool.Status.AddressAllocation a v } } w).2.store.AddressPools
          = some p2 ∧ (a, v) ∈ p2.Status.AddressAllocation) := by
  rcases statusUpdateAddressPool_cases env { pool with Status := { pool.Status with
        AddressAllocation := mapInsert pool.Status.AddressAllocation a v } } w with
    ⟨e, h1, h2⟩ | ⟨h1, _, h3⟩
  · rw [h2, h1]
    exact ⟨PoolsGrow_refl _ _, by simp⟩
  · rw [h3]
    have hkey : ({ pool with Status := { pool.Status with
        AddressAllocation := mapInsert pool.Status.AddressAllocation a v } } : AddressPool).key
        = pool.key := rfl
    rw [hkey]
    have hlr := fun k1 => lookup_rewrite AddressPool.key pool.key k1
      (fun q : AddressPool => { q with Status := { pool.Status with
        AddressAllocation := mapInsert pool.Status.AddressAllocation a v } })
      (fun _ h => h) w.store.AddressPools
    refine ⟨⟨?_, ?_⟩, ?_⟩
    · intro p hp
      rw [hlr k]
      by_cases hk : k = pool.key
      · subst hk
        rw [hl] at hp
        cases hp
        simp only [if_true, hl, Option.map_some']
        refine ⟨_, rfl, ?_⟩
        intro e he
        apply mem_mapInsert_of_ne _ _ _ _ he
        intro hea
        apply hfresh e.2
        rw [← hea]
        exact he
      · simp only [hk, if_false]
        exact ⟨p, hp, fun _ he => he⟩
    · intro p1 hp1
      rw [hlr k] at hp1
      by_cases hk : k = pool.key
      · subst hk
        simp only [if_true, hl, Option.map_some'] at hp1
        cases hp1
        refine ⟨pool, hl, ?_⟩
        intro v1 hv1
        rcases mem_mapInsert _ _ _ _ hv1 with h | h
        · exact h
        · cases h
          exact absurd rfl ha
      · simp only [hk, if_false] at hp1
        exact ⟨p1, hp1, fun _ he => he⟩
    · intro _
      rw [hlr pool.key]
      simp only [if_true, hl, Option.map_some']
      exact ⟨_, rfl, mem_mapInsert_self _ _ _⟩

theorem patchNode_clusters (env : Env) (c : Cluster) (n : Nat) (nc : NodeConfig) (w : World) :
    (patchNode env c n nc w).2.store.Clusters = w.store.Clusters := by
  simp only [patchNode]
  repeat' split
  all_goals simp

theorem patchNode_grow (env : Env) (c : Cluster) (n : Nat) (nc : NodeConfig) (w : World)
    (k : NamespacedName) (hne : NonEmptyAlloc env) (hfr : FreshAlloc env) :
    PoolsGrow k w.store.AddressPools (patchNode env c n nc w).2.store.AddressPools := by
  simp only [patchNode]
  split
  · exact PoolsGrow_of_eq _ _ _ (by simp)
  · rename_i pool hp
    obtain ⟨_, hpl, hpk⟩ := getAddressPool_ok _ _ _ _ hp
    split
    · exact PoolsGrow_of_eq _ _ _ (by simp)
    · split
      · exact PoolsGrow_of_eq _ _ _ (by simp)
      · rename_i i hi
        split
        · exact PoolsGrow_of_eq _ _ _ (by simp)
        · split
          · exact PoolsGrow_of_eq _ _ _ (by simp)
          · cases hf : rangeFind (isInventoryClaim i) pool.Status.AddressAllocation with
            | some a =>
              simp only [Option.isNone_some, Bool.false_eq_true, if_false]
              split <;> exact PoolsGrow_of_eq _ _ _ (by simp)
            | none =>
              simp only [Option.isNone_none, if_true]
              cases hal : env.AllocateAddress pool.Status nc.StaticAddress with
              | error e => exact PoolsGrow_of_eq _ _ _ (by simp)
              | ok a =>
                simp only []
                split
                · exact PoolsGrow_of_eq _ _ _ (by simp)
                · have hg := (poolWrite_grow env pool a (inventoryClaim i)
                    (statusUpdateInventory env
                      { i with Status := { i.Status with
                          PXEBootInterface := { i.Status.PXEBootInterface with
                            Address := a
                            Gateway := pool.Spec.Gateway
                            Netmask := pool.Status.Netmask }
                          GeneratedPassword := env.GenerateRand
                            ((getInventory env ⟨nc.InventoryReference.Namespace,
                              nc.InventoryReference.Name⟩ (getAddressPool env
                                ⟨nc.AddressPoolReference.Namespace,
                                  nc.AddressPoolReference.Name⟩ w).2).2.note
                              (.allocateAddress pool.Status nc.StaticAddress
                                (errOf (Except.ok a : Except Err String)))).calls
                          Cluster := { Name := c.Name, Namespace := c.Namespace }
                          Conditions := patchedConditions env.now c n i.Status.Conditions } }
                      ((getInventory env ⟨nc.InventoryReference.Namespace,
                          nc.InventoryReference.Name⟩ (getAddressPool env
                            ⟨nc.AddressPoolReference.Namespace,
                              nc.AddressPoolReference.Name⟩ w).2).2.note
                          (.allocateAddress pool.Status nc.StaticAddress
                            (errOf (Except.ok a : Except Err String))))).2 k
                    (by rw [hpk]; simpa using hpl) (hne _ _ _ hal) (hfr _ _ _ hal)).1
                  simp only [statusUpdateInventory_pools, note_store, getInventory_store,
                    getAddressPool_store] at hg
                  split <;> exact hg

theorem patchNodes_clusters (env : Env) (c : Cluster) (n : Nat) (nodes : List NodeConfig)
    (w : World) : (patchNodes env c n nodes w).2.store.Clusters = w.store.Clusters := by
  induction nodes generalizing n w with
  | nil => simp [patchNodes]
  | cons nc rest ih =>
    simp only [patchNodes]
    have h1 := patchNode_clusters env c n nc w
    split
    · rename_i e w1 heq
      rw [heq] at h1
      exact h1
    · rename_i w1 heq
      rw [heq] at h1
      rw [ih, h1]

theorem patchNodes_grow (env : Env) (c : Cluster) (n : Nat) (nodes : List NodeConfig)
    (w : World) (k : NamespacedName) (hne : NonEmptyAlloc env) (hfr : FreshAlloc env) :
    PoolsGrow k w.store.AddressPools (patchNodes env c n nodes w).2.store.AddressPools := by
  induction nodes generalizing n w with
  | nil => exact PoolsGrow_refl _ _
  | cons nc rest ih =>
    simp only [patchNodes]
    have h1 := patchNode_grow env c n nc w k hne hfr
    split
    · rename_i e w1 heq
      rw [heq] at h1
      exact h1
    · rename_i w1 heq
      rw [heq] at h1
      exact PoolsGrow_trans _ _ _ _ h1 (ih (n + 1) w1)

theorem tinkNode_pools (env : Env) (c : Cluster) (nc : NodeConfig) (w : World) :
    (tinkNode env c nc w).2.store.AddressPools = w.store.AddressPools ∧
    (tinkNode env c nc w).2.store.Clusters = w.store.Clusters := by
  simp only [tinkNode]
  repeat' split
  all_goals simp

theorem tinkNodes_pools (env : Env) (c : Cluster) (nodes : List NodeConfig) (w : World) :
    (tinkNodes env c nodes w).2.store.AddressPools = w.store.AddressPools ∧
    (tinkNodes env c nodes w).2.store.Clusters = w.store.Clusters := by
  induction nodes generalizing w with
  | nil => simp [tinkNodes]
  | cons nc rest ih =>
    simp only [tinkNodes]
    have h1 := tinkNode_pools env c nc w
    split
    · rename_i e w1 heq
      rw [heq] at h1
      exact h1
    · rename_i w1 heq
      rw [heq] at h1
      rw [(ih w1).1, (ih w1).2]
      exact h1

theorem ClusterGood_congr (c c1 : Cluster) (ps : List AddressPool) (h : ClusterGood c ps)
    (hd : c1.DeletionTimestamp = c.DeletionTimestamp) (hn : c1.Name = c.Name)
    (hns : c1.Namespace = c.Namespace) (hs : c1.Spec = c.Spec)
    (ha : c1.Status.ClusterAddress = c.Status.ClusterAddress)
    (hp : c1.Status.Status = .empty ↔ c.Status.Status = .empty) : ClusterGood c1 ps := by
  obtain ⟨h1, h2, h3, h4⟩ := h
  have hv : vipPoolKey c1 = vipPoolKey c := by simp [vipPoolKey, hs]
  have hc : clusterClaim c1 = clusterClaim c := by simp [clusterClaim, hn, hns]
  refine ⟨by rw [hd, h1], ?_, ?_, ?_⟩
  · intro he
    rw [ha]
    exact h2 (hp.1 he)
  · intro hne
    rw [ha, hv, hc]
    exact h3 (fun he => hne (hp.2 he))
  · rw [hv]
    exact h4

theorem ClusterGood_config (c : Cluster) (ps : List AddressPool) (a t : String)
    (p : AddressPool) (h : ClusterGood c ps) (ha : a ≠ "")
    (hp : lookup AddressPool.key (vipPoolKey c) ps = some p)
    (hm : (a, clusterClaim c) ∈ p.Status.AddressAllocation) :
    ClusterGood { c with Status := { Status := .ClusterConfigReady, ClusterAddress := a,
                                     ClusterToken := t } } ps := by
  obtain ⟨h1, _, _, h4⟩ := h
  refine ⟨h1, ?_, ?_, h4⟩
  · intro he; cases he
  · intro _
    exact ⟨ha, p, hp, hm⟩

/-- A status write of the cluster, started from a store whose cluster under the
key is `c0`: the store afterwards holds `c0` or `c0` with the written status. -/
theorem statusWrite_good (env : Env) (c0 c : Cluster) (w : World) (hk : c.key = c0.key)
    (hl : lookup Cluster.key c0.key w.store.Clusters = some c0)
    (hfail : ClusterGood c0 w.store.AddressPools)
    (hok : ClusterGood { c0 with Status := c.Status } w.store.AddressPools) :
    StepGood c0 (match (statusUpdateCluster env c w).1 with
      | .error e => (some e, c, (statusUpdateCluster env c w).2)
      | .ok c3 => (none, c3, (statusUpdateCluster env c w).2)) := by
  rcases statusUpdateCluster_cases env c w with ⟨e, h1, h2⟩ | ⟨old, h1, h2, h3⟩
  · rw [h1]
    unfold StepGood
    simp only []
    rw [h2]
    exact ⟨c0, hl, hfail, by simp⟩
  · rw [h2]
    simp only []
    rw [hk, hl] at h1
    cases h1
    refine ⟨{ c0 with Status := c.Status }, ?_, ?_, by simp⟩
    · show lookup Cluster.key c0.key (statusUpdateCluster env c w).2.store.Clusters = _
      rw [h3, hk, lookup_rewrite Cluster.key c0.key c0.key
        (fun q : Cluster => { q with Status := c.Status }) (fun _ h => h), if_pos rfl, hl]
      rfl
    · show ClusterGood _ (statusUpdateCluster env c w).2.store.AddressPools
      rw [statusUpdateCluster_pools]
      exact hok

/-- An update of the cluster object, started from a store whose cluster under
the key is `c0`. -/
theorem updateWrite_good (env : Env) (c0 c : Cluster) (w : World) (hk : c.key = c0.key)
    (hl : lookup Cluster.key c0.key w.store.Clusters = some c0)
    (hfail : ClusterGood c0 w.store.AddressPools)
    (hok : ClusterGood { c with Status := c0.Status } w.store.AddressPools) :
    StepGood c0 (match (updateCluster env c w).1 with
      | .error e => (some e, c, (updateCluster env c w).2)
      | .ok c3 => (none, c3, (updateCluster env c w).2)) := by
  rcases updateCluster_cases env c w with ⟨e, h1, h2⟩ | ⟨old, h1, h2, h3⟩
  · rw [h1]
    unfold StepGood
    simp only []
    rw [h2]
    exact ⟨c0, hl, hfail, by simp⟩
  · rw [h2]
    simp only []
    rw [hk, hl] at h1
    cases h1
    refine ⟨{ c with Status := c0.Status }, ?_, ?_, by simp⟩
    · show lookup Cluster.key c0.key (updateCluster env c w).2.store.Clusters = _
      rw [h3, hk, lookup_rewrite Cluster.key c0.key c0.key
        (fun q : Cluster => { c with Status := q.Status }) (fun _ _ => hk), if_pos rfl, hl]
      rfl
    · show ClusterGood _ (updateCluster env c w).2.store.AddressPools
      rw [updateCluster_pools]
      exact hok

theorem StepGood_same (c : Cluster) (e : Err) (c1 : Cluster) (w w1 : World)
    (hl : lookup Cluster.key c.key w.store.Clusters = some c)
    (hg : ClusterGood c w.store.AddressPools)
    (hs : w1.store = w.store) : StepGood c (some e, c1, w1) := by
  refine ⟨c, ?_, ?_, by simp⟩
  · show lookup Cluster.key c.key w1.store.Clusters = some c
    rw [hs]; exact hl
  · show ClusterGood c w1.store.AddressPools
    rw [hs]; exact hg

theorem generateClusterConfig_good (env : Env) (c : Cluster) (w : World)
    (hne : NonEmptyAlloc env) (hfr : FreshAlloc env)
    (hl : lookup Cluster.key c.key w.store.Clusters = some c)
    (hg : ClusterGood c w.store.AddressPools) :
    StepGood c (generateClusterConfig env c w) := by
  simp only [generateClusterConfig]
  split
  · rename_i hph
    have haddr := hg.2.1 hph
    split
    · exact StepGood_same c _ _ w _ hl hg (by simp)
    · rename_i vipPool hp
      obtain ⟨_, hpl, hpk⟩ := getAddressPool_ok _ _ _ _ hp
      split
      · exact StepGood_same c _ _ w _ hl hg (by simp)
      · cases hf : rangeFind (isClusterClaim c) vipPool.Status.AddressAllocation with
        | some a =>
          simp only []
          obtain ⟨v, hv, hcv⟩ := rangeFind_some _ _ _ hf
          have hveq := isClusterClaim_eq c v hcv
          subst hveq
          have hane : a ≠ "" := by
            intro h0
            subst h0
            exact hg.2.2.2 vipPool hpl _ hv
          apply statusWrite_good
          · rfl
          · simpa using hl
          · simpa using hg
          · simp only [getAddressPool_store]
            exact ClusterGood_config c _ a _ vipPool hg hane hpl hv
        | none =>
          simp only []
          cases hal : env.AllocateAddress vipPool.Status c.Spec.VIPConfig.StaticAddress with
          | error e =>
            simp only []
            exact StepGood_same c _ _ w _ hl hg (by simp)
          | ok vip =>
            simp only []
            have hw := poolWrite_grow env vipPool vip (clusterClaim c)
              ((getAddressPool env ⟨c.Spec.VIPConfig.AddressPoolReference.Namespace,
                  c.Spec.VIPConfig.AddressPoolReference.Name⟩ w).2.note
                (.allocateAddress vipPool.Status c.Spec.VIPConfig.StaticAddress
                  (errOf (Except.ok vip : Except Err String))))
              (vipPoolKey c) (by rw [hpk]; simpa using hpl) (hne _ _ _ hal) (hfr _ _ _ hal)
            have hcl := statusUpdateAddressPool_clusters env
              { vipPool with Status := { vipPool.Status with
                  AddressAllocation :=
                    mapInsert vipPool.Status.AddressAllocation vip (clusterClaim c) } }
              ((getAddressPool env ⟨c.Spec.VIPConfig.AddressPoolReference.Namespace,
                  c.Spec.VIPConfig.AddressPoolReference.Name⟩ w).2.note
                (.allocateAddress vipPool.Status c.Spec.VIPConfig.StaticAddress
                  (errOf (Except.ok vip : Except Err String))))
            simp only [note_store, getAddressPool_store] at hw hcl
            generalize statusUpdateAddressPool env
              { vipPool with Status := { vipPool.Status with
                  AddressAllocation :=
                    mapInsert vipPool.Status.AddressAllocation vip (clusterClaim c) } }
              ((getAddressPool env ⟨c.Spec.VIPConfig.AddressPoolReference.Namespace,
                  c.Spec.VIPConfig.AddressPoolReference.Name⟩ w).2.note
                (.allocateAddress vipPool.Status c.Spec.VIPConfig.StaticAddress
                  (errOf (Except.ok vip : Except Err String)))) = ru at hw hcl ⊢
            obtain ⟨r, w2⟩ := ru
            simp only [] at hw hcl ⊢
            have hg2 : ClusterGood c w2.store.AddressPools := ClusterGood_grow c _ _ hg hw.1
            have hl2 : lookup Cluster.key c.key w2.store.Clusters = some c := by
              rw [hcl]; exact hl
            cases r with
            | some e =>
              simp only []
              exact ⟨c, hl2, hg2, by simp⟩
            | none =>
              simp only []
              obtain ⟨p2, hp2, hm2⟩ := hw.2 rfl
              apply statusWrite_good
              · rfl
              · exact hl2
              · exact hg2
              · exact ClusterGood_config c _ vip _ p2 hg2 (hne _ _ _ hal)
                  (by rw [hpk] at hp2; exact hp2) hm2
  · exact ⟨c, hl, hg, by simp⟩

theorem StepGood_key (c c0 : Cluster) (r : Option Err × Cluster × World) (hk : c.key = c0.key)
    (h : StepGood c0 r) : StepGood c r := by
  unfold StepGood at h ⊢
  rw [hk]
  exact h

theorem AddFinalizer_fields (c : Cluster) (f : String) :
    (AddFinalizer c f).Name = c.Name ∧ (AddFinalizer c f).Namespace = c.Namespace ∧
    (AddFinalizer c f).DeletionTimestamp = c.DeletionTimestamp ∧
    (AddFinalizer c f).Spec = c.Spec ∧ (AddFinalizer c f).Status = c.Status := by
  unfold AddFinalizer
  split <;> simp

theorem patchNodesAndPools_good (env : Env) (c : Cluster) (w : World)
    (hne : NonEmptyAlloc env) (hfr : FreshAlloc env)
    (hl : lookup Cluster.key c.key w.store.Clusters = some c)
    (hg : ClusterGood c w.store.AddressPools) :
    StepGood c (patchNodesAndPools env c w) := by
  simp only [patchNodesAndPools]
  split
  · rename_i hph
    have hcl := patchNodes_clusters env c 0 c.Spec.Nodes w
    have hgr := patchNodes_grow env c 0 c.Spec.Nodes w (vipPoolKey c) hne hfr
    generalize patchNodes env c 0 c.Spec.Nodes w = rn at hcl hgr ⊢
    obtain ⟨ex, w1⟩ := rn
    simp only [] at hcl hgr ⊢
    have hg1 : ClusterGood c w1.store.AddressPools := ClusterGood_grow c _ _ hg hgr
    have hl1 : lookup Cluster.key c.key w1.store.Clusters = some c := by rw [hcl]; exact hl
    cases ex with
    | returned e =>
      simp only []
      exact ⟨c, hl1, hg1, fun _ => rfl⟩
    | completed =>
      simp only []
      have hg2 : ClusterGood { c with Status := { c.Status with Status := .ClusterNodesPatched } }
          w1.store.AddressPools :=
        ClusterGood_congr c _ _ hg1 rfl rfl rfl rfl rfl (by simp [hph])
      rcases statusUpdateCluster_cases env
        { c with Status := { c.Status with Status := .ClusterNodesPatched } } w1 with
        ⟨e, h1, h2⟩ | ⟨old, h1, h2, h3⟩
      · rw [h1]
        simp only []
        exact StepGood_same c _ _ w1 _ hl1 hg1 h2
      · have hold : old = c := by
          have : lookup Cluster.key c.key w1.store.Clusters = some old := h1
          rw [hl1] at this
          cases this
          rfl
        subst hold
        rw [h2]
        simp only []
        have hl2 : lookup Cluster.key old.key
            (statusUpdateCluster env
              { old with Status := { old.Status with Status := .ClusterNodesPatched } }
              w1).2.store.Clusters =
            some { old with Status := { old.Status with Status := .ClusterNodesPatched } } := by
          rw [h3]
          show lookup Cluster.key old.key (rewrite Cluster.key old.key _ _) = _
          rw [lookup_rewrite Cluster.key old.key old.key
            (fun q : Cluster =>
              { q with Status := { old.Status with Status := .ClusterNodesPatched } })
            (fun _ h => h), if_pos rfl, hl1]
          rfl
        have hg3 : ClusterGood
            { old with Status := { old.Status with Status := .ClusterNodesPatched } }
            (statusUpdateCluster env
              { old with Status := { old.Status with Status := .ClusterNodesPatched } }
              w1).2.store.AddressPools := by
          rw [statusUpdateCluster_pools]
          exact hg2
        split
        · apply StepGood_key old
            { old with Status := { old.Status with Status := .ClusterNodesPatched } } _ rfl
          apply updateWrite_good
          · have := AddFinalizer_fields
              { old with Status := { old.Status with Status := .ClusterNodesPatched } }
              ClusterFinalizer
            simp only [Cluster.key, this.1, this.2.1]
          · exact hl2
          · exact hg3
          · have hf := AddFinalizer_fields
              { old with Status := { old.Status with Status := .ClusterNodesPatched } }
              ClusterFinalizer
            exact ClusterGood_congr _ _ _ hg3 hf.2.2.1 hf.1 hf.2.1 hf.2.2.2.1 rfl Iff.rfl
        · exact ⟨_, hl2, hg3, fun _ => rfl⟩
  · exact ⟨c, hl, hg, by simp⟩

theorem createTinkerbellHardware_good (env : Env) (c : Cluster) (w : World)
    (hl : lookup Cluster.key c.key w.store.Clusters = some c)
    (hg : ClusterGood c w.store.AddressPools) :
    StepGood c (createTinkerbellHardware env c w) := by
  simp only [createTinkerbellHardware]
  have key : ∀ r1 : LoopExit × World, r1.2.store.AddressPools = w.store.AddressPools →
      r1.2.store.Clusters = w.store.Clusters →
      StepGood c (match r1 with
        | (.returned e, w1) => (e, c, w1)
        | (.completed, w1) =>
          if c.Status.Status = .ClusterNodesPatched then
            match (statusUpdateCluster env
                { c with Status := { c.Status with Status := .ClusterTinkHardwareSubmitted } }
                w1).1 with
            | .error e => (some e,
                { c with Status := { c.Status with Status := .ClusterTinkHardwareSubmitted } },
                (statusUpdateCluster env
                  { c with Status := { c.Status with Status := .ClusterTinkHardwareSubmitted } }
                  w1).2)
            | .ok c2 => (none, c2, (statusUpdateCluster env
                  { c with Status := { c.Status with Status := .ClusterTinkHardwareSubmitted } }
                  w1).2)
          else (none, c, w1)) := by
    intro r1 hp hc
    obtain ⟨ex, w1⟩ := r1
    simp only [] at hp hc
    have hg1 : ClusterGood c w1.store.AddressPools := by rw [hp]; exact hg
    have hl1 : lookup Cluster.key c.key w1.store.Clusters = some c := by rw [hc]; exact hl
    cases ex with
    | returned e => exact ⟨c, hl1, hg1, fun _ => rfl⟩
    | completed =>
      simp only []
      split
      · rename_i hph
        apply statusWrite_good
        · rfl
        · exact hl1
        · exact hg1
        · exact ClusterGood_congr c _ _ hg1 rfl rfl rfl rfl rfl (by simp [hph])
      · exact ⟨c, hl1, hg1, fun _ => rfl⟩
  by_cases hph : c.Status.Status = .ClusterNodesPatched ∨
      c.Status.Status = .ClusterTinkHardwareSubmitted
  · rw [if_pos hph]
    exact key _ (tinkNodes_pools env c c.Spec.Nodes w).1 (tinkNodes_pools env c c.Spec.Nodes w).2
  · rw [if_neg hph]
    exact key (.completed, w) rfl rfl

/-- The stored cluster under `req`, if any, is good. -/
theorem StepGood_store (c : Cluster) (r : Option Err × Cluster × World) (h : StepGood c r) :
    ∀ c1, lookup Cluster.key c.key r.2.2.store.Clusters = some c1 →
      ClusterGood c1 r.2.2.store.AddressPools := by
  obtain ⟨cP, h1, h2, _⟩ := h
  intro c1 hc1
  rw [h1] at hc1
  cases hc1
  exact h2

theorem StepGood_next (c : Cluster) (r : Option Err × Cluster × World) (h : StepGood c r)
    (hn : r.1 = none) :
    r.2.1.key = c.key ∧ lookup Cluster.key r.2.1.key r.2.2.store.Clusters = some r.2.1 ∧
      ClusterGood r.2.1 r.2.2.store.AddressPools := by
  obtain ⟨cP, h1, h2, h3⟩ := h
  have h4 := h3 hn
  have hk := lookup_key _ _ _ _ h1
  rw [h4]
  exact ⟨hk, by rw [hk]; exact h1, h2⟩

theorem reconcileList_good (env : Env) (c : Cluster) (w : World)
    (hne : NonEmptyAlloc env) (hfr : FreshAlloc env)
    (hl : lookup Cluster.key c.key w.store.Clusters = some c)
    (hg : ClusterGood c w.store.AddressPools) :
    StepGood c (runReconcilers env reconcileList c w) := by
  have h1 := generateClusterConfig_good env c w hne hfr hl hg
  simp only [reconcileList, runReconcilers]
  generalize generateClusterConfig env c w = r1 at h1 ⊢
  obtain ⟨e1, c1, w1⟩ := r1
  cases e1 with
  | some e => exact h1
  | none =>
    simp only []
    obtain ⟨k1, l1, g1⟩ := StepGood_next c _ h1 rfl
    simp only [] at k1 l1 g1
    have h2 := patchNodesAndPools_good env c1 w1 hne hfr l1 g1
    generalize patchNodesAndPools env c1 w1 = r2 at h2 ⊢
    obtain ⟨e2, c2, w2⟩ := r2
    cases e2 with
    | some e => exact StepGood_key c c1 _ k1.symm h2
    | none =>
      simp only []
      obtain ⟨k2, l2, g2⟩ := StepGood_next c1 _ h2 rfl
      simp only [] at k2 l2 g2
      have h3 := createTinkerbellHardware_good env c2 w2 l2 g2
      generalize createTinkerbellHardware env c2 w2 = r3 at h3 ⊢
      obtain ⟨e3, c3, w3⟩ := r3
      have hk : c.key = c2.key := by rw [k2, k1]
      cases e3 with
      | some e => exact StepGood_key c c2 _ hk h3
      | none => exact StepGood_key c c2 _ hk h3

/-- The cluster stored under `req`, if there is one, is good. -/
theorem Reconcile_good (env : Env) (req : NamespacedName) (w : World)
    (hne : NonEmptyAlloc env) (hfr : FreshAlloc env)
    (hg : ∀ c, lookup Cluster.key req w.store.Clusters = some c →
      ClusterGood c w.store.AddressPools) :
    ∀ c, lookup Cluster.key req (Reconcile env req w).2.store.Clusters = some c →
      ClusterGood c (Reconcile env req w).2.store.AddressPools := by
  simp only [Reconcile]
  split
  · split <;> simpa using hg
  · rename_i c hc
    obtain ⟨_, hl, hk⟩ := getCluster_ok _ _ _ _ hc
    have hgc := hg c hl
    have hd : c.DeletionTimestamp.isNone = true := by rw [hgc.1]; rfl
    rw [if_pos hd]
    have := reconcileList_good env c (getCluster env req w).2 hne hfr
      (by rw [hk]; simpa using hl) (by simpa using hgc)
    have hs := StepGood_store c _ this
    rw [hk] at hs
    exact hs

theorem runPasses_good (req : NamespacedName) (envs : List Env) (s : Store)
    (hall : ∀ env ∈ envs, NonEmptyAlloc env ∧ FreshAlloc env)
    (hg : ∀ c, lookup Cluster.key req s.Clusters = some c → ClusterGood c s.AddressPools) :
    ∀ c, lookup Cluster.key req (runPasses req envs s).Clusters = some c →
      ClusterGood c (runPasses req envs s).AddressPools := by
  induction envs generalizing s with
  | nil => exact hg
  | cons env rest ih =>
    simp only [runPasses]
    apply ih
    · intro e he
      exact hall e (List.mem_cons_of_mem _ he)
    · have h := hall env (List.mem_cons_self _ _)
      exact Reconcile_good env req (freshWorld s) h.1 h.2 hg

/-- C5 (amended): for a cluster that is not marked for deletion and starts with
an empty status, whose VIP pool has no entry for the empty address, after any
sequence of passes of `Reconcile` with any outcome of the store calls and an
allocator that answers with a non-empty address that is not a key of the map it
was given: when the stored phase is non-empty, the stored virtual address is
non-empty and the VIP pool holds it for the cluster (kind Cluster, its name and
namespace). -/
theorem vip_claim_invariant (req : NamespacedName) (envs : List Env) (s : Store)
    (c0 : Cluster) (h0 : lookup Cluster.key req s.Clusters = some c0)
    (hd : c0.DeletionTimestamp = none)
    (hst : c0.Status.Status = .empty ∧ c0.Status.ClusterAddress = "")
    (hpool : NoEmptyAddress s (vipPoolKey c0))
    (hall : ∀ env ∈ envs, NonEmptyAlloc env ∧ FreshAlloc env) :
    VipClaimed req (runPasses req envs s) := by
  have hg : ∀ c, lookup Cluster.key req s.Clusters = some c → ClusterGood c s.AddressPools := by
    intro c hc
    rw [h0] at hc
    cases hc
    exact ⟨hd, fun _ => hst.2, fun h => absurd hst.1 h, hpool⟩
  intro c hc hph
  obtain ⟨_, _, h3, _⟩ := runPasses_good req envs s hall hg c hc
  obtain ⟨ha, p, hp, hm⟩ := h3 hph
  refine ⟨ha, ?_⟩
  unfold holdsClaim
  rw [hp]
  simpa using hm

theorem sampleAllocate_nonEmpty : NonEmptyAlloc calmEnv := by
  intro st static a h
  simp only [calmEnv, sampleAllocate] at h
  split at h
  · rename_i hs
    split at h
    · cases h
    · cases h
      exact hs
  · split at h
    · rename_i b hb
      cases h
      have := List.mem_of_find?_eq_some hb
      intro h0
      subst h0
      simp at this
    · cases h

theorem sampleAllocate_fresh : FreshAlloc calmEnv := by
  intro st static a h v hv
  simp only [calmEnv, sampleAllocate] at h
  split at h
  · split at h
    · cases h
    · rename_i hany
      cases h
      apply hany
      simp only [List.any_eq_true, decide_eq_true_eq]
      exact ⟨_, hv, rfl⟩
  · split at h
    · rename_i b hb
      cases h
      have := List.find?_some hb
      simp only [Bool.not_eq_true', List.any_eq_false, decide_eq_true_eq] at this
      exact this _ hv rfl
    · cases h

theorem newStore_noEmptyAddress : NoEmptyAddress newStore (vipPoolKey newCluster) := by
  intro p hp v hv
  have hp1 : lookup AddressPool.key (vipPoolKey newCluster) newStore.AddressPools =
      some freeVipPool := by rfl
  rw [hp1] at hp
  cases hp
  simp [freeVipPool] at hv

theorem calmEnv_twice_good : ∀ env ∈ [calmEnv, calmEnv], NonEmptyAlloc env ∧ FreshAlloc env := by
  intro env he
  simp only [List.mem_cons, List.mem_singleton, List.not_mem_nil, or_false, or_self] at he
  subst he
  exact ⟨sampleAllocate_nonEmpty, sampleAllocate_fresh⟩

/-- Witness of C5 (amended): two passes over the new cluster with the sample
allocator. -/
theorem vip_claim_invariant_witness :
    (lookup Cluster.key newCluster.key newStore.Clusters = some newCluster ∧
      newCluster.DeletionTimestamp = none ∧
      (newCluster.Status.Status = .empty ∧ newCluster.Status.ClusterAddress = "") ∧
      NoEmptyAddress newStore (vipPoolKey newCluster) ∧
      (∀ env ∈ [calmEnv, calmEnv], NonEmptyAlloc env ∧ FreshAlloc env)) ∧
    VipClaimed newCluster.key (runPasses newCluster.key [calmEnv, calmEnv] newStore) ∧
    storedPhase (runPasses newCluster.key [calmEnv, calmEnv] newStore) newCluster.key =
      some (.ClusterTinkHardwareSubmitted, "10.0.0.2") :=
  ⟨⟨by rfl, by rfl, ⟨by rfl, by rfl⟩, newStore_noEmptyAddress, calmEnv_twice_good⟩,
    vip_claim_invariant newCluster.key [calmEnv, calmEnv] newStore newCluster (by rfl) (by rfl)
      ⟨by rfl, by rfl⟩ newStore_noEmptyAddress calmEnv_twice_good,
    by rfl⟩

/-- C5 (as stated) fails in two ways.  First, with an allocator that only
answers non-empty: the cluster takes its virtual address from the pool of its
nodes, the allocator answers `10.0.0.9` for the cluster and again for each
node, and the node's claim replaces the cluster's; after one pass the phase is
`ClusterTinkHardwareSubmitted`, the address is `10.0.0.9`, and the pool holds
it for Inventory `inv-b`, not for the cluster.  Second, whatever the allocator:
the VIP pool starts with an entry for the empty address under the cluster's
identity, the pass reuses it, and the phase is non-empty with an empty
address. -/
theorem vip_claim_lost :
    (sharedPoolCluster.Status = ⟨.empty, "", ""⟩ ∧
      NonEmptyAlloc sloppyEnv ∧
      storedPhase (runPasses sharedPoolCluster.key [sloppyEnv] sharedPoolStore)
        sharedPoolCluster.key = some (.ClusterTinkHardwareSubmitted, "10.0.0.9") ∧
      holdsClaim (runPasses sharedPoolCluster.key [sloppyEnv] sharedPoolStore)
        (vipPoolKey sharedPoolCluster) "10.0.0.9" (clusterClaim sharedPoolCluster) = false ∧
      holdsClaim (runPasses sharedPoolCluster.key [sloppyEnv] sharedPoolStore)
        (vipPoolKey sharedPoolCluster) "10.0.0.9" (inventoryClaim readyInventoryB) = true) ∧
    (newCluster.Status = ⟨.empty, "", ""⟩ ∧
      NonEmptyAlloc calmEnv ∧
      storedPhase (runPasses newCluster.key [calmEnv] emptyKeyStore) newCluster.key =
        some (.ClusterTinkHardwareSubmitted, "")) := by
  refine ⟨⟨by rfl, ?_, by rfl, by rfl, by rfl⟩, by rfl, sampleAllocate_nonEmpty, by rfl⟩
  intro st static a h
  simp only [sloppyEnv] at h
  cases h
  decide

/-! ## Phase order -/

theorem PhaseStep_refl (a : ClusterWorkflowStatus) : PhaseStep a a := Or.inl rfl

theorem StepPhase_err (c : Cluster) (src dst : ClusterWorkflowStatus) (e : Err) (c1 : Cluster)
    (w w1 : World) (hl : lookup Cluster.key c.key w.store.Clusters = some c)
    (hs : w1.store.Clusters = w.store.Clusters) : StepPhase c src dst (some e, c1, w1) := by
  refine ⟨c, ?_, PhaseStep_refl _, by simp⟩
  show lookup Cluster.key c.key w1.store.Clusters = some c
  rw [hs]; exact hl

theorem StepPhase_skip (c : Cluster) (src dst : ClusterWorkflowStatus) (w : World)
    (hl : lookup Cluster.key c.key w.store.Clusters = some c) (hne : c.Status.Status ≠ src) :
    StepPhase c src dst (none, c, w) :=
  ⟨c, hl, PhaseStep_refl _, fun _ => ⟨rfl, fun h => absurd h hne⟩⟩

/-- A status write of the cluster that sets the phase, started from a store
whose cluster under the key is `c0`. -/
theorem statusWrite_phase (env : Env) (c0 c : Cluster) (w : World)
    (src dst : ClusterWorkflowStatus) (hk : c.key = c0.key)
    (hl : lookup Cluster.key c0.key w.store.Clusters = some c0)
    (hstep : PhaseStep c0.Status.Status c.Status.Status)
    (hdst : c0.Status.Status = src → c.Status.Status = dst) :
    StepPhase c0 src dst (match (statusUpdateCluster env c w).1 with
      | .error e => (some e, c, (statusUpdateCluster env c w).2)
      | .ok c3 => (none, c3, (statusUpdateCluster env c w).2)) := by
  rcases statusUpdateCluster_cases env c w with ⟨e, h1, h2⟩ | ⟨old, h1, h2, h3⟩
  · rw [h1]
    exact StepPhase_err c0 src dst e _ w _ hl (by rw [h2])
  · rw [h2]
    simp only []
    rw [hk, hl] at h1
    cases h1
    refine ⟨{ c0 with Status := c.Status }, ?_, hstep, fun _ => ⟨rfl, hdst⟩⟩
    show lookup Cluster.key c0.key (statusUpdateCluster env c w).2.store.Clusters = _
    rw [h3, hk, lookup_rewrite Cluster.key c0.key c0.key
      (fun q : Cluster => { q with Status := c.Status }) (fun _ h => h), if_pos rfl, hl]
    rfl

theorem patchNode_returned (env : Env) (c : Cluster) (n : Nat) (nc : NodeConfig) (w : World) :
    (patchNode env c n nc w).1 ≠ .returned none := by
  simp only [patchNode]
  repeat' split
  all_goals simp

theorem patchNodes_returned (env : Env) (c : Cluster) (n : Nat) (nodes : List NodeConfig)
    (w : World) : (patchNodes env c n nodes w).1 ≠ .returned none := by
  induction nodes generalizing n w with
  | nil => simp [patchNodes]
  | cons nc rest ih =>
    simp only [patchNodes]
    have h1 := patchNode_returned env c n nc w
    split
    · rename_i e w1 heq
      rw [heq] at h1
      exact h1
    · exact ih _ _

theorem tinkNode_returned (env : Env) (c : Cluster) (nc : NodeConfig) (w : World) :
    (tinkNode env c nc w).1 ≠ .returned none := by
  simp only [tinkNode]
  repeat' split
  all_goals simp

theorem tinkNodes_returned (env : Env) (c : Cluster) (nodes : List NodeConfig) (w : World) :
    (tinkNodes env c nodes w).1 ≠ .returned none := by
  induction nodes generalizing w with
  | nil => simp [tinkNodes]
  | cons nc rest ih =>
    simp only [tinkNodes]
    have h1 := tinkNode_returned env c nc w
    split
    · rename_i e w1 heq
      rw [heq] at h1
      exact h1
    · exact ih _

theorem generateClusterConfig_phase (env : Env) (c : Cluster) (w : World)
    (hl : lookup Cluster.key c.key w.store.Clusters = some c) :
    StepPhase c .empty .ClusterConfigReady (generateClusterConfig env c w) := by
  simp only [generateClusterConfig]
  split
  · rename_i hph
    have hstep : PhaseStep c.Status.Status .ClusterConfigReady := by
      rw [hph]; exact Or.inr rfl
    split
    · exact StepPhase_err c _ _ _ _ w _ hl (by simp)
    · rename_i vipPool hp
      split
      · exact StepPhase_err c _ _ _ _ w _ hl (by simp)
      · by_cases haddr : c.Status.ClusterAddress = ""
        · simp only [haddr, if_true]
          cases hf : rangeFind (isClusterClaim c) vipPool.Status.AddressAllocation with
          | some a =>
            simp only []
            apply statusWrite_phase
            · rfl
            · simpa using hl
            · exact hstep
            · intro _; rfl
          | none =>
            simp only []
            cases hal : env.AllocateAddress vipPool.Status c.Spec.VIPConfig.StaticAddress with
            | error e =>
              simp only []
              exact StepPhase_err c _ _ _ _ w _ hl (by simp)
            | ok vip =>
              simp only []
              have hcl := statusUpdateAddressPool_clusters env
                { vipPool with Status := { vipPool.Status with
                    AddressAllocation :=
                      mapInsert vipPool.Status.AddressAllocation vip (clusterClaim c) } }
                ((getAddressPool env ⟨c.Spec.VIPConfig.AddressPoolReference.Namespace,
                    c.Spec.VIPConfig.AddressPoolReference.Name⟩ w).2.note
                  (.allocateAddress vipPool.Status c.Spec.VIPConfig.StaticAddress
                    (errOf (Except.ok vip : Except Err String))))
              generalize statusUpdateAddressPool env _ _ = ru at hcl ⊢
              obtain ⟨r, w2⟩ := ru
              simp only [note_store, getAddressPool_store] at hcl
              cases r with
              | some e => exact StepPhase_err c _ _ _ _ w _ hl hcl
              | none =>
                simp only []
                apply statusWrite_phase
                · rfl
                · rw [hcl]; exact hl
                · exact hstep
                · intro _; rfl
        · simp only [haddr, if_false]
          apply statusWrite_phase
          · rfl
          · simpa using hl
          · exact hstep
          · intro _; rfl
  · rename_i hph
    exact StepPhase_skip c _ _ w hl hph

theorem patchNodesAndPools_phase (env : Env) (c : Cluster) (w : World)
    (hl : lookup Cluster.key c.key w.store.Clusters = some c) :
    StepPhase c .ClusterConfigReady .ClusterNodesPatched (patchNodesAndPools env c w) := by
  simp only [patchNodesAndPools]
  split
  · rename_i hph
    have hcl := patchNodes_clusters env c 0 c.Spec.Nodes w
    have hnr := patchNodes_returned env c 0 c.Spec.Nodes w
    generalize patchNodes env c 0 c.Spec.Nodes w = rn at hcl hnr ⊢
    obtain ⟨ex, w1⟩ := rn
    simp only [] at hcl hnr ⊢
    have hl1 : lookup Cluster.key c.key w1.store.Clusters = some c := by rw [hcl]; exact hl
    have hstep : PhaseStep c.Status.Status .ClusterNodesPatched := by
      rw [hph]; exact Or.inr rfl
    cases ex with
    | returned e =>
      simp only []
      refine ⟨c, hl1, PhaseStep_refl _, ?_⟩
      intro he
      simp only [] at he
      subst he
      exact absurd rfl hnr
    | completed =>
      simp only []
      rcases statusUpdateCluster_cases env
        { c with Status := { c.Status with Status := .ClusterNodesPatched } } w1 with
        ⟨e, h1, h2⟩ | ⟨old, h1, h2, h3⟩
      · rw [h1]
        exact StepPhase_err c _ _ e _ w1 _ hl1 (by rw [h2])
      · have hold : old = c := by
          have : lookup Cluster.key c.key w1.store.Clusters = some old := h1
          rw [hl1] at this
          cases this
          rfl
        subst hold
        rw [h2]
        simp only []
        have hl2 : lookup Cluster.key old.key
            (statusUpdateCluster env
              { old with Status := { old.Status with Status := .ClusterNodesPatched } }
              w1).2.store.Clusters =
            some { old with Status := { old.Status with Status := .ClusterNodesPatched } } := by
          rw [h3]
          show lookup Cluster.key old.key (rewrite Cluster.key old.key _ _) = _
          rw [lookup_rewrite Cluster.key old.key old.key
            (fun q : Cluster =>
              { q with Status := { old.Status with Status := .ClusterNodesPatched } })
            (fun _ h => h), if_pos rfl, hl1]
          rfl
        split
        · have hf := AddFinalizer_fields
            { old with Status := { old.Status with Status := .ClusterNodesPatched } }
            ClusterFinalizer
          rcases updateCluster_cases env (AddFinalizer
            { old with Status := { old.Status with Status := .ClusterNodesPatched } }
            ClusterFinalizer) (statusUpdateCluster env
              { old with Status := { old.Status with Status := .ClusterNodesPatched } }
              w1).2 with ⟨e, g1, g2⟩ | ⟨old2, g1, g2, g3⟩
          · rw [g1]
            simp only []
            refine ⟨{ old with Status := { old.Status with Status := .ClusterNodesPatched } },
              ?_, hstep, by simp⟩
            show lookup Cluster.key old.key (updateCluster env _ _).2.store.Clusters = _
            rw [g2]
            exact hl2
          · have hkk : (AddFinalizer
                { old with Status := { old.Status with Status := .ClusterNodesPatched } }
                ClusterFinalizer).key = old.key := by
              simp only [Cluster.key, hf.1, hf.2.1]
            rw [hkk, hl2] at g1
            cases g1
            rw [g2]
            simp only []
            refine ⟨{ (AddFinalizer
                { old with Status := { old.Status with Status := .ClusterNodesPatched } }
                ClusterFinalizer) with
                Status := { old.Status with Status := .ClusterNodesPatched } },
              ?_, ?_, fun _ => ⟨rfl, fun _ => rfl⟩⟩
            · show lookup Cluster.key old.key (updateCluster env _ _).2.store.Clusters = _
              rw [g3, hkk, lookup_rewrite Cluster.key old.key old.key
                (fun q : Cluster => { (AddFinalizer
                  { old with Status := { old.Status with Status := .ClusterNodesPatched } }
                  ClusterFinalizer) with Status := q.Status }) (fun _ _ => hkk),
                if_pos rfl, hl2]
              rfl
            · exact hstep
        · exact ⟨{ old with Status := { old.Status with Status := .ClusterNodesPatched } },
            hl2, hstep, fun _ => ⟨rfl, fun _ => rfl⟩⟩
  · rename_i hph
    exact StepPhase_skip c _ _ w hl hph

theorem createTinkerbellHardware_phase (env : Env) (c : Cluster) (w : World)
    (hl : lookup Cluster.key c.key w.store.Clusters = some c) :
    StepPhase c .ClusterNodesPatched .ClusterTinkHardwareSubmitted
      (createTinkerbellHardware env c w) := by
  simp only [createTinkerbellHardware]
  have key : ∀ r1 : LoopExit × World, r1.1 ≠ .returned none →
      r1.2.store.Clusters = w.store.Clusters →
      StepPhase c .ClusterNodesPatched .ClusterTinkHardwareSubmitted (match r1 with
        | (.returned e, w1) => (e, c, w1)
        | (.completed, w1) =>
          if c.Status.Status = .ClusterNodesPatched then
            match (statusUpdateCluster env
                { c with Status := { c.Status with Status := .ClusterTinkHardwareSubmitted } }
                w1).1 with
            | .error e => (some e,
                { c with Status := { c.Status with Status := .ClusterTinkHardwareSubmitted } },
                (statusUpdateCluster env
                  { c with Status := { c.Status with Status := .ClusterTinkHardwareSubmitted } }
                  w1).2)
            | .ok c2 => (none, c2, (statusUpdateCluster env
                  { c with Status := { c.Status with Status := .ClusterTinkHardwareSubmitted } }
                  w1).2)
          else (none, c, w1)) := by
    intro r1 hnr hc
    obtain ⟨ex, w1⟩ := r1
    simp only [] at hnr hc
    have hl1 : lookup Cluster.key c.key w1.store.Clusters = some c := by rw [hc]; exact hl
    cases ex with
    | returned e =>
      refine ⟨c, hl1, PhaseStep_refl _, ?_⟩
      intro he
      simp only [] at he
      subst he
      exact absurd rfl hnr
    | completed =>
      simp only []
      split
      · rename_i hph
        apply statusWrite_phase
        · rfl
        · exact hl1
        · show PhaseStep c.Status.Status .ClusterTinkHardwareSubmitted
          rw [hph]; exact Or.inr rfl
        · intro _; rfl
      · rename_i hph
        exact StepPhase_skip c _ _ w1 hl1 hph
  by_cases hph : c.Status.Status = .ClusterNodesPatched ∨
      c.Status.Status = .ClusterTinkHardwareSubmitted
  · rw [if_pos hph]
    exact key _ (tinkNodes_returned env c c.Spec.Nodes w) (tinkNodes_pools env c c.Spec.Nodes w).2
  · rw [if_neg hph]
    exact key (.completed, w) (by simp) rfl

theorem PhaseStep_rank (a b : ClusterWorkflowStatus) (h : PhaseStep a b) :
    phaseRank a ≤ phaseRank b := by
  rcases h with h | h
  · rw [h]
  · cases a <;> cases b <;> simp [phaseSucc] at h <;> simp [phaseRank]

theorem StepPhase_next (c : Cluster) (src dst : ClusterWorkflowStatus)
    (r : Option Err × Cluster × World) (h : StepPhase c src dst r) (hn : r.1 = none) :
    r.2.1.key = c.key ∧ lookup Cluster.key r.2.1.key r.2.2.store.Clusters = some r.2.1 ∧
      PhaseStep c.Status.Status r.2.1.Status.Status ∧
      (c.Status.Status = src → r.2.1.Status.Status = dst) := by
  obtain ⟨cP, h1, h2, h3⟩ := h
  obtain ⟨h4, h5⟩ := h3 hn
  have hk := lookup_key _ _ _ _ h1
  rw [h4]
  exact ⟨hk, by rw [hk]; exact h1, h2, h5⟩

theorem StepPhase_stored (c : Cluster) (src dst : ClusterWorkflowStatus)
    (r : Option Err × Cluster × World) (h : StepPhase c src dst r) :
    ∃ p, phaseOf r.2.2.store c.key = some p ∧ PhaseStep c.Status.Status p := by
  obtain ⟨cP, h1, h2, _⟩ := h
  exact ⟨cP.Status.Status, by simp [phaseOf, h1], h2⟩

theorem reconcileList_phase (env : Env) (c : Cluster) (w : World)
    (hl : lookup Cluster.key c.key w.store.Clusters = some c) :
    ∃ p1 p2 p3, PhaseStep c.Status.Status p1 ∧ PhaseStep p1 p2 ∧ PhaseStep p2 p3 ∧
      phaseOf (runReconcilers env reconcileList c w).2.2.store c.key = some p3 ∧
      ((runReconcilers env reconcileList c w).1 = none → c.Status.Status = .empty →
        p3 = .ClusterTinkHardwareSubmitted) := by
  have h1 := generateClusterConfig_phase env c w hl
  simp only [reconcileList, runReconcilers]
  generalize generateClusterConfig env c w = r1 at h1 ⊢
  obtain ⟨e1, c1, w1⟩ := r1
  cases e1 with
  | some e =>
    obtain ⟨p, hp1, hp2⟩ := StepPhase_stored c _ _ _ h1
    exact ⟨p, p, p, hp2, PhaseStep_refl _, PhaseStep_refl _, hp1, by simp⟩
  | none =>
    simp only []
    obtain ⟨k1, l1, s1, d1⟩ := StepPhase_next c _ _ _ h1 rfl
    simp only [] at k1 l1 s1 d1
    have h2 := patchNodesAndPools_phase env c1 w1 l1
    generalize patchNodesAndPools env c1 w1 = r2 at h2 ⊢
    obtain ⟨e2, c2, w2⟩ := r2
    cases e2 with
    | some e =>
      obtain ⟨p, hp1, hp2⟩ := StepPhase_stored c1 _ _ _ h2
      rw [k1] at hp1
      exact ⟨c1.Status.Status, p, p, s1, hp2, PhaseStep_refl _, hp1, by simp⟩
    | none =>
      simp only []
      obtain ⟨k2, l2, s2, d2⟩ := StepPhase_next c1 _ _ _ h2 rfl
      simp only [] at k2 l2 s2 d2
      have h3 := createTinkerbellHardware_phase env c2 w2 l2
      generalize createTinkerbellHardware env c2 w2 = r3 at h3 ⊢
      obtain ⟨e3, c3, w3⟩ := r3
      obtain ⟨cP, g1, g2, g3⟩ := h3
      have hk : c2.key = c.key := by rw [k2, k1]
      rw [hk] at g1
      have hres : phaseOf w3.store c.key = some cP.Status.Status := by
        simp only [] at g1
        simp [phaseOf, g1]
      cases e3 with
      | some e =>
        exact ⟨c1.Status.Status, c2.Status.Status, cP.Status.Status, s1, s2, g2, hres, by simp⟩
      | none =>
        refine ⟨c1.Status.Status, c2.Status.Status, cP.Status.Status, s1, s2, g2, hres, ?_⟩
        intro _ he
        exact (g3 rfl).2 (d2 (d1 he))

/-- C6: for a cluster that is not marked for deletion, fetched from the store,
and any outcome of the store calls: each of the three steps leaves the stored
phase unchanged or advances it to its immediate successor; over a pass of
`Reconcile` the stored phase moves through at most three such steps, so it never
moves backwards and never skips a phase; and a pass that fetches the cluster in
the empty phase and returns no error ends in `ClusterTinkHardwareSubmitted`. -/
theorem phase_advances_in_order (env : Env) (c : Cluster) (w : World)
    (hd : c.DeletionTimestamp = none)
    (hl : lookup Cluster.key c.key w.store.Clusters = some c) :
    (∀ step ∈ reconcileList, ∃ p, phaseOf (step env c w).2.2.store c.key = some p ∧
      PhaseStep c.Status.Status p) ∧
    (∃ p1 p2 p3, PhaseStep c.Status.Status p1 ∧ PhaseStep p1 p2 ∧ PhaseStep p2 p3 ∧
      phaseOf (Reconcile env c.key w).2.store c.key = some p3 ∧
      phaseRank c.Status.Status ≤ phaseRank p3) ∧
    (c.Status.Status = .empty → env.fault w.calls = none →
      (Reconcile env c.key w).1 = none →
      phaseOf (Reconcile env c.key w).2.store c.key =
        some .ClusterTinkHardwareSubmitted) := by
  refine ⟨?_, ?_, ?_⟩
  · intro step hs
    simp only [reconcileList, List.mem_cons, List.mem_singleton, List.not_mem_nil,
      or_false] at hs
    rcases hs with h | h | h
    · subst h
      exact StepPhase_stored c _ _ _ (generateClusterConfig_phase env c w hl)
    · subst h
      exact StepPhase_stored c _ _ _ (patchNodesAndPools_phase env c w hl)
    · subst h
      exact StepPhase_stored c _ _ _ (createTinkerbellHardware_phase env c w hl)
  · have hsame : phaseOf w.store c.key = some c.Status.Status := by simp [phaseOf, hl]
    simp only [Reconcile]
    split
    · refine ⟨_, _, _, PhaseStep_refl _, PhaseStep_refl _, PhaseStep_refl _, ?_, le_refl _⟩
      split <;> simpa using hsame
    · rename_i c1 hc
      obtain ⟨_, hl1, _⟩ := getCluster_ok _ _ _ _ hc
      rw [hl] at hl1
      cases hl1
      have hdn : c.DeletionTimestamp.isNone = true := by rw [hd]; rfl
      rw [if_pos hdn]
      obtain ⟨p1, p2, p3, a1, a2, a3, a4, _⟩ :=
        reconcileList_phase env c (getCluster env c.key w).2 (by simpa using hl)
      exact ⟨p1, p2, p3, a1, a2, a3, a4,
        le_trans (PhaseStep_rank _ _ a1) (le_trans (PhaseStep_rank _ _ a2)
          (PhaseStep_rank _ _ a3))⟩
  · intro he hf
    have hok : (getCluster env c.key w).1 = .ok c := by
      simp [getCluster, outcome, hf, hl]
    simp only [Reconcile, hok]
    have hdn : c.DeletionTimestamp.isNone = true := by rw [hd]; rfl
    rw [if_pos hdn]
    intro hn
    obtain ⟨p1, p2, p3, _, _, _, a4, a5⟩ :=
      reconcileList_phase env c (getCluster env c.key w).2 (by simpa using hl)
    rw [a4, a5 hn he]

/-- Witness of C6: one pass over the new cluster without faults. -/
theorem phase_advances_in_order_witness :
    (newCluster.DeletionTimestamp = none ∧
      lookup Cluster.key newCluster.key (freshWorld newStore).store.Clusters = some newCluster ∧
      (Reconcile calmEnv newCluster.key (freshWorld newStore)).1 = none ∧
      phaseOf (Reconcile calmEnv newCluster.key (freshWorld newStore)).2.store newCluster.key =
        some .ClusterTinkHardwareSubmitted) ∧
    ((∀ step ∈ reconcileList,
        ∃ p, phaseOf (step calmEnv newCluster (freshWorld newStore)).2.2.store newCluster.key
          = some p ∧ PhaseStep newCluster.Status.Status p) ∧
      (∃ p1 p2 p3, PhaseStep newCluster.Status.Status p1 ∧ PhaseStep p1 p2 ∧ PhaseStep p2 p3 ∧
        phaseOf (Reconcile calmEnv newCluster.key (freshWorld newStore)).2.store newCluster.key
          = some p3 ∧
        phaseRank newCluster.Status.Status ≤ phaseRank p3) ∧
      (newCluster.Status.Status = .empty → calmEnv.fault (freshWorld newStore).calls = none →
        (Reconcile calmEnv newCluster.key (freshWorld newStore)).1 = none →
        phaseOf (Reconcile calmEnv newCluster.key (freshWorld newStore)).2.store newCluster.key =
          some .ClusterTinkHardwareSubmitted)) :=
  ⟨⟨by rfl, by rfl, by rfl, by rfl⟩,
    phase_advances_in_order calmEnv newCluster (freshWorld newStore) (by rfl) (by rfl)⟩

/-! ## Node patching -/

/-- The loop body of `patchNodesAndPools` on a node whose stored pool is not
ready: it returns after the pool lookup. -/
theorem patchNode_unready (env : Env) (c : Cluster) (n : Nat) (nc : NodeConfig) (w : World)
    (p : AddressPool) (hp : lookup AddressPool.key (nodePoolKey nc) w.store.AddressPools = some p)
    (hun : p.Status.Status ≠ .PoolReady) :
    patchNode env c n nc w =
      (.returned (some (if env.fault w.calls = none then Err.notReady else Err.wrapped)),
        (getAddressPool env (nodePoolKey nc) w).2) := by
  simp only [patchNode, nodePoolKey] at hp ⊢
  split
  · rename_i e he
    have : env.fault w.calls ≠ none := by
      intro hf
      simp [getAddressPool, outcome, hf, hp] at he
    simp [this]
  · rename_i pool hpool
    obtain ⟨hf, hl, _⟩ := getAddressPool_ok _ _ _ _ hpool
    rw [hp] at hl
    cases hl
    simp [hun, hf]

/-- C7 (amended): for a cluster in phase ClusterConfigReady with at least one
node entry, whose node entries all reference a stored pool that is not ready,
`patchNodesAndPools` returns an error (the not-ready error when the pool lookup
is answered), writes nothing to the store, and returns the cluster object as it
was: no finalizer attached, phase still ClusterConfigReady. -/
theorem patch_stops_on_unready_pool (env : Env) (c : Cluster) (w : World)
    (hph : c.Status.Status = .ClusterConfigReady) (hne : c.Spec.Nodes ≠ [])
    (hun : AllPoolsUnready c w.store) :
    (∃ e, (patchNodesAndPools env c w).1 = some e) ∧
    (env.fault w.calls = none → (patchNodesAndPools env c w).1 = some .notReady) ∧
    (patchNodesAndPools env c w).2.1 = c ∧
    (patchNodesAndPools env c w).2.2.store = w.store ∧
    (∀ ev ∈ passTrace w (patchNodesAndPools env c w).2.2, isWrite ev = false) := by
  cases hnodes : c.Spec.Nodes with
  | nil => exact absurd hnodes hne
  | cons nc rest =>
    obtain ⟨p, hp, hpun⟩ := hun nc (by rw [hnodes]; exact List.mem_cons_self _ _)
    have h1 := patchNode_unready env c 0 nc w p hp hpun
    have hr : patchNodesAndPools env c w =
        (some (if env.fault w.calls = none then Err.notReady else Err.wrapped), c,
          (getAddressPool env (nodePoolKey nc) w).2) := by
      simp only [patchNodesAndPools, hph, if_true, hnodes, patchNodes, h1]
    rw [hr]
    refine ⟨⟨_, rfl⟩, ?_, rfl, rfl, ?_⟩
    · intro hf
      simp [hf]
    · intro ev hev
      simp [passTrace] at hev
      subst hev
      rfl

/-- Witness of C7 (amended): the configured cluster with its node pool not
ready. -/
theorem patch_stops_on_unready_pool_witness :
    (configuredCluster.Status.Status = .ClusterConfigReady ∧
      configuredCluster.Spec.Nodes ≠ [] ∧
      AllPoolsUnready configuredCluster (freshWorld unreadyStore).store) ∧
    ((∃ e, (patchNodesAndPools calmEnv configuredCluster (freshWorld unreadyStore)).1 = some e) ∧
      (calmEnv.fault (freshWorld unreadyStore).calls = none →
        (patchNodesAndPools calmEnv configuredCluster (freshWorld unreadyStore)).1 =
          some .notReady) ∧
      (patchNodesAndPools calmEnv configuredCluster (freshWorld unreadyStore)).2.1 =
        configuredCluster ∧
      (patchNodesAndPools calmEnv configuredCluster (freshWorld unreadyStore)).2.2.store =
        (freshWorld unreadyStore).store ∧
      (∀ ev ∈ passTrace (freshWorld unreadyStore)
          (patchNodesAndPools calmEnv configuredCluster (freshWorld unreadyStore)).2.2,
        isWrite ev = false)) :=
  have hun : AllPoolsUnready configuredCluster (freshWorld unreadyStore).store := by
    intro nc hnc
    refine ⟨unreadyNodePool, ?_, by decide⟩
    have h : nc = nodeA ∨ nc = nodeB := by
      simpa [configuredCluster, newCluster] using hnc
    rcases h with h | h <;> subst h <;> rfl
  ⟨⟨by rfl, by decide, hun⟩,
    patch_stops_on_unready_pool calmEnv configuredCluster (freshWorld unreadyStore) (by rfl)
      (by decide) hun⟩

/-- C7 (as stated) fails for a cluster without node entries: every node entry
(there is none) references an unready pool, yet `patchNodesAndPools` returns no
error, advances the stored phase to ClusterNodesPatched and attaches the
finalizer. -/
theorem patch_advances_without_nodes :
    nodelessCluster.Status.Status = .ClusterConfigReady ∧
    AllPoolsUnready nodelessCluster nodelessStore ∧
    (patchNodesAndPools calmEnv nodelessCluster (freshWorld nodelessStore)).1 = none ∧
    phaseOf (patchNodesAndPools calmEnv nodelessCluster (freshWorld nodelessStore)).2.2.store
      nodelessCluster.key = some .ClusterNodesPatched ∧
    (lookup Cluster.key nodelessCluster.key
      (patchNodesAndPools calmEnv nodelessCluster
        (freshWorld nodelessStore)).2.2.store.Clusters).map (fun c => c.Finalizers) =
      some [ClusterFinalizer] := by
  refine ⟨by rfl, ?_, by rfl, by rfl, by rfl⟩
  intro nc hnc
  simp [nodelessCluster] at hnc

theorem ConditionExists_createOrUpdate (now : Nat) (conds : List Conditions)
    (t t1 : ConditionType) (msg : String) :
    ConditionExists (CreateOrUpdateCondition now conds t msg) t1 =
      (ConditionExists conds t1 || decide (t1 = t)) := by
  unfold CreateOrUpdateCondition
  split
  · rename_i h
    have hmap : ConditionExists (conds.map (fun c => if c.CondType = t then
        { c with LastUpdateTime := now, Message := msg } else c)) t1 =
        ConditionExists conds t1 := by
      unfold ConditionExists
      rw [List.any_map]
      congr 1
      funext c
      simp only [Function.comp]
      split <;> rfl
    rw [hmap]
    by_cases ht : t1 = t
    · subst ht
      simp [h]
    · simp [ht]
  · unfold ConditionExists
    rw [List.any_append]
    simp [eq_comm]

theorem ConditionExists_remove (conds : List Conditions) (t t1 : ConditionType) :
    ConditionExists (RemoveCondition conds t) t1 =
      (ConditionExists conds t1 && decide (t1 ≠ t)) := by
  unfold ConditionExists RemoveCondition
  rw [Bool.eq_iff_iff]
  simp only [List.any_eq_true, List.mem_filter, decide_eq_true_eq, Bool.and_eq_true, ne_eq,
    decide_not, Bool.not_eq_true', decide_eq_false_iff_not]
  constructor
  · rintro ⟨x, ⟨hx, hne⟩, heq⟩
    exact ⟨⟨x, hx, heq⟩, by rw [← heq]; exact hne⟩
  · rintro ⟨⟨x, hx, heq⟩, hne⟩
    exact ⟨x, ⟨hx, by rw [heq]; exact hne⟩, heq⟩

theorem patchedConditions_role (now : Nat) (c : Cluster) (n : Nat) (conds : List Conditions) :
    RoleGained n conds (patchedConditions now c n conds) := by
  unfold RoleGained patchedConditions
  constructor
  · intro hn
    simp only [hn, if_true]
    simp [ConditionExists_createOrUpdate, ConditionExists_remove]
  · intro hn
    simp only [hn, if_false]
    simp [ConditionExists_createOrUpdate, ConditionExists_remove]

/-- Every Inventory status that the loop body of `patchNodesAndPools` sends
to the store comes from a ready pool and a ready, unallocated Inventory of the
store, and carries the condition log `patchedConditions` for the index. -/
theorem patchNode_inventory_write (env : Env) (c : Cluster) (n : Nat) (nc : NodeConfig)
    (w : World) (i1 : Inventory) (e : Option Err)
    (hev : Event.statusUpdateInventory i1 e ∈ passTrace w (patchNode env c n nc w).2) :
    ∃ pool i0, lookup AddressPool.key (nodePoolKey nc) w.store.AddressPools = some pool ∧
      pool.Status.Status = .PoolReady ∧
      lookup Inventory.key (nodeInventoryKey nc) w.store.Inventories = some i0 ∧
      i0.Status.Status = .InventoryReady ∧
      ConditionExists i0.Status.Conditions .InventoryAllocatedToCluster = false ∧
      i1.key = i0.key ∧
      i1.Status.Conditions = patchedConditions env.now c n i0.Status.Conditions := by
  revert hev
  simp only [patchNode, nodePoolKey, nodeInventoryKey]
  split
  · simp [passTrace]
  · rename_i pool hp
    obtain ⟨_, hpl, _⟩ := getAddressPool_ok _ _ _ _ hp
    split
    · simp [passTrace]
    · rename_i hready
      split
      · simp [passTrace]
      · rename_i i hi
        obtain ⟨_, hil, _⟩ := getInventory_ok _ _ _ _ hi
        simp only [getAddressPool_store] at hil
        split
        · simp [passTrace]
        · rename_i hiready
          split
          · simp [passTrace]
          · rename_i halloc
            have hfacts : ∀ i2 : Inventory, i2.key = i.key →
                i2.Status.Conditions = patchedConditions env.now c n i.Status.Conditions →
                ∃ pool i0, lookup AddressPool.key
                    ⟨nc.AddressPoolReference.Namespace, nc.AddressPoolReference.Name⟩
                    w.store.AddressPools = some pool ∧
                  pool.Status.Status = .PoolReady ∧
                  lookup Inventory.key
                    ⟨nc.InventoryReference.Namespace, nc.InventoryReference.Name⟩
                    w.store.Inventories = some i0 ∧
                  i0.Status.Status = .InventoryReady ∧
                  ConditionExists i0.Status.Conditions .InventoryAllocatedToCluster = false ∧
                  i2.key = i0.key ∧
                  i2.Status.Conditions = patchedConditions env.now c n i0.Status.Conditions := by
              intro i2 hk hc
              exact ⟨pool, i, hpl, by simpa using hready, hil, by simpa using hiready,
                by simpa using halloc, hk, hc⟩
            cases hf : rangeFind (isInventoryClaim i) pool.Status.AddressAllocation with
            | some a =>
              simp only [Option.isNone_some, Bool.false_eq_true, if_false]
              split
              · simp only [passTrace, statusUpdateInventory_trace, getInventory_trace,
                  getAddressPool_trace, List.append_assoc, List.drop_left]
                simp only [List.mem_append, List.mem_singleton, List.mem_cons,
                  List.not_mem_nil, or_false, false_or, reduceCtorEq]
                intro h
                injection h with h1 h2
                subst h1
                exact hfacts _ rfl rfl
              · simp only [passTrace, statusUpdateInventory_trace, getInventory_trace,
                  getAddressPool_trace, List.append_assoc, List.drop_left]
                simp only [List.mem_append, List.mem_singleton, List.mem_cons,
                  List.not_mem_nil, or_false, false_or, reduceCtorEq]
                intro h
                injection h with h1 h2
                subst h1
                exact hfacts _ rfl rfl
            | none =>
              simp only [Option.isNone_none, if_true]
              cases hal : env.AllocateAddress pool.Status nc.StaticAddress with
              | error e1 => simp [passTrace]
              | ok a =>
                simp only []
                split
                · simp only [passTrace, statusUpdateInventory_trace, getInventory_trace,
                    getAddressPool_trace, note_trace, List.append_assoc, List.drop_left]
                  simp only [List.mem_append, List.mem_singleton, List.mem_cons,
                    List.not_mem_nil, or_false, false_or, reduceCtorEq]
                  intro h
                  injection h with h1 h2
                  subst h1
                  exact hfacts _ rfl rfl
                · split
                  all_goals
                    simp only [passTrace, statusUpdateInventory_trace, getInventory_trace,
                      getAddressPool_trace, note_trace, statusUpdateAddressPool_trace,
                      List.append_assoc, List.drop_left]
                    simp only [List.mem_append, List.mem_singleton, List.mem_cons,
                      List.not_mem_nil, or_false, false_or, reduceCtorEq]
                    intro h
                    injection h with h1 h2
                    subst h1
                    exact hfacts _ rfl rfl

theorem Extends_refl (w : World) : Extends w w := ⟨[], by simp⟩

theorem Extends_trans (w w1 w2 : World) (h1 : Extends w w1) (h2 : Extends w1 w2) :
    Extends w w2 := by
  obtain ⟨a, ha⟩ := h1
  obtain ⟨b, hb⟩ := h2
  exact ⟨a ++ b, by rw [hb, ha, List.append_assoc]⟩

theorem Extends_of_trace (w w1 : World) (evs : List Event) (h : w1.trace = w.trace ++ evs) :
    Extends w w1 := ⟨evs, h⟩

theorem passTrace_mono (w w1 w2 w3 : World) (h1 : Extends w w1) (h2 : Extends w1 w2)
    (h3 : Extends w2 w3) (ev : Event) (hev : ev ∈ passTrace w1 w2) : ev ∈ passTrace w w3 := by
  obtain ⟨a, ha⟩ := h1
  obtain ⟨b, hb⟩ := h2
  obtain ⟨d, hd⟩ := h3
  rw [passTrace_append w1 w2 b hb] at hev
  rw [passTrace_append w w3 (a ++ (b ++ d)) (by rw [hd, hb, ha]; simp)]
  simp [hev]

theorem Extends_of_pass (w w1 : World) (h : w1.trace = w.trace ++ passTrace w w1) :
    Extends w w1 := ⟨_, h⟩

theorem patchNode_extends (env : Env) (c : Cluster) (n : Nat) (nc : NodeConfig) (w : World) :
    Extends w (patchNode env c n nc w).2 := by
  simp only [patchNode]
  repeat' split
  all_goals exact Extends_of_pass _ _ (by simp [passTrace])

theorem patchNodes_extends (env : Env) (c : Cluster) (n : Nat) (nodes : List NodeConfig)
    (w : World) : Extends w (patchNodes env c n nodes w).2 := by
  induction nodes generalizing n w with
  | nil => exact Extends_refl _
  | cons nc rest ih =>
    simp only [patchNodes]
    have h1 := patchNode_extends env c n nc w
    split
    · rename_i e w1 heq
      rw [heq] at h1
      exact h1
    · rename_i w1 heq
      rw [heq] at h1
      exact Extends_trans _ _ _ h1 (ih _ _)

theorem patchNodesAndPools_extends (env : Env) (c : Cluster) (w : World)
    (hph : c.Status.Status = .ClusterConfigReady) :
    Extends (patchNodes env c 0 c.Spec.Nodes w).2 (patchNodesAndPools env c w).2.2 := by
  simp only [patchNodesAndPools, hph, if_true]
  generalize patchNodes env c 0 c.Spec.Nodes w = rn
  obtain ⟨ex, w1⟩ := rn
  cases ex with
  | returned e => exact Extends_refl _
  | completed =>
    simp only []
    split
    · exact Extends_of_trace _ _ _ (statusUpdateCluster_trace _ _ _)
    · split
      · split
        all_goals
          exact Extends_trans _ _ _ (Extends_of_trace _ _ _ (statusUpdateCluster_trace _ _ _))
            (Extends_of_trace _ _ _ (updateCluster_trace _ _ _))
      · exact Extends_of_trace _ _ _ (statusUpdateCluster_trace _ _ _)

/-- The loop of `patchNodesAndPools` runs its body on the entry that follows
the entries `pre` with the index `n + pre.length`. -/
theorem patchNodes_index (env : Env) (c : Cluster) (n : Nat) (pre : List NodeConfig)
    (nc : NodeConfig) (rest : List NodeConfig) (w : World)
    (hpre : (patchNodes env c n pre w).1 = .completed) :
    patchNodes env c n (pre ++ nc :: rest) w =
      (match patchNode env c (n + pre.length) nc (patchNodes env c n pre w).2 with
        | (.returned e, w1) => (.returned e, w1)
        | (.completed, w1) => patchNodes env c (n + pre.length + 1) rest w1) := by
  induction pre generalizing n w with
  | nil =>
    rfl
  | cons x xs ih =>
    revert hpre
    simp only [List.cons_append, patchNodes, List.length_cons]
    generalize patchNode env c n x w = r
    obtain ⟨ex, w1⟩ := r
    cases ex with
    | returned e => intro h; cases h
    | completed =>
      simp only []
      intro h
      have := ih (n + 1) w1 h
      have e1 : n + 1 + xs.length = n + (xs.length + 1) := by omega
      rw [e1] at this
      exact this

/-- C8: in phase ClusterConfigReady the loop of `patchNodesAndPools` runs
its body on the node entry at index `n` (the entry after the `n` entries `pre`)
with that index, every call of the body is a call of the pass, and every
Inventory status the body sends to the store belongs to a ready, unallocated
Inventory of the store and has gained the role condition of the index:
HarvesterCreateNode for index 0 and HarvesterJoinNode for every other index,
while the other role condition is present only if it was before. -/
theorem patch_role_by_index (env : Env) (c : Cluster) (w : World) (pre : List NodeConfig)
    (nc : NodeConfig) (rest : List NodeConfig) (i1 : Inventory) (e : Option Err)
    (hph : c.Status.Status = .ClusterConfigReady)
    (hnodes : c.Spec.Nodes = pre ++ nc :: rest)
    (hpre : (patchNodes env c 0 pre w).1 = .completed)
    (hev : Event.statusUpdateInventory i1 e ∈
      passTrace (patchNodes env c 0 pre w).2
        (patchNode env c pre.length nc (patchNodes env c 0 pre w).2).2) :
    Event.statusUpdateInventory i1 e ∈ passTrace w (patchNodesAndPools env c w).2.2 ∧
    ∃ i0, lookup Inventory.key (nodeInventoryKey nc)
        (patchNodes env c 0 pre w).2.store.Inventories = some i0 ∧
      i0.Status.Status = .InventoryReady ∧
      ConditionExists i0.Status.Conditions .InventoryAllocatedToCluster = false ∧
      i1.key = i0.key ∧
      RoleGained pre.length i0.Status.Conditions i1.Status.Conditions := by
  constructor
  · have hidx := patchNodes_index env c 0 pre nc rest w hpre
    rw [← hnodes, Nat.zero_add] at hidx
    have h1 := patchNodes_extends env c 0 pre w
    have h2 := patchNode_extends env c pre.length nc (patchNodes env c 0 pre w).2
    have h4 := patchNodesAndPools_extends env c w hph
    apply passTrace_mono w _ _ _ h1 h2 _ _ hev
    refine Extends_trans _ _ _ ?_ h4
    rw [hidx]
    generalize patchNode env c pre.length nc (patchNodes env c 0 pre w).2 = r
    obtain ⟨ex, w1⟩ := r
    cases ex with
    | returned e1 => exact Extends_refl _
    | completed => exact patchNodes_extends _ _ _ _ _
  · obtain ⟨pool, i0, _, _, h3, h4, h5, h6, h7⟩ :=
      patchNode_inventory_write env c pre.length nc _ i1 e hev
    refine ⟨i0, h3, h4, h5, h6, ?_⟩
    rw [h7]
    exact patchedConditions_role _ _ _ _

/-- Witness of C8: node B, at index 1 of the configured cluster, gains
HarvesterJoinNode. -/
theorem patch_role_by_index_witness :
    (configuredCluster.Status.Status = .ClusterConfigReady ∧
      configuredCluster.Spec.Nodes = [nodeA] ++ nodeB :: [] ∧
      (patchNodes calmEnv configuredCluster 0 [nodeA] (freshWorld configuredStore)).1 =
        .completed ∧
      Event.statusUpdateInventory patchedInventoryB none ∈
        passTrace (patchNodes calmEnv configuredCluster 0 [nodeA] (freshWorld configuredStore)).2
          (patchNode calmEnv configuredCluster [nodeA].length nodeB
            (patchNodes calmEnv configuredCluster 0 [nodeA] (freshWorld configuredStore)).2).2) ∧
    (Event.statusUpdateInventory patchedInventoryB none ∈
        passTrace (freshWorld configuredStore)
          (patchNodesAndPools calmEnv configuredCluster (freshWorld configuredStore)).2.2 ∧
      ∃ i0, lookup Inventory.key (nodeInventoryKey nodeB)
          (patchNodes calmEnv configuredCluster 0 [nodeA]
            (freshWorld configuredStore)).2.store.Inventories = some i0 ∧
        i0.Status.Status = .InventoryReady ∧
        ConditionExists i0.Status.Conditions .InventoryAllocatedToCluster = false ∧
        patchedInventoryB.key = i0.key ∧
        RoleGained [nodeA].length i0.Status.Conditions patchedInventoryB.Status.Conditions) :=
  ⟨⟨by rfl, by rfl, by rfl, by decide⟩,
    patch_role_by_index calmEnv configuredCluster (freshWorld configuredStore) [nodeA] nodeB []
      patchedInventoryB none (by rfl) (by rfl) (by rfl) (by decide)⟩

/-! ## Config generation -/

/-- C9: for a cluster with empty phase and empty virtual address whose VIP
pool is found, is ready and holds an address under the cluster's identity,
`generateClusterConfig` settles on an address that the pool holds under that
identity (the one held, when there is only one), makes exactly two calls (the
pool lookup and the status update of the cluster carrying that address), so it
neither calls the allocator nor writes the pool, and the stored pools are
unchanged; when the update succeeds the returned cluster carries the
address. -/
theorem config_reuses_claim (env : Env) (c : Cluster) (w : World) (vipPool : AddressPool)
    (a0 : String)
    (hph : c.Status.Status = .empty) (haddr : c.Status.ClusterAddress = "")
    (hf : env.fault w.calls = none)
    (hl : lookup AddressPool.key (vipPoolKey c) w.store.AddressPools = some vipPool)
    (hready : vipPool.Status.Status = .PoolReady)
    (hclaim : (a0, clusterClaim c) ∈ vipPool.Status.AddressAllocation) :
    ∃ a, (a, clusterClaim c) ∈ vipPool.Status.AddressAllocation ∧
      ((∀ a1, (a1, clusterClaim c) ∈ vipPool.Status.AddressAllocation → a1 = a0) → a = a0) ∧
      (generateClusterConfig env c w).2.1.Status.ClusterAddress = a ∧
      (∃ e, passTrace w (generateClusterConfig env c w).2.2 =
        [Event.getAddressPool (vipPoolKey c) none,
         Event.statusUpdateCluster (configured env c a (w.calls + 1)) e]) ∧
      (∀ st static e, Event.allocateAddress st static e ∉
        passTrace w (generateClusterConfig env c w).2.2) ∧
      (∀ p e, Event.statusUpdateAddressPool p e ∉
        passTrace w (generateClusterConfig env c w).2.2) ∧
      (generateClusterConfig env c w).2.2.store.AddressPools = w.store.AddressPools := by
  have hget : (getAddressPool env (vipPoolKey c) w).1 = .ok vipPool := by
    simp [getAddressPool, outcome, hf, hl]
  obtain ⟨a, hfind⟩ := rangeFind_isSome (isClusterClaim c) vipPool.Status.AddressAllocation
    (a0, clusterClaim c) hclaim (isClusterClaim_self c)
  obtain ⟨v, hv, hcv⟩ := rangeFind_some _ _ _ hfind
  have hveq := isClusterClaim_eq c v hcv
  subst hveq
  have hres : generateClusterConfig env c w =
      (match (statusUpdateCluster env (configured env c a (w.calls + 1))
          (getAddressPool env (vipPoolKey c) w).2).1 with
        | .error e => (some e, configured env c a (w.calls + 1),
            (statusUpdateCluster env (configured env c a (w.calls + 1))
              (getAddressPool env (vipPoolKey c) w).2).2)
        | .ok c3 => (none, c3,
            (statusUpdateCluster env (configured env c a (w.calls + 1))
              (getAddressPool env (vipPoolKey c) w).2).2)) := by
    simp only [vipPoolKey] at hget
    simp only [generateClusterConfig, hph, if_true, hget, hready, ne_eq, not_true_eq_false,
      if_false, haddr, hfind, vipPoolKey, getAddressPool_calls, configured]
  refine ⟨a, hv, fun huni => huni a hv, ?_⟩
  rw [hres]
  have htr : ∀ x : Option Err × Cluster × World,
      x.2.2 = (statusUpdateCluster env (configured env c a (w.calls + 1))
              (getAddressPool env (vipPoolKey c) w).2).2 →
      passTrace w x.2.2 = [Event.getAddressPool (vipPoolKey c) none,
         Event.statusUpdateCluster (configured env c a (w.calls + 1))
          (errOf (statusUpdateCluster env (configured env c a (w.calls + 1))
              (getAddressPool env (vipPoolKey c) w).2).1)] := by
    intro x hx
    rw [hx]
    apply passTrace_append
    rw [statusUpdateCluster_trace, getAddressPool_trace, hget, List.append_assoc]
    rfl
  rcases statusUpdateCluster_cases env (configured env c a (w.calls + 1))
      (getAddressPool env (vipPoolKey c) w).2 with ⟨e, h1, h2⟩ | ⟨old, h1, h2, h3⟩
  · have ht := htr (some e, configured env c a (w.calls + 1),
      (statusUpdateCluster env (configured env c a (w.calls + 1))
        (getAddressPool env (vipPoolKey c) w).2).2) rfl
    rw [h1] at ht ⊢
    simp only [] at ht ⊢
    refine ⟨rfl, ⟨_, ht⟩, ?_, ?_, ?_⟩
    · intro st static e1 hmem
      rw [ht] at hmem
      simp at hmem
    · intro p e1 hmem
      rw [ht] at hmem
      simp at hmem
    · rw [statusUpdateCluster_pools, getAddressPool_store]
  · have ht := htr (none, { old with Status := (configured env c a (w.calls + 1)).Status },
      (statusUpdateCluster env (configured env c a (w.calls + 1))
        (getAddressPool env (vipPoolKey c) w).2).2) rfl
    rw [h2] at ht ⊢
    simp only [] at ht ⊢
    refine ⟨rfl, ⟨_, ht⟩, ?_, ?_, ?_⟩
    · intro st static e1 hmem
      rw [ht] at hmem
      simp at hmem
    · intro p e1 hmem
      rw [ht] at hmem
      simp at hmem
    · rw [statusUpdateCluster_pools, getAddressPool_store]

/-- Witness of C9: the new cluster whose VIP pool already holds `10.0.0.100`
for it. -/
theorem config_reuses_claim_witness :
    (newCluster.Status.Status = .empty ∧ newCluster.Status.ClusterAddress = "" ∧
      calmEnv.fault (freshWorld reclaimStore).calls = none ∧
      lookup AddressPool.key (vipPoolKey newCluster) (freshWorld reclaimStore).store.AddressPools =
        some claimedVipPool ∧
      claimedVipPool.Status.Status = .PoolReady ∧
      ("10.0.0.100", clusterClaim newCluster) ∈ claimedVipPool.Status.AddressAllocation) ∧
    (∃ a, (a, clusterClaim newCluster) ∈ claimedVipPool.Status.AddressAllocation ∧
      ((∀ a1, (a1, clusterClaim newCluster) ∈ claimedVipPool.Status.AddressAllocation →
        a1 = "10.0.0.100") → a = "10.0.0.100") ∧
      (generateClusterConfig calmEnv newCluster
        (freshWorld reclaimStore)).2.1.Status.ClusterAddress = a ∧
      (∃ e, passTrace (freshWorld reclaimStore)
          (generateClusterConfig calmEnv newCluster (freshWorld reclaimStore)).2.2 =
        [Event.getAddressPool (vipPoolKey newCluster) none,
         Event.statusUpdateCluster
          (configured calmEnv newCluster a ((freshWorld reclaimStore).calls + 1)) e]) ∧
      (∀ st static e, Event.allocateAddress st static e ∉
        passTrace (freshWorld reclaimStore)
          (generateClusterConfig calmEnv newCluster (freshWorld reclaimStore)).2.2) ∧
      (∀ p e, Event.statusUpdateAddressPool p e ∉
        passTrace (freshWorld reclaimStore)
          (generateClusterConfig calmEnv newCluster (freshWorld reclaimStore)).2.2) ∧
      (generateClusterConfig calmEnv newCluster (freshWorld reclaimStore)).2.2.store.AddressPools =
        (freshWorld reclaimStore).store.AddressPools) :=
  ⟨⟨by rfl, by rfl, by rfl, by rfl, by rfl, by decide⟩,
    config_reuses_claim calmEnv newCluster (freshWorld reclaimStore) claimedVipPool "10.0.0.100"
      (by rfl) (by rfl) (by rfl) (by rfl) (by rfl) (by decide)⟩

/-! ## Hardware submission -/

theorem tinkInventory_condition (now : Nat) (inventory : Inventory) :
    ConditionExists (tinkInventory now inventory).Status.Conditions .TinkWorkflowCreated
      = true := by
  simp [tinkInventory, ConditionExists_createOrUpdate]

/-- C10: for a node that `createTinkerbellHardware` processes (its Inventory is
found and the desired hardware object `hw` is built), the calls of the loop
body after the two lookups are: when no hardware object exists, a create of
`hw`; when one exists with another spec, an update of it with the spec of
`hw`; in both cases followed, if that write succeeded, by the status update of
the Inventory carrying TinkWorkflowCreated; and when one exists with the same
spec, no call at all. -/
theorem tink_writes_on_divergence (env : Env) (c : Cluster) (nc : NodeConfig) (w : World)
    (inventory : Inventory) (hw0 hw : Hardware)
    (hi : (getInventory env (nodeInventoryKey nc) w).1 = .ok inventory)
    (hg : env.GenerateHWRequest inventory c = .ok hw0)
    (ho : env.SetOwnerReference c hw0 = .ok hw) :
    ((getHardware env hw.key (getInventory env (nodeInventoryKey nc) w).2).1 =
        .error .notFound →
      passTrace w (tinkNode env c nc w).2 =
        [Event.getInventory (nodeInventoryKey nc) none,
         Event.getHardware hw.key (some .notFound),
         Event.createHardware hw (createHardware env hw
          (getHardware env hw.key (getInventory env (nodeInventoryKey nc) w).2).2).1] ++
        (if (createHardware env hw
            (getHardware env hw.key (getInventory env (nodeInventoryKey nc) w).2).2).1 = none
         then [Event.statusUpdateInventory (tinkInventory env.now inventory)
            (statusUpdateInventory env (tinkInventory env.now inventory)
              (createHardware env hw
                (getHardware env hw.key
                  (getInventory env (nodeInventoryKey nc) w).2).2).2).1]
         else [])) ∧
    (∀ lookupHw,
      (getHardware env hw.key (getInventory env (nodeInventoryKey nc) w).2).1 = .ok lookupHw →
      lookupHw.Spec ≠ hw.Spec →
      passTrace w (tinkNode env c nc w).2 =
        [Event.getInventory (nodeInventoryKey nc) none,
         Event.getHardware hw.key none,
         Event.updateHardware { lookupHw with Spec := hw.Spec }
          (updateHardware env { lookupHw with Spec := hw.Spec }
            (getHardware env hw.key (getInventory env (nodeInventoryKey nc) w).2).2).1] ++
        (if (updateHardware env { lookupHw with Spec := hw.Spec }
            (getHardware env hw.key (getInventory env (nodeInventoryKey nc) w).2).2).1 = none
         then [Event.statusUpdateInventory (tinkInventory env.now inventory)
            (statusUpdateInventory env (tinkInventory env.now inventory)
              (updateHardware env { lookupHw with Spec := hw.Spec }
                (getHardware env hw.key
                  (getInventory env (nodeInventoryKey nc) w).2).2).2).1]
         else [])) ∧
    (∀ lookupHw,
      (getHardware env hw.key (getInventory env (nodeInventoryKey nc) w).2).1 = .ok lookupHw →
      lookupHw.Spec = hw.Spec →
      passTrace w (tinkNode env c nc w).2 =
        [Event.getInventory (nodeInventoryKey nc) none, Event.getHardware hw.key none] ∧
      (tinkNode env c nc w).2.store = w.store) ∧
    ConditionExists (tinkInventory env.now inventory).Status.Conditions .TinkWorkflowCreated
      = true := by
  simp only [nodeInventoryKey, Hardware.key] at hi ⊢
  refine ⟨?_, ?_, ?_, tinkInventory_condition _ _⟩
  · intro hl
    simp only [tinkNode, hi, hg, ho, hl, if_true]
    cases hc : (createHardware env hw
        (getHardware env ⟨hw.Namespace, hw.Name⟩
          (getInventory env ⟨nc.InventoryReference.Namespace, nc.InventoryReference.Name⟩
            w).2).2).1 with
    | some e =>
      simp only [hc]
      apply passTrace_append
      simp [hi, hl, errOf, hc]
    | none =>
      simp only [hc, if_true]
      have hcond : ({ inventory with Status := { inventory.Status with
          Conditions := CreateOrUpdateCondition env.now inventory.Status.Conditions
            .TinkWorkflowCreated "tink workflow created" } } : Inventory) =
          tinkInventory env.now inventory := rfl
      rw [hcond]
      split <;> (apply passTrace_append; simp [hi, hl, errOf, hc])
  · intro lookupHw hl hne
    simp only [tinkNode, hi, hg, ho, hl, hne, ne_eq, not_false_eq_true, if_true]
    cases hc : (updateHardware env { lookupHw with Spec := hw.Spec }
        (getHardware env ⟨hw.Namespace, hw.Name⟩
          (getInventory env ⟨nc.InventoryReference.Namespace, nc.InventoryReference.Name⟩
            w).2).2).1 with
    | some e =>
      simp only [hc]
      apply passTrace_append
      simp [hi, hl, errOf, hc]
    | none =>
      simp only [hc, if_true]
      have hcond : ({ inventory with Status := { inventory.Status with
          Conditions := CreateOrUpdateCondition env.now inventory.Status.Conditions
            .TinkWorkflowCreated "tink workflow created" } } : Inventory) =
          tinkInventory env.now inventory := rfl
      rw [hcond]
      split <;> (apply passTrace_append; simp [hi, hl, errOf, hc])
  · intro lookupHw hl heq
    simp only [tinkNode, hi, hg, ho, hl, heq, ne_eq, not_true_eq_false, if_false]
    refine ⟨?_, by simp⟩
    apply passTrace_append
    simp [hi, hl, errOf]

/-- Witness of C10: node A of the configured cluster, no hardware object
stored yet. -/
theorem tink_writes_on_divergence_witness :
    ((getInventory calmEnv (nodeInventoryKey nodeA) (freshWorld configuredStore)).1 =
        .ok readyInventoryA ∧
      calmEnv.GenerateHWRequest readyInventoryA configuredCluster =
        .ok { hardwareA with OwnerReferences := [] } ∧
      calmEnv.SetOwnerReference configuredCluster { hardwareA with OwnerReferences := [] } =
        .ok hardwareA ∧
      (getHardware calmEnv hardwareA.key
        (getInventory calmEnv (nodeInventoryKey nodeA) (freshWorld configuredStore)).2).1 =
          .error .notFound) ∧
    passTrace (freshWorld configuredStore)
        (tinkNode calmEnv configuredCluster nodeA (freshWorld configuredStore)).2 =
      [Event.getInventory (nodeInventoryKey nodeA) none,
       Event.getHardware hardwareA.key (some .notFound),
       Event.createHardware hardwareA none,
       Event.statusUpdateInventory (tinkInventory calmEnv.now readyInventoryA) none] :=
  ⟨⟨by rfl, by rfl, by rfl, by rfl⟩,
    ((tink_writes_on_divergence calmEnv configuredCluster nodeA (freshWorld configuredStore)
      readyInventoryA { hardwareA with OwnerReferences := [] } hardwareA
      (by rfl) (by rfl) (by rfl)).1 (by rfl)).trans (by rfl)⟩

/-! ## Missing objects on the deletion path -/

/-- The loop body of the deletion path tolerates a missing pool. -/
theorem cleanupNode_missing_pool (env : Env) (nc : NodeConfig) (w : World) :
    MissingTolerated env nc w := by
  intro hp
  simp only [cleanupNode, cleanupPoolKey, cleanupInventoryKey] at hp ⊢
  simp only [hp, missingOr, if_true]
  repeat' split
  all_goals simp_all [passTrace, errOf, missingOr]

/-- The loop body of the deletion path tolerates a missing Inventory. -/
theorem cleanupNode_missing_inventory (env : Env) (nc : NodeConfig) (w : World) :
    MissingInventoryTolerated env nc w := by
  intro hi
  simp only [cleanupPoolKey, cleanupInventoryKey] at hi ⊢
  refine ⟨?_, ?_, ?_⟩
  · simp only [cleanupNode]
    split
    · simp [passTrace]
    · simp only [hi, missingOr, if_true]
      split <;> simp [passTrace]
  · intro hp
    simp only [cleanupNode, hp, hi, missingOr, if_true]
  · intro pool hp
    simp only [cleanupNode, hp, hi, missingOr, if_true]
    simp [releasedPool]
    exact ⟨rfl, rfl⟩

/-- A loop body of the deletion path that falls through made no lookup that
failed with an error other than NotFound. -/
theorem cleanupNode_completed_lookups (env : Env) (nc : NodeConfig) (w : World)
    (h : (cleanupNode env nc w).1 = .completed) :
    ∀ ev ∈ passTrace w (cleanupNode env nc w).2, isFailedLookup ev = false := by
  revert h
  simp only [cleanupNode]
  split
  · simp
  · split
    · simp
    · rename_i _ pm pool hp _ im i0 hi
      cases pm with
      | false => 
        cases im with
        | true => simp
        | false =>
          simp only [Bool.false_eq_true, if_false]
          split <;> simp
      | true =>
        have hp1 := (missingOr_missing _ _ hp).1
        cases im with
        | true =>
          have hi1 := (missingOr_missing _ _ hi).1
          simp [passTrace, hp1, hi1, errOf, isFailedLookup, isLookup, Event.err]
        | false =>
          have hi1 := missingOr_found _ _ hi
          simp only [Bool.false_eq_true, if_false]
          split
          · simp
          · simp [passTrace, hp1, hi1, errOf, isFailedLookup, isLookup, Event.err]

/-- A loop body of the deletion path that returns ends with the call whose
outcome it returns; that call is not a lookup answered with NotFound, and no
call before it is a lookup that failed with another error. -/
theorem cleanupNode_returned_getLast (env : Env) (nc : NodeConfig) (w : World) (r : Option Err)
    (h : (cleanupNode env nc w).1 = .returned r) :
    ∃ ev, (passTrace w (cleanupNode env nc w).2).getLast? = some ev ∧
      (∀ x ∈ (passTrace w (cleanupNode env nc w).2).dropLast, isFailedLookup x = false) ∧
      ev.err = r ∧ isMissingLookup ev = false := by
  revert h
  simp only [cleanupNode]
  split
  · rename_i e he
    obtain ⟨h1, h2⟩ := missingOr_error _ _ he
    simp [passTrace, h1, h2, errOf, Event.err, isMissingLookup, isFailedLookup, isLookup]
  · split
    · rename_i _ pm pool hp _ e he
      obtain ⟨h1, h2⟩ := missingOr_error _ _ he
      cases pm with
      | true =>
        have hp1 := (missingOr_missing _ _ hp).1
        simp [passTrace, h1, h2, hp1, errOf, Event.err, isMissingLookup, isFailedLookup, isLookup]
      | false =>
        have hp1 := missingOr_found _ _ hp
        simp [passTrace, h1, h2, hp1, errOf, Event.err, isMissingLookup, isFailedLookup, isLookup]
    · rename_i _ pm pool hp _ im i0 hi
      cases im with
      | true =>
        have hi1 := (missingOr_missing _ _ hi).1
        simp only [if_true]
        cases pm with
        | true => simp
        | false =>
          have hp1 := missingOr_found _ _ hp
          simp [passTrace, hi1, hp1, errOf, Event.err, isMissingLookup, isFailedLookup, isLookup]
      | false =>
        have hi1 := missingOr_found _ _ hi
        simp only [Bool.false_eq_true, if_false]
        split
        · rename_i e he
          cases pm with
          | true =>
            have hp1 := (missingOr_missing _ _ hp).1
            simp [passTrace, hi1, hp1, he, errOf, Event.err, isMissingLookup, isFailedLookup,
              isLookup]
          | false =>
            have hp1 := missingOr_found _ _ hp
            simp [passTrace, hi1, hp1, he, errOf, Event.err, isMissingLookup, isFailedLookup,
              isLookup]
        · rename_i hu
          cases pm with
          | true => simp
          | false =>
            have hp1 := missingOr_found _ _ hp
            simp [passTrace, hi1, hp1, hu, errOf, Event.err, isMissingLookup, isFailedLookup,
              isLookup]

/-- Same as `cleanupNode_returned_getLast`, with the trace split at its last
call. -/
theorem cleanupNode_returned_last (env : Env) (nc : NodeConfig) (w : World) (r : Option Err)
    (h : (cleanupNode env nc w).1 = .returned r) :
    ∃ pre ev, passTrace w (cleanupNode env nc w).2 = pre ++ [ev] ∧
      (∀ x ∈ pre, isFailedLookup x = false) ∧ ev.err = r ∧ isMissingLookup ev = false := by
  obtain ⟨ev, h1, h2, h3, h4⟩ := cleanupNode_returned_getLast env nc w r h
  exact ⟨_, ev, (List.dropLast_append_getLast? ev (by simp [h1])).symm, h2, h3, h4⟩

/-- A sweep of the deletion path that visits every node made no lookup that
failed with an error other than NotFound. -/
theorem cleanupNodes_completed_lookups (env : Env) (nodes : List NodeConfig) (w : World)
    (h : (cleanupNodes env nodes w).1 = .completed) :
    ∀ ev ∈ passTrace w (cleanupNodes env nodes w).2, isFailedLookup ev = false := by
  induction nodes generalizing w with
  | nil => simp [cleanupNodes]
  | cons nc rest ih =>
    revert h
    simp only [cleanupNodes]
    have h1 := cleanupNode_ext env nc w
    have h2 := cleanupNode_completed_lookups env nc w
    split
    · intro h; cases h
    · rename_i w1 heq
      intro h
      rw [heq] at h1 h2
      rw [(passTrace_trans w w1 _ h1 (cleanupNodes_ext env rest w1)).1]
      intro ev hev
      rcases List.mem_append.1 hev with hm | hm
      · exact h2 rfl ev hm
      · exact ih w1 h ev hm

/-- A sweep of the deletion path that returns inside the loop ends with the
call whose outcome it returns; that call is not a lookup answered with
NotFound, and no call before it is a lookup that failed with another error. -/
theorem cleanupNodes_returned_last (env : Env) (nodes : List NodeConfig) (w : World)
    (r : Option Err) (h : (cleanupNodes env nodes w).1 = .returned r) :
    ∃ pre ev, passTrace w (cleanupNodes env nodes w).2 = pre ++ [ev] ∧
      (∀ x ∈ pre, isFailedLookup x = false) ∧ ev.err = r ∧ isMissingLookup ev = false := by
  induction nodes generalizing w with
  | nil => simp [cleanupNodes] at h
  | cons nc rest ih =>
    revert h
    simp only [cleanupNodes]
    have h1 := cleanupNode_ext env nc w
    have h2 := cleanupNode_completed_lookups env nc w
    have h3 := cleanupNode_returned_last env nc w
    split
    · rename_i e w1 heq
      intro h
      injection h with h
      subst h
      rw [heq] at h3
      exact h3 e rfl
    · rename_i w1 heq
      intro h
      rw [heq] at h1 h2
      obtain ⟨pre, ev, a1, a2, a3, a4⟩ := ih w1 h
      rw [(passTrace_trans w w1 _ h1 (cleanupNodes_ext env rest w1)).1, a1]
      refine ⟨passTrace w w1 ++ pre, ev, by simp, ?_, a3, a4⟩
      intro x hx
      rcases List.mem_append.1 hx with hm | hm
      · exact h2 rfl x hm
      · exact a2 x hm

theorem isFailedLookup_iff (ev : Event) :
    isFailedLookup ev = true ↔
      isLookup ev = true ∧ ev.err ≠ none ∧ isMissingLookup ev = false := by
  unfold isFailedLookup isMissingLookup
  cases isLookup ev <;> simp

theorem last_unique (pre pre1 : List Event) (ev ev1 : Event) (h : pre ++ [ev] = pre1 ++ [ev1]) :
    pre = pre1 ∧ ev = ev1 := by
  have := List.append_inj' h rfl
  simpa using this

/-- Outcome of the pass `cleanupClusterDeps` in terms of its last call. -/
theorem cleanupClusterDeps_last (env : Env) (c : Cluster) (w : World) :
    ((cleanupClusterDeps env c w).1 = none ∧
      ∀ ev ∈ passTrace w (cleanupClusterDeps env c w).2.2, isFailedLookup ev = false) ∨
    (∃ pre ev, passTrace w (cleanupClusterDeps env c w).2.2 = pre ++ [ev] ∧
      (∀ x ∈ pre, isFailedLookup x = false) ∧ ev.err = (cleanupClusterDeps env c w).1 ∧
      isMissingLookup ev = false) := by
  simp only [cleanupClusterDeps]
  have h1 := cleanupNodes_ext env c.Spec.Nodes w
  have h2 := cleanupNodes_completed_lookups env c.Spec.Nodes w
  have h3 := cleanupNodes_returned_last env c.Spec.Nodes w
  split
  · rename_i e w1 heq
    rw [heq] at h3
    exact Or.inr (h3 e rfl)
  · rename_i w1 heq
    rw [heq] at h1 h2
    have h2 := h2 rfl
    split
    · right
      have ht : passTrace w (updateCluster env (RemoveFinalizer c ClusterFinalizer) w1).2 =
          passTrace w w1 ++ [Event.updateCluster (RemoveFinalizer c ClusterFinalizer)
            (errOf (updateCluster env (RemoveFinalizer c ClusterFinalizer) w1).1)] := by
        apply passTrace_append
        rw [updateCluster_trace, h1, List.append_assoc]
      split
      · rename_i e he
        refine ⟨_, _, ht, h2, ?_, rfl⟩
        simp [Event.err, he, errOf]
      · rename_i c2 he
        refine ⟨_, _, ht, h2, ?_, rfl⟩
        simp [Event.err, he, errOf]
    · exact Or.inl ⟨rfl, h2⟩

/-- C11: in the deletion pass `cleanupClusterDeps`, for every node entry and
every state in which its loop body starts: a pool lookup answered with
NotFound is followed by the Inventory lookup and by no pool write, and an
Inventory lookup answered with NotFound is followed by no Inventory write (the
body then falls through when the pool is missing too, and otherwise returns
the outcome of the pool write).  Whenever the pass returns an error, it is the
error of its last call, and that call is not a lookup answered with NotFound.
The pass returns the error of a lookup if and only if some lookup of the pass
failed with an error other than NotFound. -/
theorem cleanup_tolerates_missing (env : Env) (c : Cluster) (w : World) :
    (∀ nc ∈ c.Spec.Nodes, ∀ w1 : World,
      MissingTolerated env nc w1 ∧ MissingInventoryTolerated env nc w1) ∧
    (∀ e, (cleanupClusterDeps env c w).1 = some e →
      ∃ pre ev, passTrace w (cleanupClusterDeps env c w).2.2 = pre ++ [ev] ∧
        ev.err = some e ∧ isMissingLookup ev = false) ∧
    ((∃ pre ev, passTrace w (cleanupClusterDeps env c w).2.2 = pre ++ [ev] ∧
        isLookup ev = true ∧ ev.err = (cleanupClusterDeps env c w).1 ∧
        (cleanupClusterDeps env c w).1 ≠ none) ↔
      ∃ ev ∈ passTrace w (cleanupClusterDeps env c w).2.2, isFailedLookup ev = true) := by
  refine ⟨fun nc _ w1 => ⟨cleanupNode_missing_pool env nc w1,
    cleanupNode_missing_inventory env nc w1⟩, ?_, ?_⟩
  · intro e he
    rcases cleanupClusterDeps_last env c w with ⟨h1, _⟩ | ⟨pre, ev, h1, _, h3, h4⟩
    · rw [h1] at he
      cases he
    · exact ⟨pre, ev, h1, by rw [h3, he], h4⟩
  · constructor
    · rintro ⟨pre, ev, h1, h2, h3, h4⟩
      rcases cleanupClusterDeps_last env c w with ⟨g1, _⟩ | ⟨pre1, ev1, g1, _, g3, g4⟩
      · exact absurd g1 h4
      · rw [h1] at g1
        obtain ⟨_, hev⟩ := last_unique _ _ _ _ g1
        subst hev
        refine ⟨ev, ?_, (isFailedLookup_iff ev).2 ⟨h2, by rw [h3]; exact h4, g4⟩⟩
        rw [h1]
        simp
    · rintro ⟨ev, hev, hf⟩
      rcases cleanupClusterDeps_last env c w with ⟨_, g2⟩ | ⟨pre1, ev1, g1, g2, g3, g4⟩
      · rw [g2 ev hev] at hf
        cases hf
      · rw [g1] at hev
        rcases List.mem_append.1 hev with hm | hm
        · rw [g2 ev hm] at hf
          cases hf
        · simp at hm
          subst hm
          obtain ⟨a1, a2, _⟩ := (isFailedLookup_iff ev).1 hf
          exact ⟨pre1, ev, g1, a1, g3, by rw [← g3]; exact a2⟩

/-- C11 at the provisioned cluster whose node pool was deleted independently:
the pool lookup of node A answers NotFound, the pass returns no error, the body
of node A writes no pool, and no lookup of the pass failed with another
error. -/
theorem cleanup_tolerates_missing_witness :
    (getAddressPool calmEnv (cleanupPoolKey nodeA) (freshWorld poollessStore)).1 =
      .error .notFound ∧
    (cleanupClusterDeps calmEnv doomedCluster (freshWorld poollessStore)).1 = none ∧
    (∀ p e, Event.statusUpdateAddressPool p e ∉
      passTrace (freshWorld poollessStore)
        (cleanupNode calmEnv nodeA (freshWorld poollessStore)).2) ∧
    ¬ (∃ ev ∈ passTrace (freshWorld poollessStore)
        (cleanupClusterDeps calmEnv doomedCluster (freshWorld poollessStore)).2.2,
      isFailedLookup ev = true) :=
  ⟨by rfl, by rfl,
    ((((cleanup_tolerates_missing calmEnv doomedCluster (freshWorld poollessStore)).1
      nodeA (by decide) (freshWorld poollessStore)).1) (by rfl)).1,
    fun h =>
      match ((cleanup_tolerates_missing calmEnv doomedCluster
          (freshWorld poollessStore)).2.2).2 h with
      | ⟨_, _, _, _, _, h4⟩ => h4 (by rfl)⟩

/-! ## A failed pool write on the creation path -/

/-- The loop body of `patchNodesAndPools` writes nothing for a node whose
stored Inventory carries InventoryAllocatedToCluster, whatever the pool holds
and whatever the outcome of the lookups: neither the Inventory nor the pool is
sent to the store, and the store is left as it was. -/
theorem patchNode_skips_allocated (env : Env) (c : Cluster) (n : Nat) (nc : NodeConfig)
    (w : World) (i : Inventory)
    (hi : lookup Inventory.key (nodeInventoryKey nc) w.store.Inventories = some i)
    (ha : ConditionExists i.Status.Conditions .InventoryAllocatedToCluster = true) :
    (patchNode env c n nc w).2.store = w.store ∧
    (∀ ev ∈ passTrace w (patchNode env c n nc w).2, isWrite ev = false) := by
  simp only [patchNode, nodeInventoryKey] at hi ⊢
  split
  · simp [passTrace, isWrite]
  · split
    · simp [passTrace, isWrite]
    · split
      · simp [passTrace, isWrite]
      · rename_i i1 hi1
        obtain ⟨_, hl, _⟩ := getInventory_ok _ _ _ _ hi1
        rw [getAddressPool_store, hi] at hl
        cases hl
        split
        · simp [passTrace, isWrite]
        · simp only [ha, if_true]
          simp [passTrace, isWrite]

/-- C12 (violated by the code): first pass over the configured cluster with
the pool status update of node A failing, then a pass without faults.  The
first pass persists the Inventory of node A with address `10.0.0.2` and
InventoryAllocatedToCluster and returns the error of the pool update.  The
next pass completes without error and advances the cluster, yet the node pool
it leaves does not hold `10.0.0.2` for node A: the address was handed to node
B, so both Inventories carry InventoryAllocatedToCluster with `10.0.0.2`. -/
theorem patch_leaves_claim_unrecorded :
    passTrace (freshWorld configuredStore) firstPatch.2.2 =
      [ Event.getAddressPool ⟨"pool", "pool"⟩ none,
        Event.getInventory ⟨"inv-a", "inv-a"⟩ none,
        Event.allocateAddress freeNodePool.Status "" none,
        Event.statusUpdateInventory patchedInventoryA none,
        Event.statusUpdateAddressPool nodePoolWithA (some .api) ] ∧
    firstPatch.1 = some .api ∧
    boundAddress firstPatch.2.2.store ⟨"inv-a", "inv-a"⟩ = some ("10.0.0.2", true) ∧
    storedAllocation firstPatch.2.2.store ⟨"pool", "pool"⟩ = some [] ∧
    secondPatch.1 = none ∧
    phaseOf secondPatch.2.2.store ⟨"default", "c1"⟩ = some .ClusterNodesPatched ∧
    boundAddress secondPatch.2.2.store ⟨"inv-a", "inv-a"⟩ = some ("10.0.0.2", true) ∧
    holdsClaim secondPatch.2.2.store ⟨"pool", "pool"⟩ "10.0.0.2"
      (inventoryClaim readyInventoryA) = false ∧
    storedAllocation secondPatch.2.2.store ⟨"pool", "pool"⟩ =
      some [("10.0.0.2", inventoryClaim readyInventoryB)] ∧
    boundAddress secondPatch.2.2.store ⟨"inv-b", "inv-b"⟩ = some ("10.0.0.2", true) := by
  refine ⟨by rfl, by rfl, by rfl, by rfl, by rfl, by rfl, by rfl, by rfl, by rfl, by rfl⟩

/-! ## Keys of the pool lookups -/

/-- The loop body of the deletion path starts with the pool lookup under the
key made of the pool reference's name twice, and makes no other pool lookup. -/
theorem cleanupNode_pool_lookup (env : Env) (nc : NodeConfig) (w : World) :
    (∃ e rest, passTrace w (cleanupNode env nc w).2 =
      Event.getAddressPool ⟨nc.AddressPoolReference.Name, nc.AddressPoolReference.Name⟩ e ::
        rest) ∧
    (∀ k e, Event.getAddressPool k e ∈ passTrace w (cleanupNode env nc w).2 →
      k = ⟨nc.AddressPoolReference.Name, nc.AddressPoolReference.Name⟩) := by
  simp only [cleanupNode]
  repeat' split
  all_goals simp [passTrace]

/-- Every pool lookup of the sweep of the deletion path uses the key made of
the name of a node's pool reference twice. -/
theorem cleanupNodes_pool_keys (env : Env) (nodes : List NodeConfig) (w : World)
    (k : NamespacedName) (e : Option Err)
    (h : Event.getAddressPool k e ∈ passTrace w (cleanupNodes env nodes w).2) :
    ∃ nc ∈ nodes, k = ⟨nc.AddressPoolReference.Name, nc.AddressPoolReference.Name⟩ := by
  induction nodes generalizing w with
  | nil => simp [cleanupNodes] at h
  | cons nc rest ih =>
    revert h
    simp only [cleanupNodes]
    have h1 := cleanupNode_ext env nc w
    have h2 := (cleanupNode_pool_lookup env nc w).2
    split
    · rename_i e1 w1 heq
      rw [heq] at h2
      intro h
      exact ⟨nc, List.mem_cons_self _ _, h2 k e h⟩
    · rename_i w1 heq
      rw [heq] at h1 h2
      rw [(passTrace_trans w w1 _ h1 (cleanupNodes_ext env rest w1)).1]
      intro h
      rcases List.mem_append.1 h with hm | hm
      · exact ⟨nc, List.mem_cons_self _ _, h2 k e hm⟩
      · obtain ⟨nc1, a1, a2⟩ := ih w1 hm
        exact ⟨nc1, List.mem_cons_of_mem _ a1, a2⟩

/-- Every pool lookup of the pass `cleanupClusterDeps` uses the key made of
the name of a node's pool reference twice. -/
theorem cleanupClusterDeps_pool_keys (env : Env) (c : Cluster) (w : World)
    (k : NamespacedName) (e : Option Err)
    (h : Event.getAddressPool k e ∈ passTrace w (cleanupClusterDeps env c w).2.2) :
    ∃ nc ∈ c.Spec.Nodes, k = ⟨nc.AddressPoolReference.Name, nc.AddressPoolReference.Name⟩ := by
  revert h
  simp only [cleanupClusterDeps]
  have h1 := cleanupNodes_ext env c.Spec.Nodes w
  have h2 := cleanupNodes_pool_keys env c.Spec.Nodes w k e
  split
  · rename_i e1 w1 heq
    rw [heq] at h2
    exact h2
  · rename_i w1 heq
    rw [heq] at h1 h2
    have ht : passTrace w (updateCluster env (RemoveFinalizer c ClusterFinalizer) w1).2 =
        passTrace w w1 ++ [Event.updateCluster (RemoveFinalizer c ClusterFinalizer)
          (errOf (updateCluster env (RemoveFinalizer c ClusterFinalizer) w1).1)] := by
      apply passTrace_append
      rw [updateCluster_trace, h1, List.append_assoc]
    split
    · split
      all_goals
        rw [ht]
        intro h
        rcases List.mem_append.1 h with hm | hm
        · exact h2 hm
        · simp at hm
    · exact h2

/-- The loop body of `patchNodesAndPools` starts with the pool lookup under
the key made of the pool reference's namespace and name. -/
theorem patchNode_pool_lookup (env : Env) (c : Cluster) (n : Nat) (nc : NodeConfig)
    (w : World) :
    ∃ e rest, passTrace w (patchNode env c n nc w).2 =
      Event.getAddressPool
        ⟨nc.AddressPoolReference.Namespace, nc.AddressPoolReference.Name⟩ e :: rest := by
  simp only [patchNode]
  repeat' split
  all_goals simp [passTrace]

/-- C13: every node entry's loop body of `cleanupClusterDeps` starts with the
pool lookup under the key with namespace and name both equal to the name of
the node's pool reference, and every pool lookup of the pass has such a key;
the loop body of `patchNodesAndPools` starts with the pool lookup under the
key made of the reference's namespace and name; the two keys differ whenever
the reference's namespace differs from its name.  The cluster `farDoomed` is
an instance: its node references the pool `pool` in the namespace `net`, the
creation path looked up `net/pool` and found the pool, the deletion path looks
up `pool/pool` and is answered NotFound. -/
theorem cleanup_pool_key_ignores_namespace (env : Env) (c : Cluster) (w : World) :
    (∀ nc ∈ c.Spec.Nodes, ∀ w1 : World, ∃ e rest,
      passTrace w1 (cleanupNode env nc w1).2 =
        Event.getAddressPool ⟨nc.AddressPoolReference.Name, nc.AddressPoolReference.Name⟩ e ::
          rest) ∧
    (∀ k e, Event.getAddressPool k e ∈ passTrace w (cleanupClusterDeps env c w).2.2 →
      ∃ nc ∈ c.Spec.Nodes,
        k = ⟨nc.AddressPoolReference.Name, nc.AddressPoolReference.Name⟩) ∧
    (∀ nc ∈ c.Spec.Nodes, ∀ (n : Nat) (w1 : World), ∃ e rest,
      passTrace w1 (patchNode env c n nc w1).2 =
        Event.getAddressPool
          ⟨nc.AddressPoolReference.Namespace, nc.AddressPoolReference.Name⟩ e :: rest) ∧
    (∀ nc : NodeConfig, nc.AddressPoolReference.Namespace ≠ nc.AddressPoolReference.Name →
      cleanupPoolKey nc ≠ nodePoolKey nc) ∧
    (farDoomed.Spec.Nodes = [farNode] ∧ farCluster.Spec.Nodes = [farNode] ∧
      farNode.AddressPoolReference.Namespace ≠ farNode.AddressPoolReference.Name ∧
      (passTrace (freshWorld farStore)
          (patchNodesAndPools calmEnv farCluster (freshWorld farStore)).2.2).head? =
        some (Event.getAddressPool ⟨"net", "pool"⟩ none) ∧
      (passTrace (freshWorld farDoomedStore)
          (cleanupClusterDeps calmEnv farDoomed (freshWorld farDoomedStore)).2.2).head? =
        some (Event.getAddressPool ⟨"pool", "pool"⟩ (some .notFound)) ∧
      (⟨"pool", "pool"⟩ : NamespacedName) ≠ ⟨"net", "pool"⟩) := by
  refine ⟨fun nc _ w1 => (cleanupNode_pool_lookup env nc w1).1,
    cleanupClusterDeps_pool_keys env c w,
    fun nc _ n w1 => patchNode_pool_lookup env c n nc w1, ?_,
    by rfl, by rfl, by decide, by rfl, by rfl, by decide⟩
  intro nc h heq
  simp only [cleanupPoolKey, nodePoolKey] at heq
  injection heq with h1 _
  exact h h1.symm

end Seeder
